import Mathlib

/-!
# VSTGUI CoreGraphics draw context (`vstgui/lib/platform/mac/cgdrawcontext.cpp`)

A shallow embedding of `CoreGraphicsDrawDevice` and `CGDrawContext`.

* Coordinates (`CCoord`, `CGFloat`) are exact rationals; the `static_cast`s between the
  two floating point types are the identity.
* The native CoreGraphics context is a value holding the current transformation matrix
  (user space to device space) and the stack of saved graphics states.  The CTM is the
  only part of the graphics state the code reads back (through the
  `CGContextConvert...` queries), every other effect is observable in the call log.
* Every call a method issues on the native context, on its base class or on a platform
  object is appended to the `log` of the object, in program order.  The `CGContextConvert...`
  queries read the CTM and are not logged.
* Classes of the toolkit whose code is in other files (`CDrawContext`, `CBitmap`, `CGBitmap`,
  `CGraphicsPath`, `CGradient`, ...) appear with the members and results this file uses.
* The blocks under `#if DEBUG` are left out.
-/

namespace VSTGUI

/-! ## Geometry -/

abbrev CCoord := ℚ

abbrev CGFloat := ℚ

structure CPoint where
  x : CCoord
  y : CCoord
  deriving DecidableEq, Repr

structure CRect where
  left : CCoord
  top : CCoord
  right : CCoord
  bottom : CCoord
  deriving DecidableEq, Repr

structure CGPoint where
  x : CGFloat
  y : CGFloat
  deriving DecidableEq, Repr

structure CGSize where
  width : CGFloat
  height : CGFloat
  deriving DecidableEq, Repr

structure CGRect where
  origin : CGPoint
  size : CGSize
  deriving DecidableEq, Repr

/-- CoreGraphics affine transform: `x' = a x + c y + tx`, `y' = b x + d y + ty`. -/
structure CGAffineTransform where
  a : CGFloat
  b : CGFloat
  c : CGFloat
  d : CGFloat
  tx : CGFloat
  ty : CGFloat
  deriving DecidableEq, Repr

/-- Toolkit transform (`CGraphicsTransform`): `x' = m11 x + m12 y + dx`,
`y' = m21 x + m22 y + dy`. -/
structure CGraphicsTransform where
  m11 : CCoord
  m12 : CCoord
  m21 : CCoord
  m22 : CCoord
  dx : CCoord
  dy : CCoord
  deriving DecidableEq, Repr

def CRect.getWidth (r : CRect) : CCoord := r.right - r.left

def CRect.getHeight (r : CRect) : CCoord := r.bottom - r.top

/-- Modelled from the spec: `CRect::isEmpty` (crect.h, not in src); a rectangle is empty
when it has no positive width or no positive height. -/
def CRect.isEmpty (r : CRect) : Bool :=
  decide (r.right - r.left ≤ 0) || decide (r.bottom - r.top ≤ 0)

/-- Modelled from the spec: `CGraphicsTransform::isInvariant` (cgraphicstransform.h, not in
src); the identity transform. -/
def CGraphicsTransform.isInvariant (t : CGraphicsTransform) : Bool :=
  decide (t.m11 = 1 ∧ t.m12 = 0 ∧ t.m21 = 0 ∧ t.m22 = 1 ∧ t.dx = 0 ∧ t.dy = 0)

/-- The helper `CGPointFromCPoint` (macglobals.h). -/
def CGPointFromCPoint (p : CPoint) : CGPoint := ⟨p.x, p.y⟩

/-- The helper `CGRectFromCRect` (macglobals.h): origin `(left, top)`, size
`(width, height)`. -/
def CGRectFromCRect (r : CRect) : CGRect := ⟨⟨r.left, r.top⟩, ⟨r.getWidth, r.getHeight⟩⟩

/-- The helper `createCGAffineTransform` (macglobals.h):
`CGAffineTransformMake (m11, m21, m12, m22, dx, dy)`. -/
def createCGAffineTransform (t : CGraphicsTransform) : CGAffineTransform :=
  ⟨t.m11, t.m21, t.m12, t.m22, t.dx, t.dy⟩

/-- The C library `std::round`: nearest integer, halfway cases away from zero. -/
def std_round (x : ℚ) : ℚ :=
  if 0 ≤ x then (⌊x + 1 / 2⌋ : ℤ) else (⌈x - 1 / 2⌉ : ℤ)

/-! ## CoreGraphics affine transforms -/

def CGAffineTransformMake (a b c d tx ty : CGFloat) : CGAffineTransform := ⟨a, b, c, d, tx, ty⟩

def CGAffineTransformIdentity : CGAffineTransform := ⟨1, 0, 0, 1, 0, 0⟩

def CGAffineTransformMakeScale (sx sy : CGFloat) : CGAffineTransform := ⟨sx, 0, 0, sy, 0, 0⟩

def CGAffineTransformMakeTranslation (tx ty : CGFloat) : CGAffineTransform :=
  ⟨1, 0, 0, 1, tx, ty⟩

/-- The product `t1 * t2`: apply `t1` first, then `t2`. -/
def CGAffineTransformConcat (t1 t2 : CGAffineTransform) : CGAffineTransform :=
  { a := t1.a * t2.a + t1.b * t2.c
    b := t1.a * t2.b + t1.b * t2.d
    c := t1.c * t2.a + t1.d * t2.c
    d := t1.c * t2.b + t1.d * t2.d
    tx := t1.tx * t2.a + t1.ty * t2.c + t2.tx
    ty := t1.tx * t2.b + t1.ty * t2.d + t2.ty }

def CGAffineTransform.det (t : CGAffineTransform) : CGFloat := t.a * t.d - t.b * t.c

/-- The inverse transform; a transform that cannot be inverted is returned unchanged. -/
def CGAffineTransformInvert (t : CGAffineTransform) : CGAffineTransform :=
  if t.det = 0 then t
  else
    { a := t.d / t.det
      b := -t.b / t.det
      c := -t.c / t.det
      d := t.a / t.det
      tx := (t.c * t.ty - t.d * t.tx) / t.det
      ty := (t.b * t.tx - t.a * t.ty) / t.det }

def CGPointApplyAffineTransform (p : CGPoint) (t : CGAffineTransform) : CGPoint :=
  ⟨t.a * p.x + t.c * p.y + t.tx, t.b * p.x + t.d * p.y + t.ty⟩

def CGSizeApplyAffineTransform (s : CGSize) (t : CGAffineTransform) : CGSize :=
  ⟨t.a * s.width + t.c * s.height, t.b * s.width + t.d * s.height⟩

/-- The smallest rectangle that contains the transformed corners of `r`. -/
def CGRectApplyAffineTransform (r : CGRect) (t : CGAffineTransform) : CGRect :=
  let p1 := CGPointApplyAffineTransform r.origin t
  let p2 := CGPointApplyAffineTransform ⟨r.origin.x + r.size.width, r.origin.y⟩ t
  let p3 := CGPointApplyAffineTransform ⟨r.origin.x, r.origin.y + r.size.height⟩ t
  let p4 := CGPointApplyAffineTransform
    ⟨r.origin.x + r.size.width, r.origin.y + r.size.height⟩ t
  let minX := min (min p1.x p2.x) (min p3.x p4.x)
  let maxX := max (max p1.x p2.x) (max p3.x p4.x)
  let minY := min (min p1.y p2.y) (min p3.y p4.y)
  let maxY := max (max p1.y p2.y) (max p3.y p4.y)
  ⟨⟨minX, minY⟩, ⟨maxX - minX, maxY - minY⟩⟩

/-! ## Enumerations and value types of the toolkit and of CoreGraphics -/

inductive CGPathDrawingMode where
  | kCGPathFill
  | kCGPathEOFill
  | kCGPathStroke
  | kCGPathFillStroke
  | kCGPathEOFillStroke
  deriving DecidableEq, Repr

inductive CGLineCap where
  | kCGLineCapButt
  | kCGLineCapRound
  | kCGLineCapSquare
  deriving DecidableEq, Repr

inductive CGLineJoin where
  | kCGLineJoinMiter
  | kCGLineJoinRound
  | kCGLineJoinBevel
  deriving DecidableEq, Repr

inductive CGInterpolationQuality where
  | kCGInterpolationNone
  | kCGInterpolationMedium
  | kCGInterpolationHigh
  deriving DecidableEq, Repr

inductive DrawStyle where
  | Stroked
  | Filled
  | FilledAndStroked
  deriving DecidableEq, Repr

inductive PixelAlignmentMode where
  | Off
  | On
  deriving DecidableEq, Repr

/-- The toolkit enum `CDrawStyle`; a C++ enum can hold any value of its underlying type,
which is why the source switches have a `default` branch. -/
abbrev CDrawStyle := Nat

def kDrawStroked : CDrawStyle := 0

def kDrawFilled : CDrawStyle := 1

def kDrawFilledAndStroked : CDrawStyle := 2

inductive PathDrawMode where
  | kPathFilled
  | kPathFilledEvenOdd
  | kPathStroked
  deriving DecidableEq, Repr

inductive BitmapInterpolationQuality where
  | kDefault
  | kLow
  | kMedium
  | kHigh
  deriving DecidableEq, Repr

inductive LineCap where
  | kLineCapButt
  | kLineCapRound
  | kLineCapSquare
  deriving DecidableEq, Repr

inductive LineJoin where
  | kLineJoinMiter
  | kLineJoinRound
  | kLineJoinBevel
  deriving DecidableEq, Repr

/-- Modelled from the spec: `CLineStyle` (clinestyle.h, not in src); cap, join, dash phase
and the dash lengths, whose number is `getDashCount`. -/
structure CLineStyle where
  lineCap : LineCap
  lineJoin : LineJoin
  dashPhase : CCoord
  dashLengths : List CCoord
  deriving DecidableEq, Repr

def CLineStyle.getDashCount (s : CLineStyle) : Nat := s.dashLengths.length

/-- Modelled from the spec: `CDrawMode` (cdrawdefs.h, not in src); the mode value without
the integral flag (`0` aliasing, `1` anti-aliasing) and the non-integral flag. -/
structure CDrawMode where
  mode : Nat
  nonIntegral : Bool
  deriving DecidableEq, Repr

def CDrawMode.integralMode (m : CDrawMode) : Bool := !m.nonIntegral

def CDrawMode.aliasing (m : CDrawMode) : Bool := decide (m.mode = 0)

def CDrawMode.antiAliasing (m : CDrawMode) : Bool := decide (m.mode = 1)

structure CColor where
  red : Nat
  green : Nat
  blue : Nat
  alpha : Nat
  deriving DecidableEq, Repr

structure LinePair where
  first : CPoint
  second : CPoint
  deriving DecidableEq, Repr

/-- The containers of the toolkit are lists; the 32-bit counters that index them in the
source are unbounded here, which is exact for containers of fewer than `2 ^ 31` elements. -/
abbrev LineList := List LinePair

abbrev PointList := List CPoint

/-- A native image: its identity and the results of `CGImageGetWidth` and
`CGImageGetHeight`. -/
structure CGImageRef where
  id : Nat
  width : Nat
  height : Nat
  deriving DecidableEq, Repr

/-- Handles of native objects. -/
abbrev CGLayerRef := Nat

abbrev CGGradientRef := Nat

/-! ## The call log -/

/-- The calls the two classes issue: CoreGraphics calls on the native context, calls into
the base class `CDrawContext` and calls on platform objects. -/
inductive Call where
  | CGContextSaveGState
  | CGContextRestoreGState
  | CGContextRetain
  | CGContextRelease
  | CFRetain
  | CFRelease
  | CGContextSetAllowsAntialiasing (flag : Bool)
  | CGContextSetAllowsFontSmoothing (flag : Bool)
  | CGContextSetAllowsFontSubpixelPositioning (flag : Bool)
  | CGContextSetAllowsFontSubpixelQuantization (flag : Bool)
  | CGContextSetShouldAntialias (flag : Bool)
  | CGContextSetFillColorSpace
  | CGContextSetStrokeColorSpace
  | CGContextSetTextMatrix (t : CGAffineTransform)
  | CGContextTranslateCTM (tx ty : CGFloat)
  | CGContextScaleCTM (sx sy : CGFloat)
  | CGContextConcatCTM (t : CGAffineTransform)
  | CGContextBeginPath
  | CGContextMoveToPoint (x y : CGFloat)
  | CGContextAddLineToPoint (x y : CGFloat)
  | CGContextAddRect (r : CGRect)
  | CGContextAddEllipseInRect (r : CGRect)
  | CGContextAddArc (x y radius startAngle endAngle : CGFloat) (clockwise : Nat)
  | CGContextAddPath (path : List CGPoint)
  | CGContextDrawPath (mode : CGPathDrawingMode)
  | CGContextStrokeLineSegments (points : List CGPoint) (count : Nat)
  | CGContextClearRect (r : CGRect)
  | CGContextClipToRect (r : CGRect)
  | CGContextClip
  | CGContextEOClip
  | CGContextSetLineCap (cap : CGLineCap)
  | CGContextSetLineJoin (join : CGLineJoin)
  | CGContextSetLineDash (phase : CGFloat) (lengths : List CGFloat) (count : Nat)
  | CGContextSetLineWidth (width : CGFloat)
  | CGContextSetFillColorWithColor (color : CColor)
  | CGContextSetStrokeColorWithColor (color : CColor)
  | CGContextSetAlpha (alpha : CGFloat)
  | CGContextSetInterpolationQuality (quality : CGInterpolationQuality)
  | CGContextDrawLinearGradient (gradient : CGGradientRef) (start stop : CGPoint)
  | CGContextDrawRadialGradient (gradient : CGGradientRef) (startCenter : CGPoint)
      (startRadius : CGFloat) (endCenter : CGPoint) (endRadius : CGFloat)
  | CGContextDrawLayerInRect (dest : CGRect) (layer : CGLayerRef)
  | CGContextDrawImage (dest : CGRect) (image : CGImageRef)
  | CGContextDrawTiledImage (r : CGRect) (image : CGImageRef)
  | CDrawContext_init
  | CDrawContext_saveGlobalState
  | CDrawContext_restoreGlobalState
  | CDrawContext_setGlobalAlpha (alpha : CGFloat)
  | CDrawContext_setLineStyle (style : CLineStyle)
  | CDrawContext_setLineWidth (width : CCoord)
  | CDrawContext_setDrawMode (mode : CDrawMode)
  | CDrawContext_setClipRect (clip : CRect)
  | CDrawContext_resetClipRect
  | CDrawContext_setFontColor (color : CColor)
  | CDrawContext_setFrameColor (color : CColor)
  | CDrawContext_setFillColor (color : CColor)
  | CDrawContext_fillRectWithBitmap (srcRect dstRect : CRect) (alpha : CGFloat)
  | CGBitmap_setDirty (bitmap : Nat)
  | CGBitmap_createCGLayer (bitmap : Nat)
  | CGGraphicsPath_pixelAlign (aligned : List CGPoint)
  | CBitmap_forget
  deriving Repr

/-- The calls that go to the native context (every `CGContext...` function). -/
def Call.isNative : Call → Bool
  | .CGContextRetain => false
  | .CGContextRelease => false
  | .CFRetain => false
  | .CFRelease => false
  | .CDrawContext_init => false
  | .CDrawContext_saveGlobalState => false
  | .CDrawContext_restoreGlobalState => false
  | .CDrawContext_setGlobalAlpha _ => false
  | .CDrawContext_setLineStyle _ => false
  | .CDrawContext_setLineWidth _ => false
  | .CDrawContext_setDrawMode _ => false
  | .CDrawContext_setClipRect _ => false
  | .CDrawContext_resetClipRect => false
  | .CDrawContext_setFontColor _ => false
  | .CDrawContext_setFrameColor _ => false
  | .CDrawContext_setFillColor _ => false
  | .CDrawContext_fillRectWithBitmap _ _ _ => false
  | .CGBitmap_setDirty _ => false
  | .CGBitmap_createCGLayer _ => false
  | .CGGraphicsPath_pixelAlign _ => false
  | .CBitmap_forget => false
  | _ => true

/-! ## The native context -/

/-- The native context object: the current transformation matrix (user space to device
space) and the stack of saved graphics states, newest first. -/
structure CGContext where
  ctm : CGAffineTransform
  gstack : List CGAffineTransform
  deriving DecidableEq, Repr

/-- The effect of a call on the native context.  `CGContextSaveGState` pushes a copy of the
graphics state, `CGContextRestoreGState` pops it (and does nothing on an empty stack), the
three CTM calls replace the CTM by `t * CTM`, computed in exact arithmetic; no other call
changes the CTM or the stack.  `CGContext.performRounded` is the variant for a native context
that keeps its CTM in floating point. -/
def CGContext.perform (k : CGContext) : Call → CGContext
  | .CGContextSaveGState => { k with gstack := k.ctm :: k.gstack }
  | .CGContextRestoreGState =>
    match k.gstack with
    | [] => k
    | t :: rest => { ctm := t, gstack := rest }
  | .CGContextTranslateCTM tx ty =>
    { k with ctm := CGAffineTransformConcat (CGAffineTransformMakeTranslation tx ty) k.ctm }
  | .CGContextScaleCTM sx sy =>
    { k with ctm := CGAffineTransformConcat (CGAffineTransformMakeScale sx sy) k.ctm }
  | .CGContextConcatCTM t => { k with ctm := CGAffineTransformConcat t k.ctm }
  | _ => k

/-- The user space to device space transform of a context handle.  The queries below are
only issued on a handle that is not null; for the null handle they are the identity. -/
def CGContextGetCTM (c : Option CGContext) : CGAffineTransform :=
  match c with
  | some k => k.ctm
  | none => CGAffineTransformIdentity

def CGContextConvertPointToDeviceSpace (c : Option CGContext) (p : CGPoint) : CGPoint :=
  CGPointApplyAffineTransform p (CGContextGetCTM c)

def CGContextConvertPointToUserSpace (c : Option CGContext) (p : CGPoint) : CGPoint :=
  CGPointApplyAffineTransform p (CGAffineTransformInvert (CGContextGetCTM c))

def CGContextConvertSizeToDeviceSpace (c : Option CGContext) (s : CGSize) : CGSize :=
  CGSizeApplyAffineTransform s (CGContextGetCTM c)

def CGContextConvertSizeToUserSpace (c : Option CGContext) (s : CGSize) : CGSize :=
  CGSizeApplyAffineTransform s (CGAffineTransformInvert (CGContextGetCTM c))

def CGContextConvertRectToDeviceSpace (c : Option CGContext) (r : CGRect) : CGRect :=
  CGRectApplyAffineTransform r (CGContextGetCTM c)

/-- The conversion `static_cast<int32_t>` of a coordinate: truncation toward zero (values
outside the range of `int32_t` have no defined result in C++ and are not wrapped here). -/
def static_cast_int32 (x : CCoord) : ℤ := if 0 ≤ x then ⌊x⌋ else ⌈x⌉

/-! ## `Platform::CoreGraphicsDrawDevice` -/

namespace Platform

def drawStyleToCGPathDrawingMode (style : DrawStyle) : CGPathDrawingMode :=
  match style with
  | .Stroked => .kCGPathStroke
  | .Filled => .kCGPathFill
  | .FilledAndStroked => .kCGPathFillStroke

/-- The members of `CoreGraphicsDrawDevice` and the log of the calls it has issued. -/
structure CoreGraphicsDrawDevice where
  cgContext : Option CGContext
  lineWidth : CCoord
  pixelAlignmentMode : PixelAlignmentMode
  bitmapInterpolationQuality : BitmapInterpolationQuality
  log : List Call

namespace CoreGraphicsDrawDevice

/-- Issue one call: it is logged and, on a handle that is not null, performed. -/
def call (self : CoreGraphicsDrawDevice) (c : Call) : CoreGraphicsDrawDevice :=
  { self with
    cgContext := self.cgContext.map (fun k => k.perform c)
    log := self.log ++ [c] }

def saveGlobalState (self : CoreGraphicsDrawDevice) : CoreGraphicsDrawDevice :=
  self.call .CGContextSaveGState

def restoreGlobalState (self : CoreGraphicsDrawDevice) : CoreGraphicsDrawDevice :=
  self.call .CGContextRestoreGState

/-- The constructor `CoreGraphicsDrawDevice (CGContextRef context)`; the members without
an initialiser in the constructor are parameters of the embedding. -/
def construct (context : Option CGContext) (lineWidth : CCoord)
    (pixelAlignmentMode : PixelAlignmentMode)
    (bitmapInterpolationQuality : BitmapInterpolationQuality) : CoreGraphicsDrawDevice :=
  let self : CoreGraphicsDrawDevice :=
    { cgContext := context
      lineWidth := lineWidth
      pixelAlignmentMode := pixelAlignmentMode
      bitmapInterpolationQuality := bitmapInterpolationQuality
      log := [] }
  self.call .CGContextRetain

/-- The destructor `~CoreGraphicsDrawDevice`. -/
def destruct (self : CoreGraphicsDrawDevice) : CoreGraphicsDrawDevice :=
  let self := self.restoreGlobalState
  let self := self.restoreGlobalState
  self.call .CGContextRelease

/-- The overload `pixelAlligned (const CGRect&)`. -/
def pixelAlligned_CGRect (self : CoreGraphicsDrawDevice) (r : CGRect) : CGRect :=
  let origin := CGContextConvertPointToDeviceSpace self.cgContext r.origin
  let size := CGContextConvertSizeToDeviceSpace self.cgContext r.size
  let origin : CGPoint := ⟨std_round origin.x, origin.y⟩
  let origin : CGPoint := ⟨origin.x, std_round origin.y⟩
  let size : CGSize := ⟨std_round size.width, size.height⟩
  let size : CGSize := ⟨size.width, std_round size.height⟩
  let origin := CGContextConvertPointToUserSpace self.cgContext origin
  let size := CGContextConvertSizeToUserSpace self.cgContext size
  ⟨origin, size⟩

/-- The overload `pixelAlligned (const CGPoint&)`. -/
def pixelAlligned_CGPoint (self : CoreGraphicsDrawDevice) (p : CGPoint) : CGPoint :=
  let result := CGContextConvertPointToDeviceSpace self.cgContext p
  let result : CGPoint := ⟨std_round result.x, result.y⟩
  let result : CGPoint := ⟨result.x, std_round result.y⟩
  CGContextConvertPointToUserSpace self.cgContext result

def init (self : CoreGraphicsDrawDevice) : CoreGraphicsDrawDevice :=
  let self := self.saveGlobalState
  let self := self.call (.CGContextSetAllowsAntialiasing true)
  let self := self.call (.CGContextSetAllowsFontSmoothing true)
  let self := self.call (.CGContextSetAllowsFontSubpixelPositioning true)
  let self := self.call (.CGContextSetAllowsFontSubpixelQuantization true)
  let self := self.call (.CGContextSetShouldAntialias false)
  let self := self.call .CGContextSetFillColorSpace
  let self := self.call .CGContextSetStrokeColorSpace
  let self := self.saveGlobalState
  let cgCTM := CGAffineTransformMake 1 0 0 (-1) 0 0
  self.call (.CGContextSetTextMatrix cgCTM)

def beginDraw (self : CoreGraphicsDrawDevice) : CoreGraphicsDrawDevice := self

def endDraw (self : CoreGraphicsDrawDevice) : CoreGraphicsDrawDevice := self

def needLineWidthCTM (self : CoreGraphicsDrawDevice) : Bool :=
  let width : ℤ := static_cast_int32 self.lineWidth
  if ((width : CCoord) = self.lineWidth) ∧ width.tmod 2 ≠ 0 then true else false

def applyLineWidthCTM (self : CoreGraphicsDrawDevice) : CoreGraphicsDrawDevice :=
  self.call (.CGContextTranslateCTM (1 / 2) (1 / 2))

def restoreLineWidthCTM (self : CoreGraphicsDrawDevice) : CoreGraphicsDrawDevice :=
  self.call (.CGContextTranslateCTM (-(1 / 2)) (-(1 / 2)))

def drawLine (self : CoreGraphicsDrawDevice) (line : LinePair) : CoreGraphicsDrawDevice :=
  let needCTMChange :=
    decide (self.pixelAlignmentMode = PixelAlignmentMode.On) && self.needLineWidthCTM
  let self := self.call .CGContextBeginPath
  let first := CGPointFromCPoint line.first
  let second := CGPointFromCPoint line.second
  let aligned := decide (self.pixelAlignmentMode = PixelAlignmentMode.On)
  let first := if aligned then self.pixelAlligned_CGPoint first else first
  let second := if aligned then self.pixelAlligned_CGPoint second else second
  let self := if aligned && needCTMChange then self.applyLineWidthCTM else self
  let self := self.call (.CGContextMoveToPoint first.x first.y)
  let self := self.call (.CGContextAddLineToPoint second.x second.y)
  let self := self.call (.CGContextDrawPath .kCGPathStroke)
  if needCTMChange then self.restoreLineWidthCTM else self

/-- The point array `cgPoints` after the filling loop of `drawLines`: for every line, in
order, its two end points converted by `f`. -/
def fillPoints (f : CGPoint → CGPoint) (lines : LineList) : List CGPoint :=
  lines.foldl
    (fun cgPoints line =>
      cgPoints ++ [f (CGPointFromCPoint line.first), f (CGPointFromCPoint line.second)])
    []

/-- The loop `while (numPoints)` of `drawLines`: `pointPtr` is the part of the point array
that has not been passed on yet. -/
def strokeLoop (self : CoreGraphicsDrawDevice) (pointPtr : List CGPoint) (numPoints : Nat) :
    CoreGraphicsDrawDevice :=
  if _h : numPoints = 0 then self
  else
    let np := min numPoints (min 16 numPoints)
    let self := self.call (.CGContextStrokeLineSegments (pointPtr.take np) np)
    strokeLoop self (pointPtr.drop np) (numPoints - np)
termination_by numPoints
decreasing_by omega

/-- The method `drawLines`; the source asserts that `lines` is not empty. -/
def drawLines (self : CoreGraphicsDrawDevice) (lines : LineList) : CoreGraphicsDrawDevice :=
  let needCTMChange :=
    decide (self.pixelAlignmentMode = PixelAlignmentMode.On) && self.needLineWidthCTM
  let cgPoints :=
    if self.pixelAlignmentMode = PixelAlignmentMode.On then
      fillPoints (fun p => self.pixelAlligned_CGPoint p) lines
    else fillPoints (fun p => p) lines
  let self := if needCTMChange then self.applyLineWidthCTM else self
  let self := self.strokeLoop cgPoints (lines.length * 2)
  if needCTMChange then self.restoreLineWidthCTM else self

/-- The method `drawPolygon`; the source asserts that the list is not empty, the first
point of an empty list is modelled as the origin. -/
def drawPolygon (self : CoreGraphicsDrawDevice) (polygonPointList : PointList)
    (drawStyle : DrawStyle) : CoreGraphicsDrawDevice :=
  let self := self.call .CGContextBeginPath
  let p := CGPointFromCPoint (polygonPointList.headD ⟨0, 0⟩)
  let p := if self.pixelAlignmentMode = PixelAlignmentMode.On
    then self.pixelAlligned_CGPoint p else p
  let self := self.call (.CGContextMoveToPoint p.x p.y)
  let self := (polygonPointList.drop 1).foldl
    (fun (self : CoreGraphicsDrawDevice) pt =>
      let p := CGPointFromCPoint pt
      let p := if self.pixelAlignmentMode = PixelAlignmentMode.On
        then self.pixelAlligned_CGPoint p else p
      self.call (.CGContextAddLineToPoint p.x p.y))
    self
  self.call (.CGContextDrawPath (drawStyleToCGPathDrawingMode drawStyle))

def drawRect (self : CoreGraphicsDrawDevice) (rect : CRect) (drawStyle : DrawStyle) :
    CoreGraphicsDrawDevice :=
  let needCTMChange :=
    decide (self.pixelAlignmentMode = PixelAlignmentMode.On) &&
      decide (drawStyle ≠ DrawStyle.Filled) && self.needLineWidthCTM
  let r := CGRectFromCRect rect
  let r : CGRect :=
    if drawStyle ≠ DrawStyle.Filled then ⟨r.origin, ⟨r.size.width - 1, r.size.height - 1⟩⟩
    else r
  let aligned := decide (self.pixelAlignmentMode = PixelAlignmentMode.On)
  let r := if aligned then self.pixelAlligned_CGRect r else r
  let self := if aligned && needCTMChange then self.applyLineWidthCTM else self
  let self := self.call .CGContextBeginPath
  let self := self.call (.CGContextAddRect r)
  let self := self.call (.CGContextDrawPath (drawStyleToCGPathDrawingMode drawStyle))
  if needCTMChange then self.restoreLineWidthCTM else self

def clearRect (self : CoreGraphicsDrawDevice) (rect : CRect) : CoreGraphicsDrawDevice :=
  self.call (.CGContextClearRect (CGRectFromCRect rect))

def setClipRect (self : CoreGraphicsDrawDevice) (clip : CRect) : CoreGraphicsDrawDevice :=
  self.call (.CGContextClipToRect (CGRectFromCRect clip))

def setLineWidth (self : CoreGraphicsDrawDevice) (width : CCoord) : CoreGraphicsDrawDevice :=
  let self := { self with lineWidth := width }
  self.call (.CGContextSetLineWidth width)

def setPixelAlignmentMode (self : CoreGraphicsDrawDevice) (mode : PixelAlignmentMode) :
    CoreGraphicsDrawDevice :=
  { self with pixelAlignmentMode := mode }

def concatTransform (self : CoreGraphicsDrawDevice) (tm : CGraphicsTransform) :
    CoreGraphicsDrawDevice :=
  self.call (.CGContextConcatCTM (createCGAffineTransform tm))

end CoreGraphicsDrawDevice

end Platform

/-! ## Platform objects used by `CGDrawContext` -/

/-- Modelled from the spec: `CGBitmap` (cgbitmap.h, not in src); the object identity that
keys the draw-count cache, the results of `getCGImage`, `getScaleFactor` and `getSize`, and
the layer a call of `createCGLayer` produces (`none` when the creation fails). -/
structure CGBitmap where
  id : Nat
  cgImage : Option CGImageRef
  scaleFactor : CCoord
  size : CPoint
  newLayer : Option CGLayerRef
  deriving DecidableEq, Repr

/-- A platform bitmap is a `CGBitmap` or an object of another class, for which
`cast<CGBitmap>` is null. -/
inductive PlatformBitmap where
  | cgBitmap (b : CGBitmap)
  | foreign (size : CPoint)
  deriving DecidableEq, Repr

def PlatformBitmap.cast_CGBitmap : PlatformBitmap → Option CGBitmap
  | .cgBitmap b => some b
  | .foreign _ => none

def PlatformBitmap.getSize : PlatformBitmap → CPoint
  | .cgBitmap b => b.size
  | .foreign size => size

/-- Modelled from the spec: `CBitmap` (cbitmap.h, not in src); width, height, the result of
`getPlatformBitmap` and the result of `getBestPlatformBitmapForScaleFactor` for every
scale factor. -/
structure CBitmap where
  width : CCoord
  height : CCoord
  platformBitmap : Option PlatformBitmap
  bestPlatformBitmapForScaleFactor : CCoord → Option PlatformBitmap

/-- Modelled from the spec: `CGGraphicsPath` (quartzgraphicspath.h, not in src); the native
path, as the list of its points. -/
structure CGGraphicsPath where
  points : List CGPoint
  deriving DecidableEq, Repr

/-- A platform path is a `CGGraphicsPath` or an object of another class, for which the
`dynamic_cast` is null. -/
inductive PlatformGraphicsPath where
  | cgPath (p : CGGraphicsPath)
  | foreign
  deriving DecidableEq, Repr

def PlatformGraphicsPath.cast_CGGraphicsPath : PlatformGraphicsPath → Option CGGraphicsPath
  | .cgPath p => some p
  | .foreign => none

/-- Modelled from the spec: `CGraphicsPath` (cgraphicspath.h, not in src); the result of
`getPlatformPath`. -/
structure CGraphicsPath where
  platformPath : Option PlatformGraphicsPath
  deriving DecidableEq, Repr

/-- A platform gradient is a `QuartzGradient` or an object of another class. -/
inductive PlatformGradient where
  | quartzGradient (g : CGGradientRef)
  | foreign
  deriving DecidableEq, Repr

def PlatformGradient.cast_QuartzGradient : PlatformGradient → Option CGGradientRef
  | .quartzGradient g => some g
  | .foreign => none

/-- Modelled from the spec: `CGradient` (cgradient.h, not in src); the result of
`getPlatformGradient`. -/
structure CGradient where
  platformGradient : Option PlatformGradient
  deriving DecidableEq, Repr

/-- The functions of the C math library used by `addOvalToPath`, and the helper `radians`;
they are parameters of the embedding. -/
structure Libm where
  sin : CGFloat → CGFloat
  cos : CGFloat → CGFloat
  atan2 : CGFloat → CGFloat → CGFloat
  radians : CGFloat → CGFloat

/-- Modelled from the spec: the generic base-class implementation
`CDrawContext::fillRectWithBitmap` (cdrawcontext.cpp, not in src) draws through the virtual
`drawBitmap`; `fillTiles srcRect dstRect` lists the rectangle and offset of each of these
calls and is a parameter of the embedding. -/
structure External where
  libm : Libm
  fillTiles : CRect → CRect → List (CRect × CPoint)

/-! ## `CGDrawContext` -/

/-- Modelled from the spec: `CDrawContextState` (cdrawcontext.h, not in src), the toolkit
state that `getCurrentState` returns. -/
structure CDrawContextState where
  frameColor : CColor
  fillColor : CColor
  fontColor : CColor
  frameWidth : CCoord
  clipRect : CRect
  lineStyle : CLineStyle
  drawMode : CDrawMode
  globalAlpha : CGFloat
  bitmapQuality : BitmapInterpolationQuality
  deriving DecidableEq, Repr

/-- The members of `CGDrawContext` (`cgContext`, `scaleFactor`, `bitmapDrawCount`), of its
base classes (`bitmap`, the current toolkit state, the stack of saved toolkit states, the
current transform), the layer that each `CGBitmap` holds (by bitmap identity), and the log
of the calls issued. -/
structure CGDrawContext where
  cgContext : Option CGContext
  scaleFactor : CCoord
  bitmapDrawCount : List (Nat × Nat)
  bitmap : Option CBitmap
  currentState : CDrawContextState
  globalStatesStack : List CDrawContextState
  currentTransform : CGraphicsTransform
  cgLayers : List (Nat × CGLayerRef)
  log : List Call

namespace CGDrawContext

/-- Issue one call: it is logged and, on a handle that is not null, performed. -/
def call (self : CGDrawContext) (c : Call) : CGDrawContext :=
  { self with
    cgContext := self.cgContext.map (fun k => k.perform c)
    log := self.log ++ [c] }

def getCurrentState (self : CGDrawContext) : CDrawContextState := self.currentState

def getDrawMode (self : CGDrawContext) : CDrawMode := self.currentState.drawMode

def getCurrentTransform (self : CGDrawContext) : CGraphicsTransform := self.currentTransform

/-- The template `DoGraphicStateSave (context, proc, condition)`. -/
def DoGraphicStateSave (self : CGDrawContext) (proc : CGDrawContext → CGDrawContext)
    (condition : Bool) : CGDrawContext :=
  let self := if condition then self.call .CGContextSaveGState else self
  let self := proc self
  if condition then self.call .CGContextRestoreGState else self

/-- The overload `pixelAlligned (const CGRect&)`. -/
def pixelAlligned_CGRect (self : CGDrawContext) (r : CGRect) : CGRect :=
  let origin := CGContextConvertPointToDeviceSpace self.cgContext r.origin
  let size := CGContextConvertSizeToDeviceSpace self.cgContext r.size
  let origin : CGPoint := ⟨std_round origin.x, origin.y⟩
  let origin : CGPoint := ⟨origin.x, std_round origin.y⟩
  let size : CGSize := ⟨std_round size.width, size.height⟩
  let size : CGSize := ⟨size.width, std_round size.height⟩
  let origin := CGContextConvertPointToUserSpace self.cgContext origin
  let size := CGContextConvertSizeToUserSpace self.cgContext size
  ⟨origin, size⟩

/-- The overload `pixelAlligned (const CGPoint&)`. -/
def pixelAlligned_CGPoint (self : CGDrawContext) (p : CGPoint) : CGPoint :=
  let result := CGContextConvertPointToDeviceSpace self.cgContext p
  let result : CGPoint := ⟨std_round result.x, result.y⟩
  let result : CGPoint := ⟨result.x, std_round result.y⟩
  CGContextConvertPointToUserSpace self.cgContext result

/-- The method `init`; the base-class `CDrawContext::init` is logged as one call. -/
def init (self : CGDrawContext) : CGDrawContext :=
  let self := self.call .CGContextSaveGState
  let self := self.call (.CGContextSetAllowsAntialiasing true)
  let self := self.call (.CGContextSetAllowsFontSmoothing true)
  let self := self.call (.CGContextSetAllowsFontSubpixelPositioning true)
  let self := self.call (.CGContextSetAllowsFontSubpixelQuantization true)
  let self := self.call (.CGContextSetShouldAntialias false)
  let self := self.call .CGContextSetFillColorSpace
  let self := self.call .CGContextSetStrokeColorSpace
  let self := self.call .CGContextSaveGState
  let cgCTM := CGAffineTransformMake 1 0 0 (-1) 0 0
  let self := self.call (.CGContextSetTextMatrix cgCTM)
  self.call .CDrawContext_init

/-- The constructor `CGDrawContext (CGContextRef cgContext, const CRect& rect)`; the state
the base-class constructor sets up is a parameter. -/
def construct (cgContext : Option CGContext) (state : CDrawContextState)
    (transform : CGraphicsTransform) : CGDrawContext :=
  let self : CGDrawContext :=
    { cgContext := cgContext
      scaleFactor := 1
      bitmapDrawCount := []
      bitmap := none
      currentState := state
      globalStatesStack := []
      currentTransform := transform
      cgLayers := []
      log := [] }
  let self := self.call .CFRetain
  let userRect : CGRect := ⟨⟨0, 0⟩, ⟨100, 100⟩⟩
  let deviceRect := CGContextConvertRectToDeviceSpace self.cgContext userRect
  let self := { self with scaleFactor := deviceRect.size.height / userRect.size.height }
  self.init

/-- The constructor `CGDrawContext (CGBitmap* _bitmap)`; `created` is the result of
`_bitmap->createCGContext ()`. -/
def construct_CGBitmap (_bitmap : CGBitmap) (created : Option CGContext)
    (state : CDrawContextState) (transform : CGraphicsTransform) : CGDrawContext :=
  let self : CGDrawContext :=
    { cgContext := created
      scaleFactor := _bitmap.scaleFactor
      bitmapDrawCount := []
      bitmap := some
        { width := _bitmap.size.x
          height := _bitmap.size.y
          platformBitmap := some (.cgBitmap _bitmap)
          bestPlatformBitmapForScaleFactor := fun _ => some (.cgBitmap _bitmap) }
      currentState := state
      globalStatesStack := []
      currentTransform := transform
      cgLayers := []
      log := [] }
  let self :=
    if self.scaleFactor ≠ 1 then
      self.call (.CGContextConcatCTM
        (CGAffineTransformMakeScale self.scaleFactor self.scaleFactor))
    else self
  let self := self.init
  self.call .CBitmap_forget

/-- The destructor `~CGDrawContext`. -/
def destruct (self : CGDrawContext) : CGDrawContext :=
  let self := self.call .CGContextRestoreGState
  let self := self.call .CGContextRestoreGState
  self.call .CFRelease

def endDraw (self : CGDrawContext) : CGDrawContext :=
  let self :=
    match self.bitmap with
    | some bitmap =>
      match bitmap.platformBitmap with
      | some platformBitmap =>
        match platformBitmap.cast_CGBitmap with
        | some cgBitmap => self.call (.CGBitmap_setDirty cgBitmap.id)
        | none => self
      | none => self
    | none => self
  { self with bitmapDrawCount := [] }

/-- Modelled from the spec: `CDrawContext::saveGlobalState` (cdrawcontext.cpp, not in src)
pushes the current toolkit state. -/
def CDrawContext_saveGlobalState (self : CGDrawContext) : CGDrawContext :=
  let self := self.call .CDrawContext_saveGlobalState
  { self with globalStatesStack := self.currentState :: self.globalStatesStack }

/-- Modelled from the spec: `CDrawContext::restoreGlobalState` (cdrawcontext.cpp, not in
src) pops the toolkit state saved last, when there is one. -/
def CDrawContext_restoreGlobalState (self : CGDrawContext) : CGDrawContext :=
  let self := self.call .CDrawContext_restoreGlobalState
  match self.globalStatesStack with
  | [] => self
  | state :: rest => { self with currentState := state, globalStatesStack := rest }

def saveGlobalState (self : CGDrawContext) : CGDrawContext :=
  let self := self.call .CGContextSaveGState
  self.CDrawContext_saveGlobalState

def restoreGlobalState (self : CGDrawContext) : CGDrawContext :=
  let self := self.CDrawContext_restoreGlobalState
  self.call .CGContextRestoreGState

def beginCGContext (self : CGDrawContext) (swapYAxis integralOffset : Bool) :
    Bool × CGDrawContext :=
  if self.cgContext.isSome then
    if self.getCurrentState.clipRect.isEmpty then (false, self)
    else
      let self := self.call .CGContextSaveGState
      let cgClipRect := CGRectFromCRect self.getCurrentState.clipRect
      let cgClipRect :=
        if integralOffset then self.pixelAlligned_CGRect cgClipRect else cgClipRect
      let self := self.call (.CGContextClipToRect cgClipRect)
      let self :=
        if self.getCurrentTransform.isInvariant = false then
          let t := self.getCurrentTransform
          let t :=
            if integralOffset then
              let p := self.pixelAlligned_CGPoint (CGPointFromCPoint ⟨t.dx, t.dy⟩)
              { t with dx := p.x, dy := p.y }
            else t
          self.call (.CGContextConcatCTM (createCGAffineTransform t))
        else self
      let self := if !swapYAxis then self.call (.CGContextScaleCTM 1 (-1)) else self
      (true, self)
  else (false, self)

/-- The method `releaseCGContext (context)`; `context` tells whether the handle passed
is not null. -/
def releaseCGContext (self : CGDrawContext) (context : Bool) : CGDrawContext :=
  if context then self.call .CGContextRestoreGState else self

def applyLineStyle (self : CGDrawContext) : CGDrawContext :=
  let self :=
    match self.getCurrentState.lineStyle.lineCap with
    | .kLineCapButt => self.call (.CGContextSetLineCap .kCGLineCapButt)
    | .kLineCapRound => self.call (.CGContextSetLineCap .kCGLineCapRound)
    | .kLineCapSquare => self.call (.CGContextSetLineCap .kCGLineCapSquare)
  let self :=
    match self.getCurrentState.lineStyle.lineJoin with
    | .kLineJoinMiter => self.call (.CGContextSetLineJoin .kCGLineJoinMiter)
    | .kLineJoinRound => self.call (.CGContextSetLineJoin .kCGLineJoinRound)
    | .kLineJoinBevel => self.call (.CGContextSetLineJoin .kCGLineJoinBevel)
  if self.getCurrentState.lineStyle.getDashCount > 0 then
    let dashLengths :=
      self.getCurrentState.lineStyle.dashLengths.map
        (fun l => self.getCurrentState.frameWidth * l)
    self.call (.CGContextSetLineDash self.getCurrentState.lineStyle.dashPhase dashLengths
      self.getCurrentState.lineStyle.getDashCount)
  else self

def applyLineWidthCTM (self : CGDrawContext) : CGDrawContext :=
  let frameWidth : ℤ := static_cast_int32 self.getCurrentState.frameWidth
  if ((frameWidth : CCoord) = self.getCurrentState.frameWidth) ∧ frameWidth.tmod 2 ≠ 0 then
    self.call (.CGContextTranslateCTM (1 / 2) (1 / 2))
  else self

/-- The three identical switches on the draw style in `drawPolygon`, `drawRect`,
`drawEllipse` and `drawArc`. -/
def drawStyleSwitch (drawStyle : CDrawStyle) : CGPathDrawingMode :=
  if drawStyle = kDrawFilled then .kCGPathFill
  else if drawStyle = kDrawFilledAndStroked then .kCGPathFillStroke
  else .kCGPathStroke

/-- The method `drawGraphicsPath`.  `pixelAlign` replaces the points of the native path by
their images under the callback, so the path added afterwards is the aligned one. -/
def drawGraphicsPath (self : CGDrawContext) (path : Option CGraphicsPath) (mode : PathDrawMode)
    (t : Option CGraphicsTransform) : CGDrawContext :=
  match path with
  | none => self
  | some path =>
    match path.platformPath with
    | none => self
    | some graphicsPath =>
      match graphicsPath.cast_CGGraphicsPath with
      | none => self
      | some cgPath =>
        let begun := self.beginCGContext true self.getDrawMode.integralMode
        if begun.1 then
          let self := begun.2
          let cgMode : CGPathDrawingMode :=
            match mode with
            | .kPathFilledEvenOdd => .kCGPathEOFill
            | .kPathStroked => .kCGPathStroke
            | _ => .kCGPathFill
          let self := if mode = PathDrawMode.kPathStroked then self.applyLineStyle else self
          let self := self.DoGraphicStateSave
            (fun self =>
              let self :=
                match t with
                | some t => self.call (.CGContextConcatCTM (createCGAffineTransform t))
                | none => self
              if self.getDrawMode.integralMode && self.getDrawMode.aliasing then
                let alignedBy := fun (self : CGDrawContext) =>
                  cgPath.points.map (fun p => self.pixelAlligned_CGPoint p)
                let aligned := alignedBy (self.call .CGContextSaveGState).applyLineWidthCTM
                let self := self.DoGraphicStateSave
                  (fun self =>
                    let self := self.applyLineWidthCTM
                    self.call (.CGGraphicsPath_pixelAlign (alignedBy self)))
                  true
                self.call (.CGContextAddPath aligned)
              else self.call (.CGContextAddPath cgPath.points))
            true
          let self := self.call (.CGContextDrawPath cgMode)
          self.releaseCGContext true
        else begun.2

/-- The method `fillLinearGradient`; the body of its `DoGraphicStateSave` assigns to the
captured `start` and `end` and is written out between the save and the restore. -/
def fillLinearGradient (self : CGDrawContext) (path : Option CGraphicsPath)
    (gradient : CGradient) (startPoint endPoint : CPoint) (evenOdd : Bool)
    (t : Option CGraphicsTransform) : CGDrawContext :=
  match path with
  | none => self
  | some path =>
    match gradient.platformGradient.bind PlatformGradient.cast_QuartzGradient with
    | none => self
    | some cgGradient =>
      match path.platformPath with
      | none => self
      | some graphicsPath =>
        match graphicsPath.cast_CGGraphicsPath with
        | none => self
        | some cgPath =>
          let begun := self.beginCGContext true self.getDrawMode.integralMode
          if begun.1 then
            let self := begun.2
            let start := CGPointFromCPoint startPoint
            let stop := CGPointFromCPoint endPoint
            let self := self.call .CGContextSaveGState
            let start := if self.getDrawMode.integralMode
              then self.pixelAlligned_CGPoint start else start
            let stop := if self.getDrawMode.integralMode
              then self.pixelAlligned_CGPoint stop else stop
            let self :=
              match t with
              | some t => self.call (.CGContextConcatCTM (createCGAffineTransform t))
              | none => self
            let aligned := self.getDrawMode.integralMode && self.getDrawMode.aliasing
            let points :=
              if aligned then cgPath.points.map (fun p => self.pixelAlligned_CGPoint p)
              else cgPath.points
            let self := if aligned then self.call (.CGGraphicsPath_pixelAlign points) else self
            let self := self.call (.CGContextAddPath points)
            let self := self.call .CGContextRestoreGState
            let self := if evenOdd then self.call .CGContextEOClip else self.call .CGContextClip
            let self := self.call (.CGContextDrawLinearGradient cgGradient start stop)
            self.releaseCGContext true
          else begun.2

def fillRadialGradient (self : CGDrawContext) (path : Option CGraphicsPath)
    (gradient : CGradient) (center : CPoint) (radius : CCoord) (originOffset : CPoint)
    (evenOdd : Bool) (t : Option CGraphicsTransform) : CGDrawContext :=
  match path with
  | none => self
  | some path =>
    match gradient.platformGradient.bind PlatformGradient.cast_QuartzGradient with
    | none => self
    | some cgGradient =>
      match path.platformPath with
      | none => self
      | some graphicsPath =>
        match graphicsPath.cast_CGGraphicsPath with
        | none => self
        | some cgPath =>
          let begun := self.beginCGContext true self.getDrawMode.integralMode
          if begun.1 then
            let self := begun.2
            let self := self.DoGraphicStateSave
              (fun self =>
                let self :=
                  match t with
                  | some t => self.call (.CGContextConcatCTM (createCGAffineTransform t))
                  | none => self
                let aligned := self.getDrawMode.integralMode && self.getDrawMode.aliasing
                let points :=
                  if aligned then cgPath.points.map (fun p => self.pixelAlligned_CGPoint p)
                  else cgPath.points
                let self :=
                  if aligned then self.call (.CGGraphicsPath_pixelAlign points) else self
                self.call (.CGContextAddPath points))
              true
            let self := if evenOdd then self.call .CGContextEOClip else self.call .CGContextClip
            let startCenter : CPoint := ⟨center.x + originOffset.x, center.y + originOffset.y⟩
            let self := self.call (.CGContextDrawRadialGradient cgGradient
              (CGPointFromCPoint startCenter) 0 (CGPointFromCPoint center) radius)
            self.releaseCGContext true
          else begun.2

def drawLine (self : CGDrawContext) (line : LinePair) : CGDrawContext :=
  let begun := self.beginCGContext true self.getDrawMode.integralMode
  if begun.1 then
    let self := begun.2
    let self := self.applyLineStyle
    let self := self.call .CGContextBeginPath
    let first := CGPointFromCPoint line.first
    let second := CGPointFromCPoint line.second
    let integral := self.getDrawMode.integralMode
    let first := if integral then self.pixelAlligned_CGPoint first else first
    let second := if integral then self.pixelAlligned_CGPoint second else second
    let self := if integral then self.applyLineWidthCTM else self
    let self := self.call (.CGContextMoveToPoint first.x first.y)
    let self := self.call (.CGContextAddLineToPoint second.x second.y)
    let self := self.call (.CGContextDrawPath .kCGPathStroke)
    self.releaseCGContext true
  else begun.2

/-- The loop `while (numPoints)` of `drawLines`: `pointPtr` is the part of the point array
that has not been passed on yet. -/
def strokeLoop (self : CGDrawContext) (pointPtr : List CGPoint) (numPoints : Nat) :
    CGDrawContext :=
  if _h : numPoints = 0 then self
  else
    let np := min numPoints (min 16 numPoints)
    let self := self.call (.CGContextStrokeLineSegments (pointPtr.take np) np)
    strokeLoop self (pointPtr.drop np) (numPoints - np)
termination_by numPoints
decreasing_by omega

def drawLines (self : CGDrawContext) (lines : LineList) : CGDrawContext :=
  if lines.length = 0 then self
  else
    let begun := self.beginCGContext true self.getDrawMode.integralMode
    if begun.1 then
      let self := begun.2
      let self := self.applyLineStyle
      let cgPoints :=
        if self.getDrawMode.integralMode then
          Platform.CoreGraphicsDrawDevice.fillPoints (fun p => self.pixelAlligned_CGPoint p) lines
        else Platform.CoreGraphicsDrawDevice.fillPoints (fun p => p) lines
      let self := if self.getDrawMode.integralMode then self.applyLineWidthCTM else self
      let self := self.strokeLoop cgPoints (lines.length * 2)
      self.releaseCGContext true
    else begun.2

def drawPolygon (self : CGDrawContext) (polygonPointList : PointList) (drawStyle : CDrawStyle) :
    CGDrawContext :=
  if polygonPointList.length = 0 then self
  else
    let begun := self.beginCGContext true self.getDrawMode.integralMode
    if begun.1 then
      let self := begun.2
      let m := drawStyleSwitch drawStyle
      let self := self.applyLineStyle
      let self := self.call .CGContextBeginPath
      let p := CGPointFromCPoint (polygonPointList.headD ⟨0, 0⟩)
      let p := if self.getDrawMode.integralMode then self.pixelAlligned_CGPoint p else p
      let self := self.call (.CGContextMoveToPoint p.x p.y)
      let self := (polygonPointList.drop 1).foldl
        (fun (self : CGDrawContext) pt =>
          let p := CGPointFromCPoint pt
          let p := if self.getDrawMode.integralMode then self.pixelAlligned_CGPoint p else p
          self.call (.CGContextAddLineToPoint p.x p.y))
        self
      let self := self.call (.CGContextDrawPath m)
      self.releaseCGContext true
    else begun.2

def drawRect (self : CGDrawContext) (rect : CRect) (drawStyle : CDrawStyle) : CGDrawContext :=
  let begun := self.beginCGContext true self.getDrawMode.integralMode
  if begun.1 then
    let self := begun.2
    let r := CGRectFromCRect rect
    let r : CGRect :=
      if drawStyle ≠ kDrawFilled then ⟨r.origin, ⟨r.size.width - 1, r.size.height - 1⟩⟩
      else r
    let m := drawStyleSwitch drawStyle
    let self := self.applyLineStyle
    let integral := self.getDrawMode.integralMode
    let r := if integral then self.pixelAlligned_CGRect r else r
    let self :=
      if integral && decide (drawStyle ≠ kDrawFilled) then self.applyLineWidthCTM else self
    let self := self.call .CGContextBeginPath
    let self := self.call (.CGContextAddRect r)
    let self := self.call (.CGContextDrawPath m)
    self.releaseCGContext true
  else begun.2

def drawEllipse (self : CGDrawContext) (rect : CRect) (drawStyle : CDrawStyle) : CGDrawContext :=
  let begun := self.beginCGContext true self.getDrawMode.integralMode
  if begun.1 then
    let self := begun.2
    let r := CGRectFromCRect rect
    let r : CGRect :=
      if drawStyle ≠ kDrawFilled then ⟨r.origin, ⟨r.size.width - 1, r.size.height - 1⟩⟩
      else r
    let m := drawStyleSwitch drawStyle
    let self := self.applyLineStyle
    let integral := self.getDrawMode.integralMode
    let self :=
      if integral && decide (drawStyle ≠ kDrawFilled) then self.applyLineWidthCTM else self
    let r := if integral then self.pixelAlligned_CGRect r else r
    let self := self.call (.CGContextAddEllipseInRect r)
    let self := self.call (.CGContextDrawPath m)
    self.releaseCGContext true
  else begun.2

def addOvalToPath (self : CGDrawContext) (libm : Libm) (center : CPoint) (a b : CGFloat)
    (start_angle end_angle : CGFloat) : CGDrawContext :=
  self.DoGraphicStateSave
    (fun self =>
      let self := self.call (.CGContextTranslateCTM center.x center.y)
      let self := self.call (.CGContextScaleCTM a b)
      let startAngle := libm.radians start_angle
      let endAngle := libm.radians end_angle
      let startAngle :=
        if a ≠ b then libm.atan2 (libm.sin startAngle * a) (libm.cos startAngle * b)
        else startAngle
      let endAngle :=
        if a ≠ b then libm.atan2 (libm.sin endAngle * a) (libm.cos endAngle * b)
        else endAngle
      let self := self.call (.CGContextMoveToPoint (libm.cos startAngle) (libm.sin startAngle))
      self.call (.CGContextAddArc 0 0 1 startAngle endAngle 0))
    true

def drawArc (self : CGDrawContext) (libm : Libm) (rect : CRect) (_startAngle _endAngle : CGFloat)
    (drawStyle : CDrawStyle) : CGDrawContext :=
  let begun := self.beginCGContext true self.getDrawMode.integralMode
  if begun.1 then
    let self := begun.2
    let m := drawStyleSwitch drawStyle
    let self := self.applyLineStyle
    let self := self.call .CGContextBeginPath
    let self := self.addOvalToPath libm
      ⟨rect.left + rect.getWidth / 2, rect.top + rect.getHeight / 2⟩
      (rect.getWidth / 2) (rect.getHeight / 2) _startAngle _endAngle
    let self := self.call (.CGContextDrawPath m)
    self.releaseCGContext true
  else begun.2

def setCGDrawContextQuality (self : CGDrawContext) : CGDrawContext :=
  match self.getCurrentState.bitmapQuality with
  | .kLow =>
    let self := self.call (.CGContextSetShouldAntialias false)
    self.call (.CGContextSetInterpolationQuality .kCGInterpolationNone)
  | .kMedium =>
    let self := self.call (.CGContextSetShouldAntialias true)
    self.call (.CGContextSetInterpolationQuality .kCGInterpolationMedium)
  | .kHigh =>
    let self := self.call (.CGContextSetShouldAntialias true)
    self.call (.CGContextSetInterpolationQuality .kCGInterpolationHigh)
  | _ => self

def drawCGImageRef (self : CGDrawContext) (image : CGImageRef) (layer : Option CGLayerRef)
    (bitmapScaleFactor : CCoord) (inRect : CRect) (inOffset : CPoint) (alpha : CGFloat)
    (bitmap : CBitmap) : CGDrawContext :=
  let self := self.setCGDrawContextQuality
  let rect := inRect
  let offset := inOffset
  let self := self.call (.CGContextSetAlpha (alpha * self.getCurrentState.globalAlpha))
  let dest : CGRect :=
    ⟨⟨rect.left - offset.x, -rect.top - (bitmap.height - offset.y)⟩,
      ⟨bitmap.width, bitmap.height⟩⟩
  let clipRect : CGRect :=
    ⟨⟨rect.left, -rect.top - rect.getHeight⟩, ⟨rect.getWidth, rect.getHeight⟩⟩
  let scaled := decide (bitmapScaleFactor ≠ 1)
  let self :=
    if scaled then
      self.call (.CGContextConcatCTM
        (CGAffineTransformMakeScale (1 / bitmapScaleFactor) (1 / bitmapScaleFactor)))
    else self
  let transform := CGAffineTransformMakeScale bitmapScaleFactor bitmapScaleFactor
  let clipRect : CGRect :=
    if scaled then
      ⟨CGPointApplyAffineTransform clipRect.origin transform,
        CGSizeApplyAffineTransform clipRect.size transform⟩
    else clipRect
  let dest : CGRect :=
    if scaled then
      ⟨CGPointApplyAffineTransform dest.origin transform,
        CGSizeApplyAffineTransform dest.size transform⟩
    else dest
  let clipRect : CGRect := ⟨self.pixelAlligned_CGPoint clipRect.origin, clipRect.size⟩
  let self := self.call (.CGContextClipToRect clipRect)
  match layer with
  | some layer => self.call (.CGContextDrawLayerInRect dest layer)
  | none => self.call (.CGContextDrawImage dest image)

/-- Modelled from the spec: `CGBitmap::getCGLayer` (cgbitmap.cpp, not in src) returns the
layer the bitmap holds. -/
def getCGLayer (self : CGDrawContext) (cgBitmap : CGBitmap) : Option CGLayerRef :=
  self.cgLayers.lookup cgBitmap.id

/-- Modelled from the spec: `CGBitmap::createCGLayer` (cgbitmap.cpp, not in src) creates the
layer of the bitmap, which the bitmap holds from then on, and returns it. -/
def createCGLayer (self : CGDrawContext) (cgBitmap : CGBitmap) :
    Option CGLayerRef × CGDrawContext :=
  let self := self.call (.CGBitmap_createCGLayer cgBitmap.id)
  match cgBitmap.newLayer with
  | some layer => (some layer, { self with cgLayers := (cgBitmap.id, layer) :: self.cgLayers })
  | none => (none, self)

/-- The block of `drawBitmap` that determines the local `layer`: the layer of the bitmap
when the scale factor is 1, created at the second draw of the bitmap since the last
`endDraw`; the result is the layer and the object with its updated draw-count cache
(`std::map::find`, `emplace` and the increment of the found entry). -/
def layerForBitmap (self : CGDrawContext) (cgBitmap : CGBitmap) :
    Option CGLayerRef × CGDrawContext :=
  if self.scaleFactor = 1 then
    match self.getCGLayer cgBitmap with
    | some layer => (some layer, self)
    | none =>
      match self.bitmapDrawCount.lookup cgBitmap.id with
      | none =>
        (none, { self with bitmapDrawCount := self.bitmapDrawCount ++ [(cgBitmap.id, 1)] })
      | some _ =>
        let self :=
          { self with
            bitmapDrawCount := self.bitmapDrawCount.map
              (fun (e : Nat × Nat) => if e.1 = cgBitmap.id then (e.1, e.2 + 1) else e) }
        self.createCGLayer cgBitmap
  else (none, self)

/-- The local `transformedScaleFactor` of `drawBitmap`. -/
def transformedScaleFactor (self : CGDrawContext) : CCoord :=
  let transformedScaleFactor := self.scaleFactor
  let t := self.getCurrentTransform
  if t.m11 = t.m22 ∧ t.m12 = 0 ∧ t.m21 = 0 then transformedScaleFactor * t.m11
  else transformedScaleFactor

def drawBitmap (self : CGDrawContext) (bitmap : Option CBitmap) (inRect : CRect)
    (inOffset : CPoint) (alpha : CGFloat) : CGDrawContext :=
  match bitmap with
  | none => self
  | some bitmap =>
    if alpha = 0 then self
    else
      match bitmap.bestPlatformBitmapForScaleFactor self.transformedScaleFactor with
      | none => self
      | some platformBitmap =>
        match platformBitmap.cast_CGBitmap with
        | none => self
        | some cgBitmap =>
          match cgBitmap.cgImage with
          | none => self
          | some image =>
            let begun := self.beginCGContext false true
            if begun.1 then
              let self := begun.2
              let found := self.layerForBitmap cgBitmap
              let self := found.2.drawCGImageRef image found.1 cgBitmap.scaleFactor inRect
                inOffset alpha bitmap
              self.releaseCGContext true
            else begun.2

def fillRectWithBitmap (self : CGDrawContext) (ext : External) (bitmap : Option CBitmap)
    (srcRect dstRect : CRect) (alpha : CGFloat) : CGDrawContext :=
  match bitmap with
  | none => self
  | some bitmap =>
    if alpha = 0 ∨ srcRect.isEmpty ∨ dstRect.isEmpty then self
    else if ¬ (srcRect.left = 0 ∧ srcRect.right = 0 ∧ srcRect.right = bitmap.width ∧
        srcRect.bottom = bitmap.height) then
      let self := self.call (.CDrawContext_fillRectWithBitmap srcRect dstRect alpha)
      (ext.fillTiles srcRect dstRect).foldl
        (fun (self : CGDrawContext) tile => self.drawBitmap (some bitmap) tile.1 tile.2 alpha)
        self
    else
      match bitmap.bestPlatformBitmapForScaleFactor self.scaleFactor with
      | none => self
      | some platformBitmap =>
        let bitmapSize := platformBitmap.getSize
        if srcRect.right > bitmapSize.x ∨ srcRect.bottom > bitmapSize.y then self
        else
          match platformBitmap.cast_CGBitmap.bind CGBitmap.cgImage with
          | none => self
          | some image =>
            let begun := self.beginCGContext false true
            if begun.1 then
              let self := begun.2
              let clipRect := CGRectFromCRect dstRect
              let clipRect : CGRect :=
                ⟨⟨clipRect.origin.x, -clipRect.origin.y - clipRect.size.height⟩,
                  clipRect.size⟩
              let clipRect := self.pixelAlligned_CGRect clipRect
              let self := self.call (.CGContextClipToRect clipRect)
              let r : CGRect := ⟨⟨0, 0⟩, ⟨image.width, image.height⟩⟩
              let self := self.setCGDrawContextQuality
              let self := self.call (.CGContextDrawTiledImage r image)
              self.releaseCGContext true
            else begun.2

def clearRect (self : CGDrawContext) (rect : CRect) : CGDrawContext :=
  let begun := self.beginCGContext true self.getDrawMode.integralMode
  if begun.1 then
    let self := begun.2
    let cgRect := CGRectFromCRect rect
    let cgRect := if self.getDrawMode.integralMode then self.pixelAlligned_CGRect cgRect
      else cgRect
    let self := self.call (.CGContextClearRect cgRect)
    self.releaseCGContext true
  else begun.2

/-- The drawing operations of `CGDrawContext` with their arguments. -/
inductive DrawOp where
  | drawLine (line : LinePair)
  | drawLines (lines : LineList)
  | drawPolygon (polygonPointList : PointList) (drawStyle : CDrawStyle)
  | drawRect (rect : CRect) (drawStyle : CDrawStyle)
  | drawEllipse (rect : CRect) (drawStyle : CDrawStyle)
  | drawArc (rect : CRect) (startAngle endAngle : CGFloat) (drawStyle : CDrawStyle)
  | clearRect (rect : CRect)
  | drawBitmap (bitmap : Option CBitmap) (inRect : CRect) (inOffset : CPoint) (alpha : CGFloat)
  | fillRectWithBitmap (bitmap : Option CBitmap) (srcRect dstRect : CRect) (alpha : CGFloat)
  | drawGraphicsPath (path : Option CGraphicsPath) (mode : PathDrawMode)
      (t : Option CGraphicsTransform)
  | fillLinearGradient (path : Option CGraphicsPath) (gradient : CGradient)
      (startPoint endPoint : CPoint) (evenOdd : Bool) (t : Option CGraphicsTransform)
  | fillRadialGradient (path : Option CGraphicsPath) (gradient : CGradient) (center : CPoint)
      (radius : CCoord) (originOffset : CPoint) (evenOdd : Bool) (t : Option CGraphicsTransform)

/-- Dispatch of a drawing operation to the method of that name. -/
def draw (self : CGDrawContext) (ext : External) : DrawOp → CGDrawContext
  | .drawLine line => self.drawLine line
  | .drawLines lines => self.drawLines lines
  | .drawPolygon polygonPointList drawStyle => self.drawPolygon polygonPointList drawStyle
  | .drawRect rect drawStyle => self.drawRect rect drawStyle
  | .drawEllipse rect drawStyle => self.drawEllipse rect drawStyle
  | .drawArc rect startAngle endAngle drawStyle =>
    self.drawArc ext.libm rect startAngle endAngle drawStyle
  | .clearRect rect => self.clearRect rect
  | .drawBitmap bitmap inRect inOffset alpha => self.drawBitmap bitmap inRect inOffset alpha
  | .fillRectWithBitmap bitmap srcRect dstRect alpha =>
    self.fillRectWithBitmap ext bitmap srcRect dstRect alpha
  | .drawGraphicsPath path mode t => self.drawGraphicsPath path mode t
  | .fillLinearGradient path gradient startPoint endPoint evenOdd t =>
    self.fillLinearGradient path gradient startPoint endPoint evenOdd t
  | .fillRadialGradient path gradient center radius originOffset evenOdd t =>
    self.fillRadialGradient path gradient center radius originOffset evenOdd t

end CGDrawContext

/-! ## The state setters of `CGDrawContext` -/

/-- The setters of the base class `CDrawContext` (cdrawcontext.cpp, not in src): what each
of them does to the toolkit state is a parameter of the embedding. -/
structure CDrawContextSetters where
  setGlobalAlpha : CDrawContextState → CGFloat → CDrawContextState
  setLineStyle : CDrawContextState → CLineStyle → CDrawContextState
  setLineWidth : CDrawContextState → CCoord → CDrawContextState
  setDrawMode : CDrawContextState → CDrawMode → CDrawContextState
  setFontColor : CDrawContextState → CColor → CDrawContextState
  setFrameColor : CDrawContextState → CColor → CDrawContextState
  setFillColor : CDrawContextState → CColor → CDrawContextState

namespace CGDrawContext

/-- A call into a setter of the base class: it is logged as `c` and the toolkit state
becomes `state`. -/
def baseSet (self : CGDrawContext) (c : Call) (state : CDrawContextState) : CGDrawContext :=
  let self := self.call c
  { self with currentState := state }

def setGlobalAlpha (self : CGDrawContext) (base : CDrawContextSetters) (newAlpha : CGFloat) :
    CGDrawContext :=
  if newAlpha = self.getCurrentState.globalAlpha then self
  else
    let self := self.call (.CGContextSetAlpha newAlpha)
    self.baseSet (.CDrawContext_setGlobalAlpha newAlpha)
      (base.setGlobalAlpha self.currentState newAlpha)

def setLineStyle (self : CGDrawContext) (base : CDrawContextSetters) (style : CLineStyle) :
    CGDrawContext :=
  if self.getCurrentState.lineStyle = style then self
  else
    self.baseSet (.CDrawContext_setLineStyle style) (base.setLineStyle self.currentState style)

def setLineWidth (self : CGDrawContext) (base : CDrawContextSetters) (width : CCoord) :
    CGDrawContext :=
  if self.getCurrentState.frameWidth = width then self
  else
    let self := self.call (.CGContextSetLineWidth width)
    self.baseSet (.CDrawContext_setLineWidth width) (base.setLineWidth self.currentState width)

def setDrawMode (self : CGDrawContext) (base : CDrawContextSetters) (mode : CDrawMode) :
    CGDrawContext :=
  let self :=
    if self.cgContext.isSome then self.call (.CGContextSetShouldAntialias mode.antiAliasing)
    else self
  self.baseSet (.CDrawContext_setDrawMode mode) (base.setDrawMode self.currentState mode)

def setFontColor (self : CGDrawContext) (base : CDrawContextSetters) (color : CColor) :
    CGDrawContext :=
  if self.getCurrentState.fontColor = color then self
  else
    self.baseSet (.CDrawContext_setFontColor color) (base.setFontColor self.currentState color)

def setFrameColor (self : CGDrawContext) (base : CDrawContextSetters) (color : CColor) :
    CGDrawContext :=
  if self.getCurrentState.frameColor = color then self
  else
    let self :=
      if self.cgContext.isSome then self.call (.CGContextSetStrokeColorWithColor color)
      else self
    self.baseSet (.CDrawContext_setFrameColor color)
      (base.setFrameColor self.currentState color)

def setFillColor (self : CGDrawContext) (base : CDrawContextSetters) (color : CColor) :
    CGDrawContext :=
  if self.getCurrentState.fillColor = color then self
  else
    let self :=
      if self.cgContext.isSome then self.call (.CGContextSetFillColorWithColor color)
      else self
    self.baseSet (.CDrawContext_setFillColor color) (base.setFillColor self.currentState color)

end CGDrawContext

/-! ## Observations on call logs -/

def Call.isSave : Call → Bool
  | .CGContextSaveGState => true
  | _ => false

def Call.isRestore : Call → Bool
  | .CGContextRestoreGState => true
  | _ => false

/-- The calls that move the CTM by a translation. -/
def Call.isTranslate : Call → Bool
  | .CGContextTranslateCTM _ _ => true
  | _ => false

/-- The number of saved graphics states that are pending after the calls `cs`, starting
with `d` pending ones; `none` when a `CGContextRestoreGState` finds no pending save. -/
def nestDepth : List Call → Nat → Option Nat
  | [], d => some d
  | c :: cs, d =>
    if c.isSave then nestDepth cs (d + 1)
    else if c.isRestore then
      match d with
      | 0 => none
      | d + 1 => nestDepth cs d
    else nestDepth cs d

/-- Every `CGContextRestoreGState` of `cs` has a matching earlier `CGContextSaveGState` in
`cs` and no save is left pending. -/
def WellNested (cs : List Call) : Prop := nestDepth cs 0 = some 0

/-- The native context after the calls `cs`. -/
def replay (cs : List Call) (k : CGContext) : CGContext := cs.foldl CGContext.perform k

/-- The state `s'` is reached from `s` by issuing exactly the calls `cs`. -/
def CGDrawContext.Issues (s s' : CGDrawContext) (cs : List Call) : Prop :=
  s'.log = s.log ++ cs ∧ s'.cgContext = s.cgContext.map (replay cs)

/-- From `s` to `s'` the calls issued are well nested. -/
def CGDrawContext.Nested (s s' : CGDrawContext) : Prop :=
  ∃ cs, s.Issues s' cs ∧ WellNested cs

/-- From `s` to `s'` the calls issued are well nested and the native context is back in
the state it had. -/
def CGDrawContext.Neutral (s s' : CGDrawContext) : Prop :=
  ∃ cs, s.Issues s' cs ∧ WellNested cs ∧ s'.cgContext = s.cgContext

/-- A call without effect on the CTM and on the stack of saved states. -/
def Call.inert (c : Call) : Prop := ∀ k : CGContext, k.perform c = k

/-- The device state `s'` is reached from `s` by issuing exactly the calls `cs`. -/
def Platform.CoreGraphicsDrawDevice.Issues (s s' : Platform.CoreGraphicsDrawDevice)
    (cs : List Call) : Prop :=
  s'.log = s.log ++ cs ∧ s'.cgContext = s.cgContext.map (replay cs)

/-- The drawing operations of `CoreGraphicsDrawDevice` that have a body in the source. -/
inductive Platform.CoreGraphicsDrawDevice.DrawOp where
  | drawLine (line : LinePair)
  | drawLines (lines : LineList)
  | drawPolygon (polygonPointList : PointList) (drawStyle : DrawStyle)
  | drawRect (rect : CRect) (drawStyle : DrawStyle)
  | clearRect (rect : CRect)

/-- Dispatch of a drawing operation to the method of that name. -/
def Platform.CoreGraphicsDrawDevice.draw (self : Platform.CoreGraphicsDrawDevice) :
    Platform.CoreGraphicsDrawDevice.DrawOp → Platform.CoreGraphicsDrawDevice
  | .drawLine line => self.drawLine line
  | .drawLines lines => self.drawLines lines
  | .drawPolygon polygonPointList drawStyle => self.drawPolygon polygonPointList drawStyle
  | .drawRect rect drawStyle => self.drawRect rect drawStyle
  | .clearRect rect => self.clearRect rect

/-- The calls of `CGDrawContext::init`, in program order. -/
def CGDrawContext.initCalls : List Call :=
  [.CGContextSaveGState, .CGContextSetAllowsAntialiasing true,
    .CGContextSetAllowsFontSmoothing true, .CGContextSetAllowsFontSubpixelPositioning true,
    .CGContextSetAllowsFontSubpixelQuantization true, .CGContextSetShouldAntialias false,
    .CGContextSetFillColorSpace, .CGContextSetStrokeColorSpace, .CGContextSaveGState,
    .CGContextSetTextMatrix (CGAffineTransformMake 1 0 0 (-1) 0 0), .CDrawContext_init]

/-- The calls of `CoreGraphicsDrawDevice::init`, in program order. -/
def Platform.CoreGraphicsDrawDevice.initCalls : List Call :=
  [.CGContextSaveGState, .CGContextSetAllowsAntialiasing true,
    .CGContextSetAllowsFontSmoothing true, .CGContextSetAllowsFontSubpixelPositioning true,
    .CGContextSetAllowsFontSubpixelQuantization true, .CGContextSetShouldAntialias false,
    .CGContextSetFillColorSpace, .CGContextSetStrokeColorSpace, .CGContextSaveGState,
    .CGContextSetTextMatrix (CGAffineTransformMake 1 0 0 (-1) 0 0)]

/-- The calls of the two destructors up to the release of the context. -/
def destructCalls : List Call := [.CGContextRestoreGState, .CGContextRestoreGState]

/-- A sequence of `saveGlobalState` (`true`) and `restoreGlobalState` (`false`) calls on a
`CGDrawContext`, run in order. -/
def CGDrawContext.runGlobalStates (self : CGDrawContext) (seq : List Bool) : CGDrawContext :=
  seq.foldl (fun s save => if save then s.saveGlobalState else s.restoreGlobalState) self

/-- The calls that the sequence `seq` of `saveGlobalState` (`true`) and `restoreGlobalState`
(`false`) issues. -/
def globalStateCalls : List Bool → List Call
  | [] => []
  | true :: seq =>
    .CGContextSaveGState :: .CDrawContext_saveGlobalState :: globalStateCalls seq
  | false :: seq =>
    .CDrawContext_restoreGlobalState :: .CGContextRestoreGState :: globalStateCalls seq

def Call.isCreateLayer : Call → Bool
  | .CGBitmap_createCGLayer _ => true
  | _ => false

def Call.isDrawLayer : Call → Bool
  | .CGContextDrawLayerInRect _ _ => true
  | _ => false

def Call.isDrawImage : Call → Bool
  | .CGContextDrawImage _ _ => true
  | _ => false

/-- The calls issued between the state `s` and a later state `s'` of the same object. -/
def CGDrawContext.issuedSince (s s' : CGDrawContext) : List Call := s'.log.drop s.log.length

/-- The states `s` and `s'` agree on every member other than the native context and the
log. -/
def CGDrawContext.SameMembers (s s' : CGDrawContext) : Prop :=
  s'.scaleFactor = s.scaleFactor ∧ s'.bitmapDrawCount = s.bitmapDrawCount ∧
  s'.bitmap = s.bitmap ∧ s'.currentState = s.currentState ∧
  s'.globalStatesStack = s.globalStatesStack ∧ s'.currentTransform = s.currentTransform ∧
  s'.cgLayers = s.cgLayers

/-- From `s` to `s'` no layer is created and neither a layer nor an image is drawn. -/
def CGDrawContext.Quiet (s s' : CGDrawContext) : Prop :=
  ∃ cs, s.Issues s' cs ∧
    ∀ c ∈ cs, c.isCreateLayer = false ∧ c.isDrawLayer = false ∧ c.isDrawImage = false

/-- The successive calls `drawBitmap (bitmap, rect, offset, alpha)` for the rectangles and
offsets of `draws`. -/
def CGDrawContext.drawBitmaps (self : CGDrawContext) (bitmap : Option CBitmap)
    (alpha : CGFloat) (draws : List (CRect × CPoint)) : CGDrawContext :=
  draws.foldl (fun s d => s.drawBitmap bitmap d.1 d.2 alpha) self

/-- From `s` to `s'` exactly `created` layers are created, `layers` layers are drawn and
`images` images are drawn. -/
def CGDrawContext.Tally (s s' : CGDrawContext) (created layers images : Nat) : Prop :=
  ∃ cs, s.Issues s' cs ∧ cs.countP Call.isCreateLayer = created ∧
    cs.countP Call.isDrawLayer = layers ∧ cs.countP Call.isDrawImage = images

/-- The call `drawBitmap (bitmap, _, _, alpha)` in state `s` is a successful draw: the
native context is not null, the clip rectangle is not empty, alpha is not zero and the
platform bitmap for the scale factor is the `CGBitmap` `cg` with the image `image`. -/
def CGDrawContext.Draws (s : CGDrawContext) (bitmap : CBitmap) (cg : CGBitmap)
    (image : CGImageRef) (alpha : CGFloat) : Prop :=
  (∃ k, s.cgContext = some k) ∧ s.getCurrentState.clipRect.isEmpty = false ∧ alpha ≠ 0 ∧
  bitmap.bestPlatformBitmapForScaleFactor s.transformedScaleFactor = some (.cgBitmap cg) ∧
  cg.cgImage = some image

def Call.isStroke : Call → Bool
  | .CGContextStrokeLineSegments _ _ => true
  | _ => false

/-- The points handed over by a `CGContextStrokeLineSegments` call. -/
def Call.strokePoints : Call → List CGPoint
  | .CGContextStrokeLineSegments points _ => points
  | _ => []

/-- The point count handed over by a `CGContextStrokeLineSegments` call. -/
def Call.strokeCount : Call → Nat
  | .CGContextStrokeLineSegments _ count => count
  | _ => 0

def Call.isDrawTiledImage : Call → Bool
  | .CGContextDrawTiledImage _ _ => true
  | _ => false

/-- The call into the base class `CDrawContext::fillRectWithBitmap`. -/
def Call.isBaseFill : Call → Bool
  | .CDrawContext_fillRectWithBitmap _ _ _ => true
  | _ => false

def Call.isBeginPath : Call → Bool
  | .CGContextBeginPath => true
  | _ => false

def Call.isMoveTo : Call → Bool
  | .CGContextMoveToPoint _ _ => true
  | _ => false

def Call.isAddLine : Call → Bool
  | .CGContextAddLineToPoint _ _ => true
  | _ => false

def Call.isDrawPath : Call → Bool
  | .CGContextDrawPath _ => true
  | _ => false

/-- A line width that is a whole number and odd. -/
def IsOddWhole (w : CCoord) : Prop := ∃ n : ℤ, (n : CCoord) = w ∧ Odd n

/-- The rectangle `r` with width and height reduced by one and the origin kept. -/
def CGRect.shrunkByOne (r : CGRect) : CGRect :=
  ⟨r.origin, ⟨r.size.width - 1, r.size.height - 1⟩⟩

/-- The toolkit constant of `CDrawStyle` that stands for a device draw style. -/
def DrawStyle.toCDrawStyle : DrawStyle → CDrawStyle
  | .Stroked => kDrawStroked
  | .Filled => kDrawFilled
  | .FilledAndStroked => kDrawFilledAndStroked

/-- The calls that `applyLineStyle` issues in state `s`, in program order. -/
def CGDrawContext.lineStyleCalls (s : CGDrawContext) : List Call :=
  [.CGContextSetLineCap
      (match s.currentState.lineStyle.lineCap with
        | .kLineCapButt => .kCGLineCapButt
        | .kLineCapRound => .kCGLineCapRound
        | .kLineCapSquare => .kCGLineCapSquare),
    .CGContextSetLineJoin
      (match s.currentState.lineStyle.lineJoin with
        | .kLineJoinMiter => .kCGLineJoinMiter
        | .kLineJoinRound => .kCGLineJoinRound
        | .kLineJoinBevel => .kCGLineJoinBevel)] ++
  (if s.currentState.lineStyle.getDashCount > 0 then
    [.CGContextSetLineDash s.currentState.lineStyle.dashPhase
      (s.currentState.lineStyle.dashLengths.map (fun l => s.currentState.frameWidth * l))
      s.currentState.lineStyle.getDashCount]
  else [])

/-- The calls that a `beginCGContext (swapYAxis, integralOffset)` which returns a context
issues in state `s`, in program order: one save, the clip, the toolkit transform unless it
is the identity, the flip of the y axis unless `swapYAxis`. -/
def CGDrawContext.beginCalls (s : CGDrawContext) (swapYAxis integralOffset : Bool) :
    List Call :=
  [.CGContextSaveGState,
    .CGContextClipToRect
      (if integralOffset then s.pixelAlligned_CGRect (CGRectFromCRect s.currentState.clipRect)
        else CGRectFromCRect s.currentState.clipRect)] ++
  (if s.currentTransform.isInvariant = false then
    [.CGContextConcatCTM (createCGAffineTransform
      (if integralOffset then
        { s.currentTransform with
          dx := (s.pixelAlligned_CGPoint
            (CGPointFromCPoint ⟨s.currentTransform.dx, s.currentTransform.dy⟩)).x
          dy := (s.pixelAlligned_CGPoint
            (CGPointFromCPoint ⟨s.currentTransform.dx, s.currentTransform.dy⟩)).y }
      else s.currentTransform))]
  else []) ++
  (if swapYAxis then [] else [.CGContextScaleCTM 1 (-1)])

/-- Issue the calls `cs` one after the other. -/
def CGDrawContext.calls (self : CGDrawContext) (cs : List Call) : CGDrawContext :=
  cs.foldl CGDrawContext.call self

/-- The test on a line width that `CoreGraphicsDrawDevice::needLineWidthCTM` and
`CGDrawContext::applyLineWidthCTM` both make: the width converted to `int32_t` and back is
the width, and the converted width is not a multiple of two. -/
def lineWidthTest (w : CCoord) : Bool :=
  decide (((static_cast_int32 w : ℤ) : CCoord) = w ∧ (static_cast_int32 w).tmod 2 ≠ 0)

/-- From `s` to `s'` neither `CGContextDrawTiledImage` nor the base-class
`CDrawContext::fillRectWithBitmap` is called. -/
def CGDrawContext.Untiled (s s' : CGDrawContext) : Prop :=
  ∃ cs, s.Issues s' cs ∧ ∀ c ∈ cs, c.isDrawTiledImage = false ∧ c.isBaseFill = false

/-! ## The native context with a floating-point CTM -/

/-- Rounding to the nearest integer, a tie going to the even one. -/
def roundHalfEven (y : ℚ) : ℤ :=
  if y - ⌊y⌋ < 1 / 2 then ⌊y⌋
  else if 1 / 2 < y - ⌊y⌋ then ⌊y⌋ + 1
  else if ⌊y⌋ % 2 = 0 then ⌊y⌋ else ⌊y⌋ + 1

/-- The rounding of IEEE 754 double precision (to nearest, ties to even) for a number in the
range of the normal doubles: with `2 ^ e ≤ |x| < 2 ^ (e + 1)`, the nearest multiple of
`2 ^ (e - 52)`. -/
def roundToDouble (x : ℚ) : ℚ :=
  if x = 0 then 0
  else (roundHalfEven (x / 2 ^ (Int.log 2 |x| - 52)) : ℚ) * 2 ^ (Int.log 2 |x| - 52)

/-- The effect of a call on a native context that keeps its CTM in floating point: as
`CGContext.perform`, with every entry of the CTM that a CTM call computes rounded by `fl`.
`CGContextTranslateCTM` computes the translation entries only. -/
def CGContext.performRounded (fl : ℚ → ℚ) (k : CGContext) : Call → CGContext
  | .CGContextTranslateCTM tx ty =>
    { k with
      ctm :=
        { k.ctm with
          tx := fl (tx * k.ctm.a + ty * k.ctm.c + k.ctm.tx)
          ty := fl (tx * k.ctm.b + ty * k.ctm.d + k.ctm.ty) } }
  | .CGContextScaleCTM sx sy =>
    { k with
      ctm :=
        { k.ctm with
          a := fl (sx * k.ctm.a)
          b := fl (sx * k.ctm.b)
          c := fl (sy * k.ctm.c)
          d := fl (sy * k.ctm.d) } }
  | .CGContextConcatCTM t =>
    { k with
      ctm :=
        { a := fl (CGAffineTransformConcat t k.ctm).a
          b := fl (CGAffineTransformConcat t k.ctm).b
          c := fl (CGAffineTransformConcat t k.ctm).c
          d := fl (CGAffineTransformConcat t k.ctm).d
          tx := fl (CGAffineTransformConcat t k.ctm).tx
          ty := fl (CGAffineTransformConcat t k.ctm).ty } }
  | c => k.perform c

/-- The native context with a floating-point CTM after the calls `cs`. -/
def replayRounded (fl : ℚ → ℚ) (cs : List Call) (k : CGContext) : CGContext :=
  cs.foldl (CGContext.performRounded fl) k

/-- The calls a device has issued between its state `s` and a later state `s'`. -/
def Platform.CoreGraphicsDrawDevice.issuedSince (s s' : Platform.CoreGraphicsDrawDevice) :
    List Call :=
  s'.log.drop s.log.length

/-! ## Sample values -/

def sampleState : CDrawContextState :=
  { frameColor := ⟨255, 255, 255, 255⟩
    fillColor := ⟨0, 0, 0, 255⟩
    fontColor := ⟨255, 255, 255, 255⟩
    frameWidth := 1
    clipRect := ⟨0, 0, 100, 100⟩
    lineStyle := ⟨.kLineCapButt, .kLineJoinMiter, 0, []⟩
    drawMode := ⟨0, false⟩
    globalAlpha := 1
    bitmapQuality := .kDefault }

/-- A native context of a display with two device pixels per point. -/
def sampleNative : CGContext := { ctm := CGAffineTransformMakeScale 2 2, gstack := [] }

/-- The native context `sampleNative` after `init`, with its two saved states. -/
def sampleInitialised : CGContext :=
  { ctm := CGAffineTransformMakeScale 2 2
    gstack := [CGAffineTransformMakeScale 2 2, CGAffineTransformMakeScale 2 2] }

def sampleTransform : CGraphicsTransform := ⟨1, 0, 0, 1, 0, 0⟩

def sampleContext : CGDrawContext :=
  CGDrawContext.construct (some sampleNative) sampleState sampleTransform

def sampleNullContext : CGDrawContext :=
  CGDrawContext.construct none sampleState sampleTransform

def sampleDevice : Platform.CoreGraphicsDrawDevice :=
  (Platform.CoreGraphicsDrawDevice.construct (some sampleNative) 1 .On .kDefault).init

def sampleExternal : External :=
  { libm := ⟨fun x => x, fun x => x, fun x _ => x, fun x => x⟩
    fillTiles := fun _ dstRect => [(dstRect, ⟨0, 0⟩)] }

def sampleCGBitmap : CGBitmap :=
  { id := 1
    cgImage := some ⟨1, 16, 16⟩
    scaleFactor := 1
    size := ⟨16, 16⟩
    newLayer := some 7 }

def sampleBitmap : CBitmap :=
  { width := 16
    height := 16
    platformBitmap := some (.cgBitmap sampleCGBitmap)
    bestPlatformBitmapForScaleFactor := fun _ => some (.cgBitmap sampleCGBitmap) }

/-- Three draws of a 16 by 16 bitmap next to each other. -/
def sampleDraws : List (CRect × CPoint) :=
  [(⟨0, 0, 16, 16⟩, ⟨0, 0⟩), (⟨20, 0, 36, 16⟩, ⟨0, 0⟩), (⟨40, 0, 56, 16⟩, ⟨0, 0⟩)]

/-- A context of scale factor 1 with an empty draw-count cache. -/
def sampleUnitContext : CGDrawContext := { sampleContext with scaleFactor := 1 }

/-- The sample context with a toolkit transform that shifts by a quarter of a point. -/
def sampleShiftedContext : CGDrawContext :=
  { sampleContext with currentTransform := ⟨1, 0, 0, 1, 1 / 4, 1 / 4⟩ }

/-- A triangle. -/
def samplePolygon : PointList := [⟨0, 0⟩, ⟨10, 1 / 3⟩, ⟨5, 8⟩]

/-- Nine lines, the end points of which fill more than one chunk of sixteen points. -/
def sampleLines : LineList :=
  (List.range 9).map (fun i => ⟨⟨(i : ℚ), 0⟩, ⟨(i : ℚ), 10⟩⟩)

/-- A native context without scaling, as `init` leaves it. -/
def sampleIdentityNative : CGContext :=
  { ctm := CGAffineTransformIdentity
    gstack := [CGAffineTransformIdentity, CGAffineTransformIdentity] }

/-- A context on a display with one device pixel per point: integral mode, frame width 1. -/
def sampleIdentityContext : CGDrawContext :=
  CGDrawContext.construct (some ⟨CGAffineTransformIdentity, []⟩) sampleState sampleTransform

/-- The setters of `CDrawContext` as assignments to the member of the toolkit state. -/
def sampleSetters : CDrawContextSetters :=
  { setGlobalAlpha := fun state alpha => { state with globalAlpha := alpha }
    setLineStyle := fun state style => { state with lineStyle := style }
    setLineWidth := fun state width => { state with frameWidth := width }
    setDrawMode := fun state mode => { state with drawMode := mode }
    setFontColor := fun state color => { state with fontColor := color }
    setFrameColor := fun state color => { state with frameColor := color }
    setFillColor := fun state color => { state with fillColor := color } }

/-- A procedure that saves and restores the graphics state around a translation. -/
def sampleProc (self : CGDrawContext) : CGDrawContext :=
  self.calls [.CGContextSaveGState, .CGContextTranslateCTM 1 1, .CGContextRestoreGState]

/-- The double nearest to `0.1`. -/
def sampleTenth : ℚ := 3602879701896397 / 36028797018963968

/-- A native context whose CTM is the translation by the double nearest to `0.1` along
x. -/
def sampleTenthNative : CGContext := { ctm := ⟨1, 0, 0, 1, sampleTenth, 0⟩, gstack := [] }

/-- A device on `sampleTenthNative` with line width 1 and pixel alignment on. -/
def sampleTenthDevice : Platform.CoreGraphicsDrawDevice :=
  { cgContext := some sampleTenthNative
    lineWidth := 1
    pixelAlignmentMode := .On
    bitmapInterpolationQuality := .kDefault
    log := [] }

/-- A platform bitmap of twice the resolution of `sampleCGBitmap`. -/
def sampleCGBitmap2x : CGBitmap :=
  { id := 2
    cgImage := some ⟨2, 32, 32⟩
    scaleFactor := 2
    size := ⟨32, 32⟩
    newLayer := some 8 }

/-- A 16 by 16 bitmap with two platform bitmaps: the one of scale factor 2 is the best for
a scale factor of 2 or more, the one of scale factor 1 for every smaller one. -/
def sampleMultiBitmap : CBitmap :=
  { width := 16
    height := 16
    platformBitmap := some (.cgBitmap sampleCGBitmap)
    bestPlatformBitmapForScaleFactor := fun f =>
      if 2 ≤ f then some (.cgBitmap sampleCGBitmap2x) else some (.cgBitmap sampleCGBitmap) }

/-- The sample context of scale factor 1 under a toolkit transform that zooms by 2. -/
def sampleZoomedContext : CGDrawContext :=
  { sampleUnitContext with currentTransform := ⟨2, 0, 0, 2, 0, 0⟩ }

/-- The sample context of scale factor 1 under a toolkit transform that stretches by 2
along x and by 3 along y. -/
def sampleStretchedContext : CGDrawContext :=
  { sampleUnitContext with currentTransform := ⟨2, 0, 0, 3, 0, 0⟩ }

/-! ## Theorems -/

open Platform

theorem std_round_isInt (x : ℚ) : ∃ n : ℤ, std_round x = (n : ℚ) := by
  unfold std_round
  split
  · exact ⟨_, rfl⟩
  · exact ⟨_, rfl⟩

theorem apply_invert_point (t : CGAffineTransform) (h : t.det ≠ 0) (q : CGPoint) :
    CGPointApplyAffineTransform (CGPointApplyAffineTransform q (CGAffineTransformInvert t)) t
      = q := by
  have h' : t.a * t.d - t.b * t.c ≠ 0 := h
  cases q with
  | mk x y =>
    simp only [CGAffineTransformInvert, CGAffineTransform.det, if_neg h',
      CGPointApplyAffineTransform, CGPoint.mk.injEq]
    constructor
    · field_simp
      ring
    · field_simp
      ring

theorem apply_invert_size (t : CGAffineTransform) (h : t.det ≠ 0) (q : CGSize) :
    CGSizeApplyAffineTransform (CGSizeApplyAffineTransform q (CGAffineTransformInvert t)) t
      = q := by
  have h' : t.a * t.d - t.b * t.c ≠ 0 := h
  cases q with
  | mk x y =>
    simp only [CGAffineTransformInvert, CGAffineTransform.det, if_neg h',
      CGSizeApplyAffineTransform, CGSize.mk.injEq]
    constructor
    · field_simp
      ring
    · field_simp
      ring

theorem invert_apply_point (t : CGAffineTransform) (h : t.det ≠ 0) (q : CGPoint) :
    CGPointApplyAffineTransform (CGPointApplyAffineTransform q t) (CGAffineTransformInvert t)
      = q := by
  have h' : t.a * t.d - t.b * t.c ≠ 0 := h
  cases q with
  | mk x y =>
    simp only [CGAffineTransformInvert, CGAffineTransform.det, if_neg h',
      CGPointApplyAffineTransform, CGPoint.mk.injEq]
    constructor
    · field_simp
      ring
    · field_simp
      ring

theorem nestDepth_append (a b : List Call) (d : Nat) :
    nestDepth (a ++ b) d = (nestDepth a d).bind (nestDepth b) := by
  induction a generalizing d with
  | nil => simp [nestDepth]
  | cons c cs ih =>
    simp only [List.cons_append, nestDepth]
    split
    · exact ih _
    · split
      · cases d with
        | zero => simp
        | succ d => exact ih _
      · exact ih _

theorem nestDepth_shift (a : List Call) (d n m : Nat) (h : nestDepth a d = some n) :
    nestDepth a (d + m) = some (n + m) := by
  induction a generalizing d with
  | nil =>
    simp only [nestDepth, Option.some.injEq] at h ⊢
    omega
  | cons c cs ih =>
    simp only [nestDepth] at h ⊢
    split
    · rename_i hc
      rw [if_pos hc] at h
      have := ih _ h
      rw [show d + m + 1 = d + 1 + m by omega]
      exact this
    · rename_i hc
      rw [if_neg hc] at h
      split
      · rename_i hr
        rw [if_pos hr] at h
        cases d with
        | zero => simp at h
        | succ d =>
          rw [show d + 1 + m = (d + m) + 1 by omega]
          exact ih _ h
      · rename_i hr
        rw [if_neg hr] at h
        exact ih _ h

theorem wellNested_nil : WellNested [] := rfl

theorem wellNested_append {a b : List Call} (ha : WellNested a) (hb : WellNested b) :
    WellNested (a ++ b) := by
  unfold WellNested at *
  rw [nestDepth_append, ha]
  exact hb

theorem wellNested_single {c : Call} (hs : c.isSave = false) (hr : c.isRestore = false) :
    WellNested [c] := by
  simp [WellNested, nestDepth, hs, hr]

theorem wellNested_bracket {body : List Call} (h : WellNested body) :
    WellNested (Call.CGContextSaveGState :: (body ++ [Call.CGContextRestoreGState])) := by
  unfold WellNested at *
  have h1 := nestDepth_shift body 0 0 1 h
  simp only [nestDepth, Call.isSave, if_true]
  rw [nestDepth_append]
  simp only [Nat.zero_add] at h1
  rw [h1]
  simp [nestDepth, Call.isSave, Call.isRestore]

theorem nestDepth_count (cs : List Call) (d n : Nat) (h : nestDepth cs d = some n) :
    d + cs.countP Call.isSave = n + cs.countP Call.isRestore := by
  induction cs generalizing d with
  | nil =>
    simp only [nestDepth, Option.some.injEq] at h
    simp [h]
  | cons c cs ih =>
    simp only [nestDepth] at h
    by_cases hs : c.isSave = true
    · rw [if_pos hs] at h
      have hr : c.isRestore = false := by
        cases c <;> simp_all [Call.isSave, Call.isRestore]
      have := ih _ h
      simp only [List.countP_cons, hs, hr, if_true]
      simp
      omega
    · rw [if_neg hs] at h
      by_cases hr : c.isRestore = true
      · rw [if_pos hr] at h
        cases d with
        | zero => simp at h
        | succ d =>
          have := ih _ h
          simp only [List.countP_cons, hs, hr, if_true]
          simp
          omega
      · rw [if_neg hr] at h
        have := ih _ h
        simp only [List.countP_cons, hs, hr]
        simp
        omega

theorem nestDepth_take (cs : List Call) (d n : Nat) (h : nestDepth cs d = some n) (i : Nat) :
    (cs.take i).countP Call.isRestore ≤ d + (cs.take i).countP Call.isSave := by
  have h' : nestDepth (cs.take i ++ cs.drop i) d = some n := by
    rw [List.take_append_drop]; exact h
  rw [nestDepth_append] at h'
  cases hq : nestDepth (cs.take i) d with
  | none => rw [hq] at h'; simp at h'
  | some m =>
    have := nestDepth_count _ _ _ hq
    omega

theorem perform_gstack_plain (k : CGContext) (c : Call) (hs : c.isSave = false)
    (hr : c.isRestore = false) : (k.perform c).gstack = k.gstack := by
  cases c <;> simp_all [CGContext.perform, Call.isSave, Call.isRestore]

theorem replay_append (a b : List Call) (k : CGContext) :
    replay (a ++ b) k = replay b (replay a k) := by
  simp [replay, List.foldl_append]

theorem replay_gstack (cs : List Call) :
    ∀ (k : CGContext) (d n : Nat) (pre base : List CGAffineTransform),
      nestDepth cs d = some n → k.gstack = pre ++ base → pre.length = d →
      ∃ pre', (replay cs k).gstack = pre' ++ base ∧ pre'.length = n := by
  induction cs with
  | nil =>
    intro k d n pre base h hk hp
    simp only [nestDepth, Option.some.injEq] at h
    exact ⟨pre, by simpa [replay] using hk, by omega⟩
  | cons c cs ih =>
    intro k d n pre base h hk hp
    simp only [nestDepth] at h
    have hstep : replay (c :: cs) k = replay cs (k.perform c) := by simp [replay]
    rw [hstep]
    by_cases hs : c.isSave = true
    · rw [if_pos hs] at h
      have hc : c = Call.CGContextSaveGState := by
        cases c <;> simp_all [Call.isSave]
      subst hc
      refine ih _ (d + 1) n (k.ctm :: pre) base h ?_ ?_
      · simp [CGContext.perform, hk]
      · simp [hp]
    · rw [if_neg hs] at h
      by_cases hr : c.isRestore = true
      · rw [if_pos hr] at h
        have hc : c = Call.CGContextRestoreGState := by
          cases c <;> simp_all [Call.isRestore]
        subst hc
        cases d with
        | zero => simp at h
        | succ d =>
          cases pre with
          | nil => simp at hp
          | cons t pre0 =>
            refine ih _ d n pre0 base h ?_ ?_
            · simp [CGContext.perform, hk]
            · simpa using hp
      · rw [if_neg hr] at h
        refine ih _ d n pre base h ?_ hp
        rw [perform_gstack_plain k c (by simpa using hs) (by simpa using hr)]
        exact hk

theorem replay_wellNested_gstack (cs : List Call) (k : CGContext) (h : WellNested cs) :
    (replay cs k).gstack = k.gstack := by
  obtain ⟨pre', h1, h2⟩ := replay_gstack cs k 0 0 [] k.gstack h (by simp) rfl
  have : pre' = [] := List.length_eq_zero.mp h2
  simpa [this] using h1

theorem replay_bracket (body : List Call) (k : CGContext) (h : WellNested body) :
    replay (Call.CGContextSaveGState :: (body ++ [Call.CGContextRestoreGState])) k = k := by
  have h1 : replay (Call.CGContextSaveGState :: (body ++ [Call.CGContextRestoreGState])) k
      = (replay body (k.perform .CGContextSaveGState)).perform .CGContextRestoreGState := by
    simp [replay, List.foldl_append]
  rw [h1]
  have h2 := replay_wellNested_gstack body (k.perform .CGContextSaveGState) h
  simp only [CGContext.perform] at h2 ⊢
  rw [h2]

namespace CGDrawContext

theorem Issues.issues_refl (s : CGDrawContext) : s.Issues s [] := by
  constructor
  · simp
  · cases h : s.cgContext <;> simp [replay]

theorem Issues.issues_of_eq {s s' : CGDrawContext} (hl : s'.log = s.log)
    (hc : s'.cgContext = s.cgContext) : s.Issues s' [] := by
  constructor
  · simp [hl]
  · rw [hc]; cases h : s.cgContext <;> simp [replay]

theorem Issues.issues_trans {s s' s'' : CGDrawContext} {a b : List Call}
    (h1 : s.Issues s' a) (h2 : s'.Issues s'' b) : s.Issues s'' (a ++ b) := by
  constructor
  · rw [h2.1, h1.1, List.append_assoc]
  · rw [h2.2, h1.2]
    cases h : s.cgContext <;> simp [replay_append]

theorem Issues.issues_call (s : CGDrawContext) (c : Call) : s.Issues (s.call c) [c] := by
  constructor
  · simp [CGDrawContext.call]
  · cases h : s.cgContext <;> simp [CGDrawContext.call, h, replay]

theorem Nested.nested_refl (s : CGDrawContext) : s.Nested s :=
  ⟨[], Issues.issues_refl s, wellNested_nil⟩

theorem Nested.nested_of_eq {s s' : CGDrawContext} (hl : s'.log = s.log)
    (hc : s'.cgContext = s.cgContext) : s.Nested s' :=
  ⟨[], Issues.issues_of_eq hl hc, wellNested_nil⟩

theorem Nested.nested_trans {s s' s'' : CGDrawContext} (h1 : s.Nested s') (h2 : s'.Nested s'') :
    s.Nested s'' := by
  obtain ⟨a, ha, wa⟩ := h1
  obtain ⟨b, hb, wb⟩ := h2
  exact ⟨a ++ b, ha.issues_trans hb, wellNested_append wa wb⟩

theorem Nested.nested_call {s s' : CGDrawContext} (h : s.Nested s') (c : Call)
    (hs : c.isSave = false) (hr : c.isRestore = false) : s.Nested (s'.call c) :=
  h.nested_trans ⟨[c], Issues.issues_call s' c, wellNested_single hs hr⟩

/-- A bracket of one save, well nested calls and one restore leaves the native context as
it was. -/
theorem Neutral.bracket {s s' : CGDrawContext}
    (h : (s.call .CGContextSaveGState).Nested s') :
    s.Neutral (s'.call .CGContextRestoreGState) := by
  obtain ⟨body, hb, wb⟩ := h
  have hi : s.Issues (s'.call .CGContextRestoreGState)
      ([Call.CGContextSaveGState] ++ body ++ [Call.CGContextRestoreGState]) :=
    ((Issues.issues_call s _).issues_trans hb).issues_trans (Issues.issues_call s' _)
  refine ⟨_, hi, ?_, ?_⟩
  · simpa using wellNested_bracket wb
  · rw [hi.2]
    cases hk : s.cgContext with
    | none => simp
    | some k =>
      have := replay_bracket body k wb
      simp only [Option.map_some', Option.some.injEq]
      simpa using this

theorem Neutral.neutral_refl (s : CGDrawContext) : s.Neutral s :=
  ⟨[], Issues.issues_refl s, wellNested_nil, rfl⟩

theorem Neutral.neutral_trans {s s' s'' : CGDrawContext} (h1 : s.Neutral s') (h2 : s'.Neutral s'') :
    s.Neutral s'' := by
  obtain ⟨a, ha, wa, ea⟩ := h1
  obtain ⟨b, hb, wb, eb⟩ := h2
  exact ⟨a ++ b, ha.issues_trans hb, wellNested_append wa wb, eb.trans ea⟩

theorem Neutral.to_nested {s s' : CGDrawContext} (h : s.Neutral s') : s.Nested s' := by
  obtain ⟨a, ha, wa, _⟩ := h
  exact ⟨a, ha, wa⟩

theorem applyLineStyle_nested {s s' : CGDrawContext} (h : s.Nested s') :
    s.Nested s'.applyLineStyle := by
  unfold applyLineStyle
  simp only []
  repeat' (first | split | refine Nested.nested_call ?_ _ rfl rfl | exact h)

theorem applyLineWidthCTM_nested {s s' : CGDrawContext} (h : s.Nested s') :
    s.Nested s'.applyLineWidthCTM := by
  unfold applyLineWidthCTM
  simp only []
  repeat' (first | split | refine Nested.nested_call ?_ _ rfl rfl | exact h)

theorem setCGDrawContextQuality_nested {s s' : CGDrawContext} (h : s.Nested s') :
    s.Nested s'.setCGDrawContextQuality := by
  unfold setCGDrawContextQuality
  simp only []
  repeat' (first | split | refine Nested.nested_call ?_ _ rfl rfl | exact h)

theorem DoGraphicStateSave_nested {s s' : CGDrawContext} (h : s.Nested s')
    (proc : CGDrawContext → CGDrawContext) (hp : ∀ x : CGDrawContext, x.Nested (proc x))
    (condition : Bool) :
    s.Nested (s'.DoGraphicStateSave proc condition) := by
  unfold DoGraphicStateSave
  cases condition with
  | false => simpa using h.nested_trans (hp s')
  | true =>
    simp only [if_true]
    exact h.nested_trans (Neutral.bracket (hp _)).to_nested

theorem strokeLoop_nested (pointPtr : List CGPoint) (numPoints : Nat) :
    ∀ {s s' : CGDrawContext}, s.Nested s' → s.Nested (s'.strokeLoop pointPtr numPoints) := by
  induction numPoints using Nat.strong_induction_on generalizing pointPtr with
  | _ n ih =>
    intro s s' h
    unfold strokeLoop
    split
    · exact h
    · exact ih _ (by omega) _ (Nested.nested_call h _ rfl rfl)

theorem foldl_nested {α : Type} (f : CGDrawContext → α → CGDrawContext)
    (hf : ∀ (x : CGDrawContext) (a : α), x.Nested (f x a)) (l : List α) :
    ∀ {s s' : CGDrawContext}, s.Nested s' → s.Nested (l.foldl f s') := by
  induction l with
  | nil => intro s s' h; simpa using h
  | cons a l ih =>
    intro s s' h
    simp only [List.foldl_cons]
    exact ih (h.nested_trans (hf s' a))

theorem foldl_neutral {α : Type} (f : CGDrawContext → α → CGDrawContext)
    (hf : ∀ (x : CGDrawContext) (a : α), x.Neutral (f x a)) (l : List α) :
    ∀ {s s' : CGDrawContext}, s.Neutral s' → s.Neutral (l.foldl f s') := by
  induction l with
  | nil => intro s s' h; simpa using h
  | cons a l ih =>
    intro s s' h
    simp only [List.foldl_cons]
    exact ih (h.neutral_trans (hf s' a))

theorem beginCGContext_false (s : CGDrawContext) (a b : Bool)
    (h : (s.beginCGContext a b).1 = false) : (s.beginCGContext a b).2 = s := by
  unfold beginCGContext at h ⊢
  split
  · split
    · rfl
    · rename_i h1 h2
      simp [h1, h2] at h
  · rfl

theorem beginCGContext_true (s : CGDrawContext) (a b : Bool)
    (h : (s.beginCGContext a b).1 = true) :
    (s.call .CGContextSaveGState).Nested (s.beginCGContext a b).2 := by
  unfold beginCGContext at h ⊢
  split
  · split
    · rename_i h1 h2
      simp [h1, h2] at h
    · simp only []
      repeat' (first | split | refine Nested.nested_call ?_ _ rfl rfl | exact Nested.nested_refl _)
  · rename_i h1
    simp [h1] at h

/-- The shape shared by the drawing operations: the calls between a successful
`beginCGContext` and `releaseCGContext` are well nested. -/
theorem neutral_of_begin (s r : CGDrawContext) (a b : Bool)
    (hb : (s.beginCGContext a b).1 = true) (h : (s.beginCGContext a b).2.Nested r) :
    s.Neutral (r.releaseCGContext true) := by
  unfold releaseCGContext
  simp only [if_true]
  exact Neutral.bracket ((beginCGContext_true s a b hb).nested_trans h)

theorem Neutral.of_inert_call (s : CGDrawContext) (c : Call) (hs : c.isSave = false)
    (hr : c.isRestore = false) (hi : ∀ k : CGContext, k.perform c = k) :
    s.Neutral (s.call c) := by
  refine ⟨[c], Issues.issues_call s c, wellNested_single hs hr, ?_⟩
  cases hk : s.cgContext <;> simp [CGDrawContext.call, hk, hi]

theorem addOvalToPath_nested {s s' : CGDrawContext} (h : s.Nested s') (libm : Libm)
    (center : CPoint) (a b u v : CGFloat) :
    s.Nested (s'.addOvalToPath libm center a b u v) := by
  unfold addOvalToPath
  refine DoGraphicStateSave_nested h _ ?_ true
  intro x
  simp only []
  repeat' (first | split | refine Nested.nested_call ?_ _ rfl rfl | exact Nested.nested_refl _)

theorem drawCGImageRef_nested {s s' : CGDrawContext} (h : s.Nested s') (image : CGImageRef)
    (layer : Option CGLayerRef) (f : CCoord) (inRect : CRect) (inOffset : CPoint)
    (alpha : CGFloat) (bitmap : CBitmap) :
    s.Nested (s'.drawCGImageRef image layer f inRect inOffset alpha bitmap) := by
  unfold drawCGImageRef
  simp only []
  repeat'
    first
    | split
    | refine Nested.nested_call ?_ _ rfl rfl
    | refine setCGDrawContextQuality_nested ?_
    | exact h

theorem createCGLayer_nested {s s' : CGDrawContext} (h : s.Nested s') (cgBitmap : CGBitmap) :
    s.Nested (s'.createCGLayer cgBitmap).2 := by
  unfold createCGLayer
  simp only []
  split
  · exact (Nested.nested_call h (.CGBitmap_createCGLayer cgBitmap.id) rfl rfl).nested_trans
      (Nested.nested_of_eq rfl rfl)
  · exact Nested.nested_call h (.CGBitmap_createCGLayer cgBitmap.id) rfl rfl

theorem layerForBitmap_nested {s s' : CGDrawContext} (h : s.Nested s') (cgBitmap : CGBitmap) :
    s.Nested (s'.layerForBitmap cgBitmap).2 := by
  unfold layerForBitmap
  split
  · split
    · exact h
    · split
      · exact h.nested_trans (Nested.nested_of_eq rfl rfl)
      · simp only []
        refine createCGLayer_nested ?_ _
        exact h.nested_trans (Nested.nested_of_eq rfl rfl)
  · exact h

theorem drawLine_neutral (s : CGDrawContext) (line : LinePair) :
    s.Neutral (s.drawLine line) := by
  unfold drawLine
  simp only []
  split
  · rename_i hb
    apply neutral_of_begin _ _ _ _ hb
    repeat'
      first
      | split
      | refine Nested.nested_call ?_ _ rfl rfl
      | refine applyLineStyle_nested ?_
      | refine applyLineWidthCTM_nested ?_
      | exact Nested.nested_refl _
  · rename_i hb
    rw [beginCGContext_false _ _ _ (by simpa using hb)]
    exact Neutral.neutral_refl _

theorem drawLines_neutral (s : CGDrawContext) (lines : LineList) :
    s.Neutral (s.drawLines lines) := by
  unfold drawLines
  simp only []
  split
  · exact Neutral.neutral_refl _
  split
  · rename_i hb
    apply neutral_of_begin _ _ _ _ hb
    refine strokeLoop_nested _ _ ?_
    repeat'
      first
      | split
      | refine Nested.nested_call ?_ _ rfl rfl
      | refine applyLineStyle_nested ?_
      | refine applyLineWidthCTM_nested ?_
      | exact Nested.nested_refl _
  · rename_i hb
    rw [beginCGContext_false _ _ _ (by simpa using hb)]
    exact Neutral.neutral_refl _

theorem drawPolygon_neutral (s : CGDrawContext) (pts : PointList) (drawStyle : CDrawStyle) :
    s.Neutral (s.drawPolygon pts drawStyle) := by
  unfold drawPolygon
  simp only []
  split
  · exact Neutral.neutral_refl _
  split
  · rename_i hb
    apply neutral_of_begin _ _ _ _ hb
    refine Nested.nested_call ?_ _ rfl rfl
    refine foldl_nested _ ?_ _ ?_
    · intro x a
      repeat' (first | split | refine Nested.nested_call ?_ _ rfl rfl | exact Nested.nested_refl _)
    · repeat'
        first
        | split
        | refine Nested.nested_call ?_ _ rfl rfl
        | refine applyLineStyle_nested ?_
        | exact Nested.nested_refl _
  · rename_i hb
    rw [beginCGContext_false _ _ _ (by simpa using hb)]
    exact Neutral.neutral_refl _

theorem drawRect_neutral (s : CGDrawContext) (rect : CRect) (drawStyle : CDrawStyle) :
    s.Neutral (s.drawRect rect drawStyle) := by
  unfold drawRect
  simp only []
  split
  · rename_i hb
    apply neutral_of_begin _ _ _ _ hb
    repeat'
      first
      | split
      | refine Nested.nested_call ?_ _ rfl rfl
      | refine applyLineStyle_nested ?_
      | refine applyLineWidthCTM_nested ?_
      | exact Nested.nested_refl _
  · rename_i hb
    rw [beginCGContext_false _ _ _ (by simpa using hb)]
    exact Neutral.neutral_refl _

theorem drawEllipse_neutral (s : CGDrawContext) (rect : CRect) (drawStyle : CDrawStyle) :
    s.Neutral (s.drawEllipse rect drawStyle) := by
  unfold drawEllipse
  simp only []
  split
  · rename_i hb
    apply neutral_of_begin _ _ _ _ hb
    repeat'
      first
      | split
      | refine Nested.nested_call ?_ _ rfl rfl
      | refine applyLineStyle_nested ?_
      | refine applyLineWidthCTM_nested ?_
      | exact Nested.nested_refl _
  · rename_i hb
    rw [beginCGContext_false _ _ _ (by simpa using hb)]
    exact Neutral.neutral_refl _

theorem drawArc_neutral (s : CGDrawContext) (libm : Libm) (rect : CRect) (u v : CGFloat)
    (drawStyle : CDrawStyle) : s.Neutral (s.drawArc libm rect u v drawStyle) := by
  unfold drawArc
  simp only []
  split
  · rename_i hb
    apply neutral_of_begin _ _ _ _ hb
    refine Nested.nested_call ?_ _ rfl rfl
    refine addOvalToPath_nested ?_ _ _ _ _ _ _
    refine Nested.nested_call ?_ _ rfl rfl
    exact applyLineStyle_nested (Nested.nested_refl _)
  · rename_i hb
    rw [beginCGContext_false _ _ _ (by simpa using hb)]
    exact Neutral.neutral_refl _

theorem clearRect_neutral (s : CGDrawContext) (rect : CRect) :
    s.Neutral (s.clearRect rect) := by
  unfold clearRect
  simp only []
  split
  · rename_i hb
    apply neutral_of_begin _ _ _ _ hb
    repeat' (first | split | refine Nested.nested_call ?_ _ rfl rfl | exact Nested.nested_refl _)
  · rename_i hb
    rw [beginCGContext_false _ _ _ (by simpa using hb)]
    exact Neutral.neutral_refl _

theorem drawBitmap_neutral (s : CGDrawContext) (bitmap : Option CBitmap) (inRect : CRect)
    (inOffset : CPoint) (alpha : CGFloat) :
    s.Neutral (s.drawBitmap bitmap inRect inOffset alpha) := by
  unfold drawBitmap
  simp only []
  split
  · exact Neutral.neutral_refl _
  split
  · exact Neutral.neutral_refl _
  split
  · exact Neutral.neutral_refl _
  split
  · exact Neutral.neutral_refl _
  split
  · exact Neutral.neutral_refl _
  split
  · rename_i hb
    apply neutral_of_begin _ _ _ _ hb
    refine drawCGImageRef_nested ?_ _ _ _ _ _ _ _
    exact layerForBitmap_nested (Nested.nested_refl _) _
  · rename_i hb
    rw [beginCGContext_false _ _ _ (by simpa using hb)]
    exact Neutral.neutral_refl _

theorem fillRectWithBitmap_neutral (s : CGDrawContext) (ext : External)
    (bitmap : Option CBitmap) (srcRect dstRect : CRect) (alpha : CGFloat) :
    s.Neutral (s.fillRectWithBitmap ext bitmap srcRect dstRect alpha) := by
  unfold fillRectWithBitmap
  simp only []
  split
  · exact Neutral.neutral_refl _
  split
  · exact Neutral.neutral_refl _
  split
  · refine foldl_neutral _ ?_ _ ?_
    · intro x a
      exact drawBitmap_neutral _ _ _ _ _
    · exact Neutral.of_inert_call _ _ rfl rfl (fun _ => rfl)
  split
  · exact Neutral.neutral_refl _
  split
  · exact Neutral.neutral_refl _
  split
  · exact Neutral.neutral_refl _
  split
  · rename_i hb
    apply neutral_of_begin _ _ _ _ hb
    refine Nested.nested_call ?_ _ rfl rfl
    refine setCGDrawContextQuality_nested ?_
    refine Nested.nested_call ?_ _ rfl rfl
    exact Nested.nested_refl _
  · rename_i hb
    rw [beginCGContext_false _ _ _ (by simpa using hb)]
    exact Neutral.neutral_refl _

theorem drawGraphicsPath_neutral (s : CGDrawContext) (path : Option CGraphicsPath)
    (mode : PathDrawMode) (t : Option CGraphicsTransform) :
    s.Neutral (s.drawGraphicsPath path mode t) := by
  unfold drawGraphicsPath
  simp only []
  split
  · exact Neutral.neutral_refl _
  split
  · exact Neutral.neutral_refl _
  split
  · exact Neutral.neutral_refl _
  split
  · rename_i hb
    apply neutral_of_begin _ _ _ _ hb
    refine Nested.nested_call ?_ _ rfl rfl
    refine DoGraphicStateSave_nested ?_ _ ?_ true
    · split
      · exact applyLineStyle_nested (Nested.nested_refl _)
      · exact Nested.nested_refl _
    · intro x
      split
      · refine Nested.nested_call ?_ _ rfl rfl
        refine DoGraphicStateSave_nested ?_ _ ?_ true
        · split
          · exact Nested.nested_call (Nested.nested_refl _) _ rfl rfl
          · exact Nested.nested_refl _
        · intro y
          exact Nested.nested_call (applyLineWidthCTM_nested (Nested.nested_refl _)) _ rfl rfl
      · refine Nested.nested_call ?_ _ rfl rfl
        split
        · exact Nested.nested_call (Nested.nested_refl _) _ rfl rfl
        · exact Nested.nested_refl _
  · rename_i hb
    rw [beginCGContext_false _ _ _ (by simpa using hb)]
    exact Neutral.neutral_refl _

theorem fillLinearGradient_neutral (s : CGDrawContext) (path : Option CGraphicsPath)
    (gradient : CGradient) (startPoint endPoint : CPoint) (evenOdd : Bool)
    (t : Option CGraphicsTransform) :
    s.Neutral (s.fillLinearGradient path gradient startPoint endPoint evenOdd t) := by
  unfold fillLinearGradient
  simp only []
  split
  · exact Neutral.neutral_refl _
  split
  · exact Neutral.neutral_refl _
  split
  · exact Neutral.neutral_refl _
  split
  · exact Neutral.neutral_refl _
  split
  · rename_i hb
    apply neutral_of_begin _ _ _ _ hb
    refine Nested.nested_call ?_ _ rfl rfl
    have hclip : ∀ x : CGDrawContext, x.Nested
        (if evenOdd = true then x.call .CGContextEOClip else x.call .CGContextClip) := by
      intro x
      split
      · exact Nested.nested_call (Nested.nested_refl _) _ rfl rfl
      · exact Nested.nested_call (Nested.nested_refl _) _ rfl rfl
    refine Nested.nested_trans ?_ (hclip _)
    refine (Neutral.bracket ?_).to_nested
    repeat' (first | split | refine Nested.nested_call ?_ _ rfl rfl | exact Nested.nested_refl _)
  · rename_i hb
    rw [beginCGContext_false _ _ _ (by simpa using hb)]
    exact Neutral.neutral_refl _

theorem fillRadialGradient_neutral (s : CGDrawContext) (path : Option CGraphicsPath)
    (gradient : CGradient) (center : CPoint) (radius : CCoord) (originOffset : CPoint)
    (evenOdd : Bool) (t : Option CGraphicsTransform) :
    s.Neutral (s.fillRadialGradient path gradient center radius originOffset evenOdd t) := by
  unfold fillRadialGradient
  simp only []
  split
  · exact Neutral.neutral_refl _
  split
  · exact Neutral.neutral_refl _
  split
  · exact Neutral.neutral_refl _
  split
  · exact Neutral.neutral_refl _
  split
  · rename_i hb
    apply neutral_of_begin _ _ _ _ hb
    refine Nested.nested_call ?_ _ rfl rfl
    have hclip : ∀ x : CGDrawContext, x.Nested
        (if evenOdd = true then x.call .CGContextEOClip else x.call .CGContextClip) := by
      intro x
      split
      · exact Nested.nested_call (Nested.nested_refl _) _ rfl rfl
      · exact Nested.nested_call (Nested.nested_refl _) _ rfl rfl
    refine Nested.nested_trans ?_ (hclip _)
    refine DoGraphicStateSave_nested (Nested.nested_refl _) _ ?_ true
    intro x
    repeat' (first | split | refine Nested.nested_call ?_ _ rfl rfl | exact Nested.nested_refl _)
  · rename_i hb
    rw [beginCGContext_false _ _ _ (by simpa using hb)]
    exact Neutral.neutral_refl _

theorem draw_neutral (s : CGDrawContext) (ext : External) (op : DrawOp) :
    s.Neutral (s.draw ext op) := by
  cases op with
  | drawLine line => exact drawLine_neutral _ _
  | drawLines lines => exact drawLines_neutral _ _
  | drawPolygon pts st => exact drawPolygon_neutral _ _ _
  | drawRect r st => exact drawRect_neutral _ _ _
  | drawEllipse r st => exact drawEllipse_neutral _ _ _
  | drawArc r a b st => exact drawArc_neutral _ _ _ _ _ _
  | clearRect r => exact clearRect_neutral _ _
  | drawBitmap b r o a => exact drawBitmap_neutral _ _ _ _ _
  | fillRectWithBitmap b r1 r2 a => exact fillRectWithBitmap_neutral _ _ _ _ _ _
  | drawGraphicsPath p m t => exact drawGraphicsPath_neutral _ _ _ _
  | fillLinearGradient p g a b e t => exact fillLinearGradient_neutral _ _ _ _ _ _ _
  | fillRadialGradient p g c r o e t => exact fillRadialGradient_neutral _ _ _ _ _ _ _ _

end CGDrawContext

/-- C1: every drawing operation of `CGDrawContext` issues as many `CGContextSaveGState` as
`CGContextRestoreGState` calls, in every prefix of the calls it issues the restores do not
outnumber the saves (each restore has its matching earlier save), and the native context,
in particular the depth of its graphics-state stack, is after the operation what it was
before. -/
theorem draw_save_restore_balanced (self : CGDrawContext) (ext : External)
    (op : CGDrawContext.DrawOp) :
    ∃ calls : List Call,
      (self.draw ext op).log = self.log ++ calls ∧
      calls.countP Call.isSave = calls.countP Call.isRestore ∧
      (∀ n, (calls.take n).countP Call.isRestore ≤ (calls.take n).countP Call.isSave) ∧
      (self.draw ext op).cgContext.map (fun k => k.gstack.length)
        = self.cgContext.map (fun k => k.gstack.length) ∧
      (self.draw ext op).cgContext = self.cgContext := by
  obtain ⟨calls, hi, hw, hc⟩ := CGDrawContext.draw_neutral self ext op
  refine ⟨calls, hi.1, ?_, ?_, by rw [hc], hc⟩
  · have := nestDepth_count calls 0 0 hw
    omega
  · intro n
    have := nestDepth_take calls 0 0 hw n
    omega

/-- C5: for an invertible current transformation matrix, the device-space image of
`pixelAlligned (p)` is the componentwise `std::round` of the device-space image of `p`
(integer coordinates) and `pixelAlligned (p)` is the only user-space point with that image;
for a rectangle the device-space image of the origin and the image of the size under the
linear part are the rounded images of the origin and size of the argument; the two classes
compute the same point and rectangle on the same native context. -/
theorem pixelAlligned_device_space (k : CGContext) (hdet : k.ctm.det ≠ 0)
    (ctx : CGDrawContext) (dev : CoreGraphicsDrawDevice)
    (hctx : ctx.cgContext = some k) (hdev : dev.cgContext = some k)
    (p : CGPoint) (r : CGRect) :
    (CGContextConvertPointToDeviceSpace (some k) (ctx.pixelAlligned_CGPoint p)
      = ⟨std_round (CGContextConvertPointToDeviceSpace (some k) p).x,
          std_round (CGContextConvertPointToDeviceSpace (some k) p).y⟩) ∧
    (∀ q : CGPoint, CGContextConvertPointToDeviceSpace (some k) q
        = ⟨std_round (CGContextConvertPointToDeviceSpace (some k) p).x,
            std_round (CGContextConvertPointToDeviceSpace (some k) p).y⟩ →
      q = ctx.pixelAlligned_CGPoint p) ∧
    (CGContextConvertPointToDeviceSpace (some k) (ctx.pixelAlligned_CGRect r).origin
      = ⟨std_round (CGContextConvertPointToDeviceSpace (some k) r.origin).x,
          std_round (CGContextConvertPointToDeviceSpace (some k) r.origin).y⟩) ∧
    (CGContextConvertSizeToDeviceSpace (some k) (ctx.pixelAlligned_CGRect r).size
      = ⟨std_round (CGContextConvertSizeToDeviceSpace (some k) r.size).width,
          std_round (CGContextConvertSizeToDeviceSpace (some k) r.size).height⟩) ∧
    (∀ x : ℚ, ∃ n : ℤ, std_round x = (n : ℚ)) ∧
    dev.pixelAlligned_CGPoint p = ctx.pixelAlligned_CGPoint p ∧
    dev.pixelAlligned_CGRect r = ctx.pixelAlligned_CGRect r := by
  refine ⟨?_, ?_, ?_, ?_, std_round_isInt, ?_, ?_⟩
  · simp only [CGDrawContext.pixelAlligned_CGPoint, hctx, CGContextConvertPointToDeviceSpace,
      CGContextConvertPointToUserSpace, CGContextGetCTM]
    exact apply_invert_point _ hdet _
  · intro q hq
    simp only [CGDrawContext.pixelAlligned_CGPoint, hctx, CGContextConvertPointToDeviceSpace,
      CGContextConvertPointToUserSpace, CGContextGetCTM] at hq ⊢
    rw [← hq]
    exact (invert_apply_point _ hdet _).symm
  · simp only [CGDrawContext.pixelAlligned_CGRect, hctx, CGContextConvertPointToDeviceSpace,
      CGContextConvertPointToUserSpace, CGContextGetCTM]
    exact apply_invert_point _ hdet _
  · simp only [CGDrawContext.pixelAlligned_CGRect, hctx, CGContextConvertSizeToDeviceSpace,
      CGContextConvertSizeToUserSpace, CGContextGetCTM]
    exact apply_invert_size _ hdet _
  · simp only [CGDrawContext.pixelAlligned_CGPoint, CoreGraphicsDrawDevice.pixelAlligned_CGPoint,
      hctx, hdev]
  · simp only [CGDrawContext.pixelAlligned_CGRect, CoreGraphicsDrawDevice.pixelAlligned_CGRect,
      hctx, hdev]

/-- Witness of C5 on a display with two device pixels per point, for the point
`(1/3, 5/4)` and the rectangle at `(1/3, 5/4)` of size `(7/3, 1/4)`. -/
theorem pixelAlligned_device_space_witness :
    sampleInitialised.ctm.det ≠ 0 ∧
    CGContextConvertPointToDeviceSpace (some sampleInitialised)
        (sampleContext.pixelAlligned_CGPoint ⟨1 / 3, 5 / 4⟩)
      = ⟨std_round (CGContextConvertPointToDeviceSpace (some sampleInitialised)
            ⟨1 / 3, 5 / 4⟩).x,
          std_round (CGContextConvertPointToDeviceSpace (some sampleInitialised)
            ⟨1 / 3, 5 / 4⟩).y⟩ :=
  ⟨by norm_num [sampleInitialised, CGAffineTransform.det, CGAffineTransformMakeScale],
    (pixelAlligned_device_space sampleInitialised
      (by norm_num [sampleInitialised, CGAffineTransform.det, CGAffineTransformMakeScale])
      sampleContext sampleDevice rfl rfl ⟨1 / 3, 5 / 4⟩
      ⟨⟨1 / 3, 5 / 4⟩, ⟨7 / 3, 1 / 4⟩⟩).1⟩

namespace CGDrawContext

theorem beginCGContext_unusable (s : CGDrawContext)
    (h : s.cgContext = none ∨ s.getCurrentState.clipRect.isEmpty = true) (a b : Bool) :
    s.beginCGContext a b = (false, s) := by
  unfold beginCGContext
  rcases h with h | h
  · simp [h]
  · simp [h]

theorem drawBitmap_unusable (s : CGDrawContext)
    (h : s.cgContext = none ∨ s.getCurrentState.clipRect.isEmpty = true)
    (bitmap : Option CBitmap) (inRect : CRect) (inOffset : CPoint) (alpha : CGFloat) :
    s.drawBitmap bitmap inRect inOffset alpha = s := by
  unfold drawBitmap
  simp only [beginCGContext_unusable s h]
  repeat' split
  all_goals first | rfl | simp_all

theorem foldl_drawBitmap_unusable (bitmap : Option CBitmap) (alpha : CGFloat)
    (tiles : List (CRect × CPoint)) (s : CGDrawContext)
    (h : s.cgContext = none ∨ s.getCurrentState.clipRect.isEmpty = true) :
    tiles.foldl (fun (self : CGDrawContext) tile => self.drawBitmap bitmap tile.1 tile.2 alpha) s
      = s := by
  induction tiles with
  | nil => rfl
  | cons t ts ih =>
    simp only [List.foldl_cons, drawBitmap_unusable s h]
    exact ih

theorem draw_unusable (s : CGDrawContext) (ext : External) (op : DrawOp)
    (h : s.cgContext = none ∨ s.getCurrentState.clipRect.isEmpty = true) :
    s.draw ext op = s ∨
      ∃ srcRect dstRect alpha,
        s.draw ext op = s.call (.CDrawContext_fillRectWithBitmap srcRect dstRect alpha) := by
  have hb := beginCGContext_unusable s h
  cases op with
  | drawLine line => left; simp [draw, drawLine, hb]
  | drawLines lines => left; simp [draw, drawLines, hb]
  | drawPolygon pts st => left; simp [draw, drawPolygon, hb]
  | drawRect r st => left; simp [draw, drawRect, hb]
  | drawEllipse r st => left; simp [draw, drawEllipse, hb]
  | drawArc r a b st => left; simp [draw, drawArc, hb]
  | clearRect r => left; simp [draw, clearRect, hb]
  | drawBitmap b r o a => left; exact drawBitmap_unusable s h _ _ _ _
  | fillRectWithBitmap b r1 r2 a =>
    simp only [draw, fillRectWithBitmap, hb]
    split
    · left; rfl
    split
    · left; rfl
    split
    · right
      refine ⟨r1, r2, a, ?_⟩
      apply foldl_drawBitmap_unusable
      rcases h with h | h
      · left; simp [CGDrawContext.call, h]
      · right; exact h
    left
    repeat' split
    all_goals first | rfl | simp_all
  | drawGraphicsPath p m t =>
    left
    simp only [draw, drawGraphicsPath, hb]
    repeat' split
    all_goals first | rfl | simp_all
  | fillLinearGradient p g a b e t =>
    left
    simp only [draw, fillLinearGradient, hb]
    repeat' split
    all_goals first | rfl | simp_all
  | fillRadialGradient p g c r o e t =>
    left
    simp only [draw, fillRadialGradient, hb]
    repeat' split
    all_goals first | rfl | simp_all

end CGDrawContext

/-- C2: when the native context handle is null or the current clip rectangle is empty,
`beginCGContext` returns null and leaves the object as it is, and no drawing operation
issues a native call: the only call that can be logged is the hand-over of
`fillRectWithBitmap` to its base class, and every member other than the log is
unchanged. -/
theorem draw_noop_without_context (self : CGDrawContext) (ext : External)
    (op : CGDrawContext.DrawOp)
    (h : self.cgContext = none ∨ self.getCurrentState.clipRect.isEmpty = true) :
    (∀ swapYAxis integralOffset : Bool,
      self.beginCGContext swapYAxis integralOffset = (false, self)) ∧
    (∃ calls : List Call, (self.draw ext op).log = self.log ++ calls ∧
      ∀ c ∈ calls, c.isNative = false) ∧
    { self.draw ext op with log := self.log } = self := by
  refine ⟨CGDrawContext.beginCGContext_unusable self h, ?_⟩
  rcases CGDrawContext.draw_unusable self ext op h with h1 | ⟨r1, r2, a, h1⟩
  · rw [h1]
    exact ⟨⟨[], by simp, by simp⟩, rfl⟩
  · rw [h1]
    refine ⟨⟨[_], rfl, by simp [Call.isNative]⟩, ?_⟩
    clear h h1
    cases self with
    | mk cg sf cnt bm st stack tr layers log =>
      cases cg <;> simp [CGDrawContext.call, CGContext.perform]

/-- Witness of C2: `drawRect` on a context whose native handle is null. -/
theorem draw_noop_without_context_witness :
    (sampleNullContext.cgContext = none ∨
      sampleNullContext.getCurrentState.clipRect.isEmpty = true) ∧
    { sampleNullContext.draw sampleExternal (.drawRect ⟨0, 0, 10, 10⟩ kDrawStroked) with
      log := sampleNullContext.log } = sampleNullContext :=
  ⟨Or.inl rfl,
    (draw_noop_without_context sampleNullContext sampleExternal
      (.drawRect ⟨0, 0, 10, 10⟩ kDrawStroked) (Or.inl rfl)).2.2⟩

/-- C3: `drawGraphicsPath`, `fillLinearGradient` and `fillRadialGradient` return the object
unchanged, so without any call, when the path pointer is null, the path has no platform
path or the platform path is not a `CGGraphicsPath`; the two gradient fills also do so
when the gradient has no platform gradient or one that is not a `QuartzGradient`. -/
theorem path_operations_noop (self : CGDrawContext) (path : Option CGraphicsPath)
    (gradient : CGradient) (mode : PathDrawMode) (t : Option CGraphicsTransform)
    (startPoint endPoint center originOffset : CPoint) (radius : CCoord) (evenOdd : Bool) :
    ((path = none ∨ ∃ p, path = some p ∧
        (p.platformPath = none ∨ p.platformPath = some .foreign)) →
      self.drawGraphicsPath path mode t = self ∧
      self.fillLinearGradient path gradient startPoint endPoint evenOdd t = self ∧
      self.fillRadialGradient path gradient center radius originOffset evenOdd t = self) ∧
    ((gradient.platformGradient = none ∨ gradient.platformGradient = some .foreign) →
      self.fillLinearGradient path gradient startPoint endPoint evenOdd t = self ∧
      self.fillRadialGradient path gradient center radius originOffset evenOdd t = self) := by
  constructor
  · rintro (h | ⟨p, h, h' | h'⟩)
    · subst h
      exact ⟨rfl, rfl, rfl⟩
    · subst h
      refine ⟨?_, ?_, ?_⟩
      · simp [CGDrawContext.drawGraphicsPath, h']
      · simp only [CGDrawContext.fillLinearGradient, h']
        split <;> rfl
      · simp only [CGDrawContext.fillRadialGradient, h']
        split <;> rfl
    · subst h
      refine ⟨?_, ?_, ?_⟩
      · simp [CGDrawContext.drawGraphicsPath, h', PlatformGraphicsPath.cast_CGGraphicsPath]
      · simp only [CGDrawContext.fillLinearGradient, h',
          PlatformGraphicsPath.cast_CGGraphicsPath]
        split <;> rfl
      · simp only [CGDrawContext.fillRadialGradient, h',
          PlatformGraphicsPath.cast_CGGraphicsPath]
        split <;> rfl
  · intro h
    have hg : gradient.platformGradient.bind PlatformGradient.cast_QuartzGradient = none := by
      rcases h with h | h <;> simp [h, PlatformGradient.cast_QuartzGradient]
    constructor
    · simp only [CGDrawContext.fillLinearGradient, hg]
      split <;> rfl
    · simp only [CGDrawContext.fillRadialGradient, hg]
      split <;> rfl

/-- Witness of C3: a null path pointer and a gradient of a foreign class. -/
theorem path_operations_noop_witness :
    sampleContext.drawGraphicsPath none .kPathStroked none = sampleContext ∧
    sampleContext.fillLinearGradient (some ⟨some (.cgPath ⟨[⟨0, 0⟩, ⟨1, 1⟩]⟩)⟩)
      ⟨some .foreign⟩ ⟨0, 0⟩ ⟨1, 1⟩ false none = sampleContext :=
  ⟨((path_operations_noop sampleContext none ⟨none⟩ .kPathStroked none
      ⟨0, 0⟩ ⟨1, 1⟩ ⟨0, 0⟩ ⟨0, 0⟩ 1 false).1 (Or.inl rfl)).1,
    ((path_operations_noop sampleContext (some ⟨some (.cgPath ⟨[⟨0, 0⟩, ⟨1, 1⟩]⟩)⟩)
      ⟨some .foreign⟩ .kPathStroked none ⟨0, 0⟩ ⟨1, 1⟩ ⟨0, 0⟩ ⟨0, 0⟩ 1 false).2
        (Or.inr rfl)).1⟩

/-- C4: `drawBitmap` returns the object unchanged (no call, draw-count cache untouched) when
the bitmap pointer is null, alpha is zero, there is no platform bitmap for the scale factor,
the platform bitmap is not a `CGBitmap` or it has no `CGImage`; `fillRectWithBitmap` returns
the object unchanged when the bitmap is null, alpha is zero or the source or the
destination rectangle is empty. -/
theorem bitmap_operations_noop (self : CGDrawContext) (ext : External)
    (bitmap : Option CBitmap) (inRect srcRect dstRect : CRect) (inOffset : CPoint)
    (alpha : CGFloat) :
    ((bitmap = none ∨ alpha = 0 ∨ ∃ b, bitmap = some b ∧
        (b.bestPlatformBitmapForScaleFactor self.transformedScaleFactor = none ∨
          (∃ size, b.bestPlatformBitmapForScaleFactor self.transformedScaleFactor
            = some (.foreign size)) ∨
          ∃ cg, b.bestPlatformBitmapForScaleFactor self.transformedScaleFactor
            = some (.cgBitmap cg) ∧ cg.cgImage = none)) →
      self.drawBitmap bitmap inRect inOffset alpha = self) ∧
    ((bitmap = none ∨ alpha = 0 ∨ srcRect.isEmpty = true ∨ dstRect.isEmpty = true) →
      self.fillRectWithBitmap ext bitmap srcRect dstRect alpha = self) := by
  constructor
  · rintro (h | h | ⟨b, h, h' | ⟨size, h'⟩ | ⟨cg, h', h''⟩⟩)
    · subst h; rfl
    · subst h
      cases bitmap <;> simp [CGDrawContext.drawBitmap]
    · subst h
      simp only [CGDrawContext.drawBitmap, h']
      split <;> rfl
    · subst h
      simp only [CGDrawContext.drawBitmap, h', PlatformBitmap.cast_CGBitmap]
      split <;> rfl
    · subst h
      simp only [CGDrawContext.drawBitmap, h', PlatformBitmap.cast_CGBitmap, h'']
      split <;> rfl
  · rintro (h | h | h | h)
    · subst h; rfl
    · subst h
      cases bitmap <;> simp [CGDrawContext.fillRectWithBitmap]
    · cases bitmap <;> simp [CGDrawContext.fillRectWithBitmap, h]
    · cases bitmap <;> simp [CGDrawContext.fillRectWithBitmap, h]

/-- Witness of C4: a null bitmap pointer for `drawBitmap`, alpha zero for
`fillRectWithBitmap`. -/
theorem bitmap_operations_noop_witness :
    sampleContext.drawBitmap none ⟨0, 0, 10, 10⟩ ⟨0, 0⟩ 1 = sampleContext ∧
    sampleContext.fillRectWithBitmap sampleExternal none ⟨0, 0, 10, 10⟩ ⟨0, 0, 20, 20⟩ 0
      = sampleContext :=
  ⟨(bitmap_operations_noop sampleContext sampleExternal none ⟨0, 0, 10, 10⟩ ⟨0, 0, 10, 10⟩
      ⟨0, 0, 20, 20⟩ ⟨0, 0⟩ 1).1 (Or.inl rfl),
    (bitmap_operations_noop sampleContext sampleExternal none ⟨0, 0, 10, 10⟩ ⟨0, 0, 10, 10⟩
      ⟨0, 0, 20, 20⟩ ⟨0, 0⟩ 0).2 (Or.inr (Or.inl rfl))⟩

theorem concat_translate_cancel (m : CGAffineTransform) (a b : CGFloat) :
    CGAffineTransformConcat (CGAffineTransformMakeTranslation (-a) (-b))
      (CGAffineTransformConcat (CGAffineTransformMakeTranslation a b) m) = m := by
  cases m
  simp only [CGAffineTransformConcat, CGAffineTransformMakeTranslation,
    CGAffineTransform.mk.injEq]
  refine ⟨?_, ?_, ?_, ?_, ?_, ?_⟩ <;> ring

theorem replay_inert (cs : List Call) (h : ∀ c ∈ cs, c.inert) (k : CGContext) :
    replay cs k = k := by
  induction cs generalizing k with
  | nil => rfl
  | cons c cs ih =>
    have : replay (c :: cs) k = replay cs (k.perform c) := rfl
    rw [this, h c (List.mem_cons_self _ _)]
    exact ih (fun c hc => h c (List.mem_cons_of_mem _ hc)) k

theorem replay_translate_bracket (pre mid : List Call) (hp : ∀ c ∈ pre, c.inert)
    (hm : ∀ c ∈ mid, c.inert) (k : CGContext) :
    replay (pre ++ [Call.CGContextTranslateCTM (1 / 2) (1 / 2)] ++ mid ++
      [Call.CGContextTranslateCTM (-(1 / 2)) (-(1 / 2))]) k = k := by
  rw [replay_append, replay_append, replay_append, replay_inert pre hp]
  have h1 : replay [Call.CGContextTranslateCTM (1 / 2) (1 / 2)] k
      = k.perform (.CGContextTranslateCTM (1 / 2) (1 / 2)) := rfl
  rw [h1, replay_inert mid hm]
  cases k
  simp only [replay, List.foldl, CGContext.perform, concat_translate_cancel]

namespace Platform.CoreGraphicsDrawDevice

theorem Issues.dev_refl (s : CoreGraphicsDrawDevice) : s.Issues s [] := by
  constructor
  · simp
  · cases h : s.cgContext <;> simp [replay]

theorem Issues.dev_cons {s s' : CoreGraphicsDrawDevice} {c : Call} {cs : List Call}
    (h : (s.call c).Issues s' cs) : s.Issues s' (c :: cs) := by
  constructor
  · rw [h.1]; simp [call]
  · rw [h.2]
    cases hk : s.cgContext <;> simp [call, hk, replay]

theorem Issues.dev_trans {s s' s'' : CoreGraphicsDrawDevice} {a b : List Call}
    (h1 : s.Issues s' a) (h2 : s'.Issues s'' b) : s.Issues s'' (a ++ b) := by
  constructor
  · rw [h2.1, h1.1, List.append_assoc]
  · rw [h2.2, h1.2]
    cases h : s.cgContext <;> simp [replay_append]

theorem dev_call_inert (s : CoreGraphicsDrawDevice) (c : Call) (hc : c.inert) :
    (s.call c).cgContext = s.cgContext := by
  cases hk : s.cgContext with
  | none => simp [call, hk]
  | some k => simp [call, hk, hc k]

theorem pixelAlligned_CGPoint_congr {s s' : CoreGraphicsDrawDevice}
    (h : s.cgContext = s'.cgContext) (p : CGPoint) :
    s.pixelAlligned_CGPoint p = s'.pixelAlligned_CGPoint p := by
  simp only [pixelAlligned_CGPoint, h]

theorem pixelAlligned_CGRect_congr {s s' : CoreGraphicsDrawDevice}
    (h : s.cgContext = s'.cgContext) (r : CGRect) :
    s.pixelAlligned_CGRect r = s'.pixelAlligned_CGRect r := by
  simp only [pixelAlligned_CGRect, h]

theorem strokeLoop_spec (numPoints : Nat) :
    ∀ (pointPtr : List CGPoint) (s : CoreGraphicsDrawDevice),
      ∃ strokes : List Call,
        s.Issues (s.strokeLoop pointPtr numPoints) strokes ∧
        (∀ c ∈ strokes, ∃ i np,
          c = .CGContextStrokeLineSegments ((pointPtr.drop i).take np) np) := by
  induction numPoints using Nat.strong_induction_on with
  | _ n ih =>
    intro pointPtr s
    unfold strokeLoop
    split
    · exact ⟨[], Issues.dev_refl s, by simp⟩
    · rename_i hn
      simp only []
      obtain ⟨rest, h1, h2⟩ := ih (n - min n (min 16 n)) (by omega)
        (pointPtr.drop (min n (min 16 n)))
        (s.call (.CGContextStrokeLineSegments (pointPtr.take (min n (min 16 n)))
          (min n (min 16 n))))
      refine ⟨Call.CGContextStrokeLineSegments (pointPtr.take (min n (min 16 n)))
        (min n (min 16 n)) :: rest, Issues.dev_cons h1, ?_⟩
      intro c hc
      rcases List.mem_cons.mp hc with hc | hc
      · exact ⟨0, _, by simpa using hc⟩
      · obtain ⟨i, np, hi⟩ := h2 c hc
        exact ⟨min n (min 16 n) + i, np, by rw [hi, List.drop_drop]⟩

/-- The calls of `drawLine`, with the points aligned for the device state at entry. -/
theorem drawLine_issues (dev : CoreGraphicsDrawDevice) (line : LinePair) :
    dev.Issues (dev.drawLine line)
      ([Call.CGContextBeginPath] ++
        (if (decide (dev.pixelAlignmentMode = PixelAlignmentMode.On) && dev.needLineWidthCTM)
          then [Call.CGContextTranslateCTM (1 / 2) (1 / 2)] else []) ++
        [Call.CGContextMoveToPoint
            (if dev.pixelAlignmentMode = PixelAlignmentMode.On
              then dev.pixelAlligned_CGPoint (CGPointFromCPoint line.first)
              else CGPointFromCPoint line.first).x
            (if dev.pixelAlignmentMode = PixelAlignmentMode.On
              then dev.pixelAlligned_CGPoint (CGPointFromCPoint line.first)
              else CGPointFromCPoint line.first).y,
          Call.CGContextAddLineToPoint
            (if dev.pixelAlignmentMode = PixelAlignmentMode.On
              then dev.pixelAlligned_CGPoint (CGPointFromCPoint line.second)
              else CGPointFromCPoint line.second).x
            (if dev.pixelAlignmentMode = PixelAlignmentMode.On
              then dev.pixelAlligned_CGPoint (CGPointFromCPoint line.second)
              else CGPointFromCPoint line.second).y,
          Call.CGContextDrawPath .kCGPathStroke] ++
        (if (decide (dev.pixelAlignmentMode = PixelAlignmentMode.On) && dev.needLineWidthCTM)
          then [Call.CGContextTranslateCTM (-(1 / 2)) (-(1 / 2))] else [])) := by
  have e : ∀ p, (dev.call .CGContextBeginPath).pixelAlligned_CGPoint p
      = dev.pixelAlligned_CGPoint p :=
    pixelAlligned_CGPoint_congr (dev_call_inert dev _ (fun _ => rfl))
  have em : (dev.call .CGContextBeginPath).pixelAlignmentMode = dev.pixelAlignmentMode := rfl
  unfold drawLine
  simp only [e, em]
  cases hm : dev.pixelAlignmentMode <;> cases hn : dev.needLineWidthCTM <;>
    simp only [applyLineWidthCTM, restoreLineWidthCTM, decide_True, decide_False,
      Bool.and_true, Bool.and_false, Bool.false_and, Bool.true_and, if_true, if_false,
      Bool.false_eq_true, List.append_nil, List.nil_append, List.cons_append,
      List.singleton_append, reduceCtorEq] <;>
    repeat (first | exact Issues.dev_refl _ | refine Issues.dev_cons ?_)

end Platform.CoreGraphicsDrawDevice

theorem map_replay_id (o : Option CGContext) (cs : List Call)
    (h : ∀ k : CGContext, replay cs k = k) : o.map (replay cs) = o := by
  cases o <;> simp [h]

theorem replay_flag_bracket (flag : Prop) [Decidable flag] (pre mid : List Call)
    (hp : ∀ c ∈ pre, c.inert) (hm : ∀ c ∈ mid, c.inert) (k : CGContext) :
    replay (pre ++ (if flag then [Call.CGContextTranslateCTM (1 / 2) (1 / 2)] else []) ++ mid ++
      (if flag then [Call.CGContextTranslateCTM (-(1 / 2)) (-(1 / 2))] else [])) k = k := by
  by_cases h : flag
  · simp only [h, if_true]
    exact replay_translate_bracket pre mid hp hm k
  · simp only [h, if_false, List.append_nil]
    apply replay_inert
    intro c hc
    rcases List.mem_append.mp hc with hc | hc
    · exact hp c hc
    · exact hm c hc

namespace Platform.CoreGraphicsDrawDevice

theorem drawLines_issues (dev : CoreGraphicsDrawDevice) (lines : LineList) :
    ∃ strokes : List Call,
      dev.Issues (dev.drawLines lines)
        ((if (decide (dev.pixelAlignmentMode = PixelAlignmentMode.On) && dev.needLineWidthCTM)
            then [Call.CGContextTranslateCTM (1 / 2) (1 / 2)] else []) ++ strokes ++
          (if (decide (dev.pixelAlignmentMode = PixelAlignmentMode.On) && dev.needLineWidthCTM)
            then [Call.CGContextTranslateCTM (-(1 / 2)) (-(1 / 2))] else [])) ∧
      ∀ c ∈ strokes, ∃ i np, c = Call.CGContextStrokeLineSegments
        (((fillPoints (fun p => if dev.pixelAlignmentMode = PixelAlignmentMode.On
            then dev.pixelAlligned_CGPoint p else p) lines).drop i).take np) np := by
  unfold drawLines
  simp only []
  by_cases hf : (decide (dev.pixelAlignmentMode = PixelAlignmentMode.On) &&
      dev.needLineWidthCTM) = true
  · have hm : dev.pixelAlignmentMode = PixelAlignmentMode.On := by
      simp only [Bool.and_eq_true, decide_eq_true_eq] at hf
      exact hf.1
    have hn : dev.needLineWidthCTM = true := by
      simp only [Bool.and_eq_true, decide_eq_true_eq] at hf
      exact hf.2
    simp only [hm, hn, decide_True, Bool.and_true, if_true, applyLineWidthCTM,
      restoreLineWidthCTM]
    obtain ⟨strokes, h1, h2⟩ := strokeLoop_spec (lines.length * 2)
      (fillPoints (fun p => dev.pixelAlligned_CGPoint p) lines)
      (dev.call (.CGContextTranslateCTM (1 / 2) (1 / 2)))
    refine ⟨strokes, ?_, h2⟩
    have h3 : (dev.call (.CGContextTranslateCTM (1 / 2) (1 / 2))).Issues _
        (strokes ++ [Call.CGContextTranslateCTM (-(1 / 2)) (-(1 / 2))]) :=
      Issues.dev_trans h1 (Issues.dev_cons (Issues.dev_refl _))
    simpa using Issues.dev_cons h3
  · have hf' : (decide (dev.pixelAlignmentMode = PixelAlignmentMode.On) &&
        dev.needLineWidthCTM) = false := by simpa using hf
    simp only [hf', Bool.false_eq_true, if_false, List.nil_append, List.append_nil]
    obtain ⟨strokes, h1, h2⟩ := strokeLoop_spec (lines.length * 2)
      (if dev.pixelAlignmentMode = PixelAlignmentMode.On
        then fillPoints (fun p => dev.pixelAlligned_CGPoint p) lines
        else fillPoints (fun p => p) lines) dev
    refine ⟨strokes, h1, ?_⟩
    intro c hc
    obtain ⟨i, np, hi⟩ := h2 c hc
    refine ⟨i, np, ?_⟩
    rw [hi]
    by_cases hm : dev.pixelAlignmentMode = PixelAlignmentMode.On
    · simp only [hm, if_true]
    · simp only [hm, if_false]

theorem drawRect_issues (dev : CoreGraphicsDrawDevice) (rect : CRect) (drawStyle : DrawStyle) :
    dev.Issues (dev.drawRect rect drawStyle)
      ((if (decide (dev.pixelAlignmentMode = PixelAlignmentMode.On) &&
            decide (drawStyle ≠ DrawStyle.Filled) && dev.needLineWidthCTM)
          then [Call.CGContextTranslateCTM (1 / 2) (1 / 2)] else []) ++
        [Call.CGContextBeginPath,
          Call.CGContextAddRect
            (if dev.pixelAlignmentMode = PixelAlignmentMode.On
              then dev.pixelAlligned_CGRect
                (if drawStyle ≠ DrawStyle.Filled
                  then ⟨(CGRectFromCRect rect).origin,
                    ⟨(CGRectFromCRect rect).size.width - 1,
                      (CGRectFromCRect rect).size.height - 1⟩⟩
                  else CGRectFromCRect rect)
              else (if drawStyle ≠ DrawStyle.Filled
                  then ⟨(CGRectFromCRect rect).origin,
                    ⟨(CGRectFromCRect rect).size.width - 1,
                      (CGRectFromCRect rect).size.height - 1⟩⟩
                  else CGRectFromCRect rect)),
          Call.CGContextDrawPath (drawStyleToCGPathDrawingMode drawStyle)] ++
        (if (decide (dev.pixelAlignmentMode = PixelAlignmentMode.On) &&
            decide (drawStyle ≠ DrawStyle.Filled) && dev.needLineWidthCTM)
          then [Call.CGContextTranslateCTM (-(1 / 2)) (-(1 / 2))] else [])) := by
  unfold drawRect
  simp only []
  cases hm : dev.pixelAlignmentMode <;> cases hn : dev.needLineWidthCTM <;>
    by_cases hs : drawStyle = DrawStyle.Filled <;>
    simp only [hs, applyLineWidthCTM, restoreLineWidthCTM, decide_True, decide_False,
      Bool.and_true, Bool.and_false, Bool.false_and, Bool.true_and, if_true, if_false,
      Bool.false_eq_true, List.append_nil, List.nil_append, List.cons_append,
      List.singleton_append, reduceCtorEq, ne_eq, not_true_eq_false, not_false_eq_true] <;>
    repeat (first | exact Issues.dev_refl _ | refine Issues.dev_cons ?_)

theorem drawLine_cgContext (dev : CoreGraphicsDrawDevice) (line : LinePair) :
    (dev.drawLine line).cgContext = dev.cgContext := by
  rw [(drawLine_issues dev line).2]
  apply map_replay_id
  intro k
  apply replay_flag_bracket
  · intro c hc
    simp only [List.mem_singleton] at hc
    subst hc
    exact fun _ => rfl
  · intro c hc
    simp only [List.mem_cons, List.mem_singleton, List.not_mem_nil, or_false] at hc
    rcases hc with hc | hc | hc <;> subst hc <;> exact fun _ => rfl

theorem drawRect_cgContext (dev : CoreGraphicsDrawDevice) (rect : CRect)
    (drawStyle : DrawStyle) : (dev.drawRect rect drawStyle).cgContext = dev.cgContext := by
  rw [(drawRect_issues dev rect drawStyle).2]
  apply map_replay_id
  intro k
  apply replay_flag_bracket _ []
  · simp
  · intro c hc
    simp only [List.mem_cons, List.mem_singleton, List.not_mem_nil, or_false] at hc
    rcases hc with hc | hc | hc <;> subst hc <;> exact fun _ => rfl

theorem drawLines_cgContext (dev : CoreGraphicsDrawDevice) (lines : LineList) :
    (dev.drawLines lines).cgContext = dev.cgContext := by
  obtain ⟨strokes, h1, h2⟩ := drawLines_issues dev lines
  rw [h1.2]
  apply map_replay_id
  intro k
  have hin : ∀ c ∈ strokes, c.inert := by
    intro c hc
    obtain ⟨i, np, hi⟩ := h2 c hc
    subst hi
    exact fun _ => rfl
  exact replay_flag_bracket _ [] strokes (by simp) hin k

end Platform.CoreGraphicsDrawDevice

namespace Platform.CoreGraphicsDrawDevice

theorem foldl_cgContext {α : Type} (f : CoreGraphicsDrawDevice → α → CoreGraphicsDrawDevice)
    (hf : ∀ (x : CoreGraphicsDrawDevice) (a : α), (f x a).cgContext = x.cgContext)
    (l : List α) (s : CoreGraphicsDrawDevice) : (l.foldl f s).cgContext = s.cgContext := by
  induction l generalizing s with
  | nil => rfl
  | cons a l ih =>
    simp only [List.foldl_cons]
    rw [ih, hf]

theorem drawPolygon_cgContext (dev : CoreGraphicsDrawDevice) (pts : PointList)
    (drawStyle : DrawStyle) : (dev.drawPolygon pts drawStyle).cgContext = dev.cgContext := by
  unfold drawPolygon
  simp only []
  refine (dev_call_inert _ _ ?_).trans ?_
  · exact fun _ => rfl
  refine (foldl_cgContext _ ?_ _ _).trans ?_
  · intro x a
    refine dev_call_inert _ _ ?_
    exact fun _ => rfl
  refine (dev_call_inert _ _ ?_).trans ?_
  · exact fun _ => rfl
  refine dev_call_inert _ _ ?_
  exact fun _ => rfl

theorem clearRect_cgContext (dev : CoreGraphicsDrawDevice) (rect : CRect) :
    (dev.clearRect rect).cgContext = dev.cgContext :=
  dev_call_inert _ _ (fun _ => rfl)

theorem draw_cgContext (dev : CoreGraphicsDrawDevice) (op : DrawOp) :
    (dev.draw op).cgContext = dev.cgContext := by
  cases op with
  | drawLine line => exact drawLine_cgContext _ _
  | drawLines lines => exact drawLines_cgContext _ _
  | drawPolygon pts st => exact drawPolygon_cgContext _ _ _
  | drawRect r st => exact drawRect_cgContext _ _ _
  | clearRect r => exact clearRect_cgContext _ _

theorem dev_init_issues (s : CoreGraphicsDrawDevice) : s.Issues s.init initCalls := by
  unfold init initCalls saveGlobalState
  repeat (first | exact Issues.dev_refl _ | refine Issues.dev_cons ?_)

theorem dev_destruct_log (s : CoreGraphicsDrawDevice) :
    s.destruct.log = s.log ++ (destructCalls ++ [Call.CGContextRelease]) := by
  simp [destruct, restoreGlobalState, call, destructCalls]

theorem dev_destruct_cgContext (s : CoreGraphicsDrawDevice) (c a b : CGAffineTransform)
    (rest : List CGAffineTransform) (h : s.cgContext = some ⟨c, a :: b :: rest⟩) :
    s.destruct.cgContext = some ⟨b, rest⟩ := by
  simp [destruct, restoreGlobalState, call, h, CGContext.perform]

end Platform.CoreGraphicsDrawDevice

namespace CGDrawContext

theorem foldl_draw_cgContext (ext : External) (ops : List DrawOp) (s : CGDrawContext) :
    (ops.foldl (fun s op => s.draw ext op) s).cgContext = s.cgContext := by
  induction ops generalizing s with
  | nil => rfl
  | cons a l ih =>
    simp only [List.foldl_cons]
    rw [ih]
    obtain ⟨_, _, _, hc⟩ := draw_neutral s ext a
    exact hc

theorem Issues.issues_cons {s s' : CGDrawContext} {c : Call} {cs : List Call}
    (h : (s.call c).Issues s' cs) : s.Issues s' (c :: cs) := by
  simpa using (Issues.issues_call s c).issues_trans h

theorem init_issues (s : CGDrawContext) : s.Issues s.init initCalls := by
  unfold init initCalls
  repeat (first | exact Issues.issues_refl _ | refine Issues.issues_cons ?_)

theorem destruct_log (s : CGDrawContext) :
    s.destruct.log = s.log ++ (destructCalls ++ [Call.CFRelease]) := by
  simp [destruct, CGDrawContext.call, destructCalls]

theorem destruct_cgContext (s : CGDrawContext) (c a b : CGAffineTransform)
    (rest : List CGAffineTransform) (h : s.cgContext = some ⟨c, a :: b :: rest⟩) :
    s.destruct.cgContext = some ⟨b, rest⟩ := by
  simp [destruct, CGDrawContext.call, h, CGContext.perform]

theorem call_inert (s : CGDrawContext) (c : Call) (hc : c.inert) :
    (s.call c).cgContext = s.cgContext := by
  cases hk : s.cgContext with
  | none => simp [CGDrawContext.call, hk]
  | some k => simp [CGDrawContext.call, hk, hc k]

theorem init_cgContext (s : CGDrawContext) (k : CGContext) (h : s.cgContext = some k) :
    s.init.cgContext = some ⟨k.ctm, k.ctm :: k.ctm :: k.gstack⟩ := by
  rw [(init_issues s).2, h]
  rfl

end CGDrawContext

theorem Platform.CoreGraphicsDrawDevice.dev_init_cgContext (s : CoreGraphicsDrawDevice)
    (k : CGContext) (h : s.cgContext = some k) :
    s.init.cgContext = some ⟨k.ctm, k.ctm :: k.ctm :: k.gstack⟩ := by
  rw [(CoreGraphicsDrawDevice.dev_init_issues s).2, h]
  rfl

/-- C6: `init` of either class issues its fixed list of calls, with exactly two
`CGContextSaveGState` and no restore; each `CGDrawContext` constructor runs `init` once;
either destructor issues exactly two `CGContextRestoreGState`; and with drawing operations
in between, the stack of saved graphics states at the end of the destructor is the stack the
native context had at construction (for `CoreGraphicsDrawDevice`: when `init` was called
once after construction). -/
theorem lifetime_save_restore_balanced (k : CGContext) (state : CDrawContextState)
    (transform : CGraphicsTransform) (ext : External) (ops : List CGDrawContext.DrawOp)
    (_bitmap : CGBitmap) (lineWidth : CCoord) (mode : PixelAlignmentMode)
    (quality : BitmapInterpolationQuality) (devOps : List CoreGraphicsDrawDevice.DrawOp) :
    (∀ s : CGDrawContext, s.init.log = s.log ++ CGDrawContext.initCalls) ∧
    CGDrawContext.initCalls.countP Call.isSave = 2 ∧
    CGDrawContext.initCalls.countP Call.isRestore = 0 ∧
    (∀ s : CGDrawContext, s.destruct.log = s.log ++ (destructCalls ++ [Call.CFRelease])) ∧
    destructCalls.countP Call.isRestore = 2 ∧
    destructCalls.countP Call.isSave = 0 ∧
    (CGDrawContext.construct (some k) state transform).log
      = [Call.CFRetain] ++ CGDrawContext.initCalls ∧
    (CGDrawContext.construct_CGBitmap _bitmap (some k) state transform).log
      = (if _bitmap.scaleFactor ≠ 1 then [Call.CGContextConcatCTM
          (CGAffineTransformMakeScale _bitmap.scaleFactor _bitmap.scaleFactor)] else []) ++
        CGDrawContext.initCalls ++ [Call.CBitmap_forget] ∧
    ((ops.foldl (fun s op => s.draw ext op)
      (CGDrawContext.construct (some k) state transform)).destruct).cgContext = some k ∧
    ((ops.foldl (fun s op => s.draw ext op)
      (CGDrawContext.construct_CGBitmap _bitmap (some k) state transform)).destruct).cgContext.map
        (fun k => k.gstack) = some k.gstack ∧
    (∀ d : CoreGraphicsDrawDevice, d.init.log = d.log ++ CoreGraphicsDrawDevice.initCalls) ∧
    CoreGraphicsDrawDevice.initCalls.countP Call.isSave = 2 ∧
    CoreGraphicsDrawDevice.initCalls.countP Call.isRestore = 0 ∧
    (∀ d : CoreGraphicsDrawDevice,
      d.destruct.log = d.log ++ (destructCalls ++ [Call.CGContextRelease])) ∧
    ((devOps.foldl (fun d op => d.draw op)
      (CoreGraphicsDrawDevice.construct (some k) lineWidth mode quality).init).destruct).cgContext
        = some k := by
  refine ⟨fun s => (CGDrawContext.init_issues s).1, rfl, rfl, CGDrawContext.destruct_log,
    rfl, rfl, ?_, ?_, ?_, ?_, fun d => (CoreGraphicsDrawDevice.dev_init_issues d).1, rfl, rfl,
    CoreGraphicsDrawDevice.dev_destruct_log, ?_⟩
  · simp only [CGDrawContext.construct]
    rw [(CGDrawContext.init_issues _).1]
    simp [CGDrawContext.call]
  · simp only [CGDrawContext.construct_CGBitmap]
    simp only [CGDrawContext.call]
    rw [(CGDrawContext.init_issues _).1]
    split <;> simp
  · apply (CGDrawContext.destruct_cgContext _ k.ctm k.ctm k.ctm k.gstack ?_).trans
    · rfl
    rw [CGDrawContext.foldl_draw_cgContext]
    simp only [CGDrawContext.construct]
    exact CGDrawContext.init_cgContext _ k rfl
  · have hpre : ∃ k' : CGContext, k'.gstack = k.gstack ∧
        (CGDrawContext.construct_CGBitmap _bitmap (some k) state transform).cgContext
          = some ⟨k'.ctm, k'.ctm :: k'.ctm :: k'.gstack⟩ := by
      simp only [CGDrawContext.construct_CGBitmap]
      split
      · refine ⟨k.perform (.CGContextConcatCTM
          (CGAffineTransformMakeScale _bitmap.scaleFactor _bitmap.scaleFactor)), rfl, ?_⟩
        refine (CGDrawContext.call_inert _ .CBitmap_forget (fun _ => rfl)).trans ?_
        exact CGDrawContext.init_cgContext _ _ rfl
      · refine ⟨k, rfl, ?_⟩
        refine (CGDrawContext.call_inert _ .CBitmap_forget (fun _ => rfl)).trans ?_
        exact CGDrawContext.init_cgContext _ _ rfl
    obtain ⟨k', hk', hc⟩ := hpre
    rw [CGDrawContext.destruct_cgContext _ k'.ctm k'.ctm k'.ctm k'.gstack
      (by rw [CGDrawContext.foldl_draw_cgContext]; exact hc)]
    simp [hk']
  · apply (CoreGraphicsDrawDevice.dev_destruct_cgContext _ k.ctm k.ctm k.ctm k.gstack ?_).trans
    · rfl
    rw [CoreGraphicsDrawDevice.foldl_cgContext _
      (fun x a => CoreGraphicsDrawDevice.draw_cgContext x a)]
    exact CoreGraphicsDrawDevice.dev_init_cgContext _ k rfl

namespace CGDrawContext

theorem saveGlobalState_issues (s : CGDrawContext) :
    s.Issues s.saveGlobalState [.CGContextSaveGState, .CDrawContext_saveGlobalState] := by
  unfold saveGlobalState CDrawContext_saveGlobalState
  exact Issues.issues_cons (Issues.issues_cons (Issues.issues_of_eq rfl rfl))

theorem restoreGlobalState_issues (s : CGDrawContext) :
    s.Issues s.restoreGlobalState
      [.CDrawContext_restoreGlobalState, .CGContextRestoreGState] := by
  unfold restoreGlobalState CDrawContext_restoreGlobalState
  refine Issues.issues_cons ?_
  simp only []
  split
  · exact Issues.issues_cons (Issues.issues_refl _)
  · have h := Issues.issues_call
      ({ s.call .CDrawContext_restoreGlobalState with
        currentState := ‹CDrawContextState›
        globalStatesStack := ‹List CDrawContextState› })
      .CGContextRestoreGState
    exact (Issues.issues_of_eq rfl rfl).issues_trans h

theorem runGlobalStates_issues (seq : List Bool) :
    ∀ s : CGDrawContext, s.Issues (s.runGlobalStates seq) (globalStateCalls seq) := by
  induction seq with
  | nil => intro s; exact Issues.issues_refl s
  | cons b seq ih =>
    intro s
    cases b with
    | true =>
      have := (saveGlobalState_issues s).issues_trans (ih s.saveGlobalState)
      simpa [runGlobalStates, globalStateCalls] using this
    | false =>
      have := (restoreGlobalState_issues s).issues_trans (ih s.restoreGlobalState)
      simpa [runGlobalStates, globalStateCalls] using this

end CGDrawContext

theorem globalStateCalls_nestDepth (seq : List Bool) :
    ∀ d : Nat, (∀ n, (seq.take n).count false ≤ d + (seq.take n).count true) →
      nestDepth (globalStateCalls seq) d = some (d + seq.count true - seq.count false) := by
  induction seq with
  | nil => intro d _; simp [globalStateCalls, nestDepth]
  | cons b seq ih =>
    intro d h
    cases b with
    | true =>
      have h' : ∀ n, (seq.take n).count false ≤ (d + 1) + (seq.take n).count true := by
        intro n
        have := h (n + 1)
        simp only [List.take_succ_cons, List.count_cons] at this
        simp at this
        omega
      have := ih (d + 1) h'
      simp only [globalStateCalls, nestDepth, Call.isSave, Call.isRestore, if_true]
      simp only [Bool.false_eq_true, if_false]
      rw [this]
      simp only [List.count_cons]
      simp
      omega
    | false =>
      have h0 := h 1
      simp at h0
      obtain ⟨d', rfl⟩ : ∃ d', d = d' + 1 := ⟨d - 1, by omega⟩
      have h' : ∀ n, (seq.take n).count false ≤ d' + (seq.take n).count true := by
        intro n
        have := h (n + 1)
        simp only [List.take_succ_cons, List.count_cons] at this
        simp at this
        omega
      have := ih d' h'
      simp only [globalStateCalls, nestDepth, Call.isSave, Call.isRestore, if_true]
      simp only [Bool.false_eq_true, if_false]
      rw [this]
      simp only [List.count_cons]
      simp
      omega

/-- C7: `saveGlobalState` issues `CGContextSaveGState` and then the base-class save,
`restoreGlobalState` issues the base-class restore and then `CGContextRestoreGState`; the
save pushes exactly one native state and the restore pops exactly one; a save followed by
a restore leaves the native context and the toolkit state as they were; and after a
sequence of saves and restores with equally many of each, in which no prefix has more
restores than saves, the stack of saved native states (hence its depth) is the initial
one. -/
theorem globalState_save_restore_mirror (self : CGDrawContext) (seq : List Bool)
    (hpre : ∀ n, (seq.take n).count false ≤ (seq.take n).count true)
    (hbalanced : seq.count true = seq.count false) :
    self.saveGlobalState.log
      = self.log ++ [Call.CGContextSaveGState, Call.CDrawContext_saveGlobalState] ∧
    self.restoreGlobalState.log
      = self.log ++ [Call.CDrawContext_restoreGlobalState, Call.CGContextRestoreGState] ∧
    (∀ k : CGContext, self.cgContext = some k →
      self.saveGlobalState.cgContext = some ⟨k.ctm, k.ctm :: k.gstack⟩) ∧
    (∀ (c t : CGAffineTransform) (rest : List CGAffineTransform),
      self.cgContext = some ⟨c, t :: rest⟩ →
      self.restoreGlobalState.cgContext = some ⟨t, rest⟩) ∧
    self.saveGlobalState.restoreGlobalState.cgContext = self.cgContext ∧
    self.saveGlobalState.restoreGlobalState.currentState = self.currentState ∧
    self.saveGlobalState.restoreGlobalState.globalStatesStack = self.globalStatesStack ∧
    (self.runGlobalStates seq).cgContext.map (fun k => k.gstack)
      = self.cgContext.map (fun k => k.gstack) ∧
    (self.runGlobalStates seq).cgContext.map (fun k => k.gstack.length)
      = self.cgContext.map (fun k => k.gstack.length) := by
  have hw : WellNested (globalStateCalls seq) := by
    have := globalStateCalls_nestDepth seq 0 (by intro n; simpa using hpre n)
    unfold WellNested
    rw [this, hbalanced]
    simp
  have hg : (self.runGlobalStates seq).cgContext.map (fun k => k.gstack)
      = self.cgContext.map (fun k => k.gstack) := by
    rw [(CGDrawContext.runGlobalStates_issues seq self).2]
    cases hk : self.cgContext with
    | none => rfl
    | some k => simp [replay_wellNested_gstack _ k hw]
  refine ⟨(CGDrawContext.saveGlobalState_issues self).1,
    (CGDrawContext.restoreGlobalState_issues self).1, ?_, ?_, ?_, ?_, ?_, hg, ?_⟩
  · intro k hk
    rw [(CGDrawContext.saveGlobalState_issues self).2, hk]
    rfl
  · intro c t rest hk
    rw [(CGDrawContext.restoreGlobalState_issues self).2, hk]
    rfl
  · rw [(CGDrawContext.restoreGlobalState_issues _).2,
      (CGDrawContext.saveGlobalState_issues self).2]
    cases hk : self.cgContext with
    | none => rfl
    | some k => rfl
  · simp [CGDrawContext.saveGlobalState, CGDrawContext.restoreGlobalState,
      CGDrawContext.CDrawContext_saveGlobalState, CGDrawContext.CDrawContext_restoreGlobalState,
      CGDrawContext.call]
  · simp [CGDrawContext.saveGlobalState, CGDrawContext.restoreGlobalState,
      CGDrawContext.CDrawContext_saveGlobalState, CGDrawContext.CDrawContext_restoreGlobalState,
      CGDrawContext.call]
  · have := congrArg (Option.map List.length) hg
    simpa [Option.map_map, Function.comp] using this

/-- Witness of C7: two nested saves followed by two restores. -/
theorem globalState_save_restore_mirror_witness :
    (sampleContext.runGlobalStates [true, true, false, false]).cgContext.map
        (fun k => k.gstack.length)
      = sampleContext.cgContext.map (fun k => k.gstack.length) :=
  (globalState_save_restore_mirror sampleContext [true, true, false, false]
    (by
      intro n
      rcases n with _ | _ | _ | _ | _ | n <;> simp [List.take])
    (by decide)).2.2.2.2.2.2.2.2

namespace CGDrawContext

theorem SameMembers.same_refl (s : CGDrawContext) : s.SameMembers s :=
  ⟨rfl, rfl, rfl, rfl, rfl, rfl, rfl⟩

theorem SameMembers.same_trans {s s' s'' : CGDrawContext} (h1 : s.SameMembers s')
    (h2 : s'.SameMembers s'') : s.SameMembers s'' := by
  obtain ⟨a1, a2, a3, a4, a5, a6, a7⟩ := h1
  obtain ⟨b1, b2, b3, b4, b5, b6, b7⟩ := h2
  exact ⟨b1.trans a1, b2.trans a2, b3.trans a3, b4.trans a4, b5.trans a5, b6.trans a6,
    b7.trans a7⟩

theorem SameMembers.same_call {s s' : CGDrawContext} (h : s.SameMembers s') (c : Call) :
    s.SameMembers (s'.call c) := h

theorem Quiet.quiet_refl (s : CGDrawContext) : s.Quiet s :=
  ⟨[], Issues.issues_refl s, by simp⟩

theorem Quiet.quiet_trans {s s' s'' : CGDrawContext} (h1 : s.Quiet s') (h2 : s'.Quiet s'') :
    s.Quiet s'' := by
  obtain ⟨a, ha, qa⟩ := h1
  obtain ⟨b, hb, qb⟩ := h2
  refine ⟨a ++ b, ha.issues_trans hb, ?_⟩
  intro c hc
  rcases List.mem_append.mp hc with hc | hc
  · exact qa c hc
  · exact qb c hc

theorem Quiet.quiet_call {s s' : CGDrawContext} (h : s.Quiet s') (c : Call)
    (h1 : c.isCreateLayer = false) (h2 : c.isDrawLayer = false) (h3 : c.isDrawImage = false) :
    s.Quiet (s'.call c) :=
  h.quiet_trans ⟨[c], Issues.issues_call s' c, by
    intro x hx
    simp only [List.mem_singleton] at hx
    subst hx
    exact ⟨h1, h2, h3⟩⟩

theorem Quiet.quiet_of_eq {s s' : CGDrawContext} (hl : s'.log = s.log)
    (hc : s'.cgContext = s.cgContext) : s.Quiet s' :=
  ⟨[], Issues.issues_of_eq hl hc, by simp⟩

theorem setCGDrawContextQuality_quiet {s s' : CGDrawContext} (h : s.Quiet s') :
    s.Quiet s'.setCGDrawContextQuality := by
  unfold setCGDrawContextQuality
  simp only []
  repeat' (first | split | refine Quiet.quiet_call ?_ _ rfl rfl rfl | exact h)

theorem setCGDrawContextQuality_same {s s' : CGDrawContext} (h : s.SameMembers s') :
    s.SameMembers s'.setCGDrawContextQuality := by
  unfold setCGDrawContextQuality
  simp only []
  repeat' (first | split | refine SameMembers.same_call ?_ _ | exact h)

theorem beginCGContext_quiet (s : CGDrawContext) (a b : Bool) :
    s.Quiet (s.beginCGContext a b).2 := by
  unfold beginCGContext
  split
  · split
    · exact Quiet.quiet_refl _
    · simp only []
      repeat' (first | split | refine Quiet.quiet_call ?_ _ rfl rfl rfl | exact Quiet.quiet_refl _)
  · exact Quiet.quiet_refl _

theorem beginCGContext_same (s : CGDrawContext) (a b : Bool) :
    s.SameMembers (s.beginCGContext a b).2 := by
  unfold beginCGContext
  split
  · split
    · exact SameMembers.same_refl _
    · simp only []
      repeat' (first | split | refine SameMembers.same_call ?_ _ | exact SameMembers.same_refl _)
  · exact SameMembers.same_refl _

theorem beginCGContext_usable (s : CGDrawContext) (a b : Bool) (k : CGContext)
    (hk : s.cgContext = some k) (hclip : s.getCurrentState.clipRect.isEmpty = false) :
    (s.beginCGContext a b).1 = true := by
  unfold beginCGContext
  simp [hk, hclip]

theorem drawCGImageRef_same {s s' : CGDrawContext} (h : s.SameMembers s') (image : CGImageRef)
    (layer : Option CGLayerRef) (f : CCoord) (inRect : CRect) (inOffset : CPoint)
    (alpha : CGFloat) (bitmap : CBitmap) :
    s.SameMembers (s'.drawCGImageRef image layer f inRect inOffset alpha bitmap) := by
  unfold drawCGImageRef
  simp only []
  repeat'
    first
    | split
    | refine SameMembers.same_call ?_ _
    | refine setCGDrawContextQuality_same ?_
    | exact h

/-- The last call of `drawCGImageRef` draws the layer when there is one and the image
otherwise; the calls before it are quiet. -/
theorem drawCGImageRef_layer (s : CGDrawContext) (image : CGImageRef) (layer : CGLayerRef)
    (f : CCoord) (inRect : CRect) (inOffset : CPoint) (alpha : CGFloat) (bitmap : CBitmap) :
    ∃ (s1 : CGDrawContext) (dest : CGRect), s.Quiet s1 ∧
      s.drawCGImageRef image (some layer) f inRect inOffset alpha bitmap
        = s1.call (.CGContextDrawLayerInRect dest layer) := by
  unfold drawCGImageRef
  simp only []
  refine ⟨_, _, ?_, rfl⟩
  repeat'
    first
    | split
    | refine Quiet.quiet_call ?_ _ rfl rfl rfl
    | refine setCGDrawContextQuality_quiet ?_
    | exact Quiet.quiet_refl _

theorem drawCGImageRef_image (s : CGDrawContext) (image : CGImageRef)
    (f : CCoord) (inRect : CRect) (inOffset : CPoint) (alpha : CGFloat) (bitmap : CBitmap) :
    ∃ (s1 : CGDrawContext) (dest : CGRect), s.Quiet s1 ∧
      s.drawCGImageRef image none f inRect inOffset alpha bitmap
        = s1.call (.CGContextDrawImage dest image) := by
  unfold drawCGImageRef
  simp only []
  refine ⟨_, _, ?_, rfl⟩
  repeat'
    first
    | split
    | refine Quiet.quiet_call ?_ _ rfl rfl rfl
    | refine setCGDrawContextQuality_quiet ?_
    | exact Quiet.quiet_refl _

theorem Tally.of_quiet {s s' : CGDrawContext} (h : s.Quiet s') : s.Tally s' 0 0 0 := by
  obtain ⟨cs, hi, hq⟩ := h
  refine ⟨cs, hi, ?_, ?_, ?_⟩
  · rw [List.countP_eq_zero]
    intro c hc
    simp [(hq c hc).1]
  · rw [List.countP_eq_zero]
    intro c hc
    simp [(hq c hc).2.1]
  · rw [List.countP_eq_zero]
    intro c hc
    simp [(hq c hc).2.2]

theorem Tally.tally_trans {s s' s'' : CGDrawContext} {a b c a' b' c' : Nat}
    (h1 : s.Tally s' a b c) (h2 : s'.Tally s'' a' b' c') :
    s.Tally s'' (a + a') (b + b') (c + c') := by
  obtain ⟨x, hx, x1, x2, x3⟩ := h1
  obtain ⟨y, hy, y1, y2, y3⟩ := h2
  exact ⟨x ++ y, hx.issues_trans hy, by simp [x1, y1], by simp [x2, y2], by simp [x3, y3]⟩

theorem Tally.tally_call (s : CGDrawContext) (c : Call) :
    s.Tally (s.call c) (if c.isCreateLayer then 1 else 0) (if c.isDrawLayer then 1 else 0)
      (if c.isDrawImage then 1 else 0) :=
  ⟨[c], Issues.issues_call s c, by simp [List.countP_cons], by simp [List.countP_cons],
    by simp [List.countP_cons]⟩

theorem Tally.issuedSince {s s' : CGDrawContext} {a b c : Nat} (h : s.Tally s' a b c) :
    (s.issuedSince s').countP Call.isCreateLayer = a ∧
    (s.issuedSince s').countP Call.isDrawLayer = b ∧
    (s.issuedSince s').countP Call.isDrawImage = c := by
  obtain ⟨cs, hi, h1, h2, h3⟩ := h
  have : s.issuedSince s' = cs := by
    unfold CGDrawContext.issuedSince
    rw [hi.1, List.drop_left]
  rw [this]
  exact ⟨h1, h2, h3⟩

theorem releaseCGContext_tally (s : CGDrawContext) :
    s.Tally (s.releaseCGContext true) 0 0 0 := by
  unfold releaseCGContext
  simp only [if_true]
  exact Tally.tally_call s .CGContextRestoreGState

theorem lookup_append_new (l : List (Nat × Nat)) (i v : Nat) (h : l.lookup i = none) :
    (l ++ [(i, v)]).lookup i = some v := by
  induction l with
  | nil => simp [List.lookup]
  | cons e l ih =>
    obtain ⟨a, b⟩ := e
    rw [List.lookup_cons] at h
    rw [List.cons_append, List.lookup_cons]
    cases hia : (i == a) with
    | true => rw [hia] at h; simp at h
    | false =>
      rw [hia] at h
      exact ih h

theorem lookup_map_increment (l : List (Nat × Nat)) (i n : Nat) (h : l.lookup i = some n) :
    (l.map (fun (e : Nat × Nat) => if e.1 = i then (e.1, e.2 + 1) else e)).lookup i
      = some (n + 1) := by
  induction l with
  | nil => simp [List.lookup] at h
  | cons e l ih =>
    obtain ⟨a, b⟩ := e
    rw [List.lookup_cons] at h
    rw [List.map_cons]
    cases hia : (i == a) with
    | true =>
      rw [hia] at h
      have hai : a = i := by simpa using (beq_iff_eq.mp hia).symm
      have hb : b = n := by simpa using h
      subst hai hb
      simp [List.lookup_cons]
    | false =>
      rw [hia] at h
      have hai : ¬ a = i := by
        intro h'
        subst h'
        simp at hia
      simp only [hai, if_false]
      rw [List.lookup_cons, hia]
      exact ih h

theorem releaseCGContext_same {s s' : CGDrawContext} (h : s.SameMembers s') :
    s.SameMembers (s'.releaseCGContext true) := by
  unfold releaseCGContext
  simp only [if_true]
  exact h

theorem tail_image (x : CGDrawContext) (image : CGImageRef) (f : CCoord) (r : CRect)
    (o : CPoint) (alpha : CGFloat) (b : CBitmap) :
    x.Tally ((x.drawCGImageRef image none f r o alpha b).releaseCGContext true) 0 0 1 := by
  obtain ⟨s1, dest, hq, he⟩ := drawCGImageRef_image x image f r o alpha b
  rw [he]
  have := ((Tally.of_quiet hq).tally_trans (Tally.tally_call s1
    (.CGContextDrawImage dest image))).tally_trans (releaseCGContext_tally _)
  simpa [Call.isCreateLayer, Call.isDrawLayer, Call.isDrawImage] using this

theorem tail_layer (x : CGDrawContext) (image : CGImageRef) (layer : CGLayerRef) (f : CCoord)
    (r : CRect) (o : CPoint) (alpha : CGFloat) (b : CBitmap) :
    x.Tally ((x.drawCGImageRef image (some layer) f r o alpha b).releaseCGContext true)
      0 1 0 ∧
    ∃ dest, Call.CGContextDrawLayerInRect dest layer ∈
      x.issuedSince
        ((x.drawCGImageRef image (some layer) f r o alpha b).releaseCGContext true) := by
  obtain ⟨s1, dest, hq, he⟩ := drawCGImageRef_layer x image layer f r o alpha b
  rw [he]
  constructor
  · have := ((Tally.of_quiet hq).tally_trans (Tally.tally_call s1
      (.CGContextDrawLayerInRect dest layer))).tally_trans (releaseCGContext_tally _)
    simpa [Call.isCreateLayer, Call.isDrawLayer, Call.isDrawImage] using this
  · refine ⟨dest, ?_⟩
    obtain ⟨cs, hi, _⟩ := hq
    have hlog : ((s1.call (.CGContextDrawLayerInRect dest layer)).releaseCGContext true).log
        = x.log ++ (cs ++ [Call.CGContextDrawLayerInRect dest layer, .CGContextRestoreGState]) := by
      simp [releaseCGContext, CGDrawContext.call, hi.1]
    unfold CGDrawContext.issuedSince
    rw [hlog, List.drop_left]
    simp

/-- In a successful draw `drawBitmap` runs its drawing code. -/
theorem drawBitmap_draws (s : CGDrawContext) (b : CBitmap) (cg : CGBitmap)
    (image : CGImageRef) (alpha : CGFloat) (r : CRect) (o : CPoint)
    (h : s.Draws b cg image alpha) :
    s.drawBitmap (some b) r o alpha =
      ((((s.beginCGContext false true).2.layerForBitmap cg).2.drawCGImageRef image
        ((s.beginCGContext false true).2.layerForBitmap cg).1
        cg.scaleFactor r o alpha b).releaseCGContext true) := by
  obtain ⟨⟨k, hk⟩, hclip, halpha, hbest, himg⟩ := h
  have hb := beginCGContext_usable s false true k hk hclip
  unfold drawBitmap
  simp only [halpha, if_false, hbest, PlatformBitmap.cast_CGBitmap, himg, hb, if_true]

theorem tail_same (x : CGDrawContext) (image : CGImageRef) (layer : Option CGLayerRef)
    (f : CCoord) (r : CRect) (o : CPoint) (alpha : CGFloat) (b : CBitmap) :
    x.SameMembers ((x.drawCGImageRef image layer f r o alpha b).releaseCGContext true) :=
  releaseCGContext_same (drawCGImageRef_same (SameMembers.same_refl x) _ _ _ _ _ _ _)

theorem Draws.preserved {s s' : CGDrawContext} {b : CBitmap} {cg : CGBitmap}
    {image : CGImageRef} {alpha : CGFloat} (h : s.Draws b cg image alpha)
    (h1 : s'.cgContext = s.cgContext) (h2 : s'.scaleFactor = s.scaleFactor)
    (h3 : s'.currentState = s.currentState) (h4 : s'.currentTransform = s.currentTransform) :
    s'.Draws b cg image alpha := by
  obtain ⟨⟨k, hk⟩, hclip, halpha, hbest, himg⟩ := h
  refine ⟨⟨k, by rw [h1, hk]⟩, ?_, halpha, ?_, himg⟩
  · simpa [getCurrentState, h3] using hclip
  · simpa [transformedScaleFactor, getCurrentTransform, h2, h4] using hbest

/-- First draw of a bitmap without layer on a context of scale factor 1. -/
theorem drawBitmap_first (s : CGDrawContext) (b : CBitmap) (cg : CGBitmap)
    (image : CGImageRef) (alpha : CGFloat) (r : CRect) (o : CPoint)
    (h : s.Draws b cg image alpha) (hs : s.scaleFactor = 1) (hl : s.getCGLayer cg = none)
    (hc : s.bitmapDrawCount.lookup cg.id = none) :
    s.Tally (s.drawBitmap (some b) r o alpha) 0 0 1 ∧
    (s.drawBitmap (some b) r o alpha).bitmapDrawCount = s.bitmapDrawCount ++ [(cg.id, 1)] ∧
    (s.drawBitmap (some b) r o alpha).cgLayers = s.cgLayers ∧
    (s.drawBitmap (some b) r o alpha).scaleFactor = s.scaleFactor ∧
    (s.drawBitmap (some b) r o alpha).currentState = s.currentState ∧
    (s.drawBitmap (some b) r o alpha).currentTransform = s.currentTransform := by
  rw [drawBitmap_draws s b cg image alpha r o h]
  obtain ⟨m1, m2, m3, m4, m5, m6, m7⟩ := beginCGContext_same s false true
  have hq := Tally.of_quiet (beginCGContext_quiet s false true)
  have hB : (s.beginCGContext false true).2.layerForBitmap cg
      = (none, { (s.beginCGContext false true).2 with
          bitmapDrawCount := s.bitmapDrawCount ++ [(cg.id, 1)] }) := by
    unfold layerForBitmap
    simp only [m1, hs, if_true, getCGLayer, m7, m2]
    simp only [getCGLayer] at hl
    simp only [hl, hc]
  rw [hB]
  simp only []
  obtain ⟨t1, t2, t3, t4, t5, t6, t7⟩ := tail_same
    ({ (s.beginCGContext false true).2 with
      bitmapDrawCount := s.bitmapDrawCount ++ [(cg.id, 1)] }) image none cg.scaleFactor r o
      alpha b
  refine ⟨?_, t2, t7.trans m7, t1.trans m1, t4.trans m4, t6.trans m6⟩
  have h2 : (s.beginCGContext false true).2.Tally
      ({ (s.beginCGContext false true).2 with
        bitmapDrawCount := s.bitmapDrawCount ++ [(cg.id, 1)] }) 0 0 0 :=
    Tally.of_quiet (Quiet.quiet_of_eq rfl rfl)
  have := (hq.tally_trans h2).tally_trans (tail_image _ image cg.scaleFactor r o alpha b)
  simpa using this

theorem issuedSince_of_issues {s s' : CGDrawContext} {cs : List Call} (h : s.Issues s' cs) :
    s.issuedSince s' = cs := by
  unfold CGDrawContext.issuedSince
  rw [h.1, List.drop_left]

theorem Tally.tally_refl (s : CGDrawContext) : s.Tally s 0 0 0 :=
  Tally.of_quiet (Quiet.quiet_refl s)

/-- Second draw of a bitmap without layer on a context of scale factor 1. -/
theorem drawBitmap_second (s : CGDrawContext) (b : CBitmap) (cg : CGBitmap)
    (image : CGImageRef) (alpha : CGFloat) (r : CRect) (o : CPoint) (n : Nat)
    (layer : CGLayerRef)
    (h : s.Draws b cg image alpha) (hs : s.scaleFactor = 1) (hl : s.getCGLayer cg = none)
    (hc : s.bitmapDrawCount.lookup cg.id = some n) (hn : cg.newLayer = some layer) :
    s.Tally (s.drawBitmap (some b) r o alpha) 1 1 0 ∧
    (∃ dest, Call.CGContextDrawLayerInRect dest layer ∈
      s.issuedSince (s.drawBitmap (some b) r o alpha)) ∧
    (s.drawBitmap (some b) r o alpha).bitmapDrawCount.lookup cg.id = some (n + 1) ∧
    (s.drawBitmap (some b) r o alpha).getCGLayer cg = some layer ∧
    (s.drawBitmap (some b) r o alpha).scaleFactor = s.scaleFactor ∧
    (s.drawBitmap (some b) r o alpha).currentState = s.currentState ∧
    (s.drawBitmap (some b) r o alpha).currentTransform = s.currentTransform := by
  rw [drawBitmap_draws s b cg image alpha r o h]
  obtain ⟨m1, m2, m3, m4, m5, m6, m7⟩ := beginCGContext_same s false true
  have hq := Tally.of_quiet (beginCGContext_quiet s false true)
  have hB : (s.beginCGContext false true).2.layerForBitmap cg
      = (some layer, { (s.beginCGContext false true).2.call (.CGBitmap_createCGLayer cg.id) with
          bitmapDrawCount := s.bitmapDrawCount.map
            (fun (e : Nat × Nat) => if e.1 = cg.id then (e.1, e.2 + 1) else e)
          cgLayers := (cg.id, layer) :: s.cgLayers }) := by
    unfold layerForBitmap
    simp only [m1, hs, if_true, getCGLayer, m7, m2]
    simp only [getCGLayer] at hl
    simp only [hl, hc, createCGLayer, hn, CGDrawContext.call, m7]
    simp only [m1, hs]
  rw [hB]
  simp only []
  obtain ⟨t1, t2, t3, t4, t5, t6, t7⟩ := tail_same
    ({ (s.beginCGContext false true).2.call (.CGBitmap_createCGLayer cg.id) with
          bitmapDrawCount := s.bitmapDrawCount.map
            (fun (e : Nat × Nat) => if e.1 = cg.id then (e.1, e.2 + 1) else e)
          cgLayers := (cg.id, layer) :: s.cgLayers }) image (some layer) cg.scaleFactor r o
      alpha b
  have h2 : (s.beginCGContext false true).2.Tally
      ({ (s.beginCGContext false true).2.call (.CGBitmap_createCGLayer cg.id) with
          bitmapDrawCount := s.bitmapDrawCount.map
            (fun (e : Nat × Nat) => if e.1 = cg.id then (e.1, e.2 + 1) else e)
          cgLayers := (cg.id, layer) :: s.cgLayers }) 1 0 0 := by
    have hq2 : ((s.beginCGContext false true).2.call (.CGBitmap_createCGLayer cg.id)).Quiet
        ({ (s.beginCGContext false true).2.call (.CGBitmap_createCGLayer cg.id) with
          bitmapDrawCount := s.bitmapDrawCount.map
            (fun (e : Nat × Nat) => if e.1 = cg.id then (e.1, e.2 + 1) else e)
          cgLayers := (cg.id, layer) :: s.cgLayers }) := Quiet.quiet_of_eq rfl rfl
    have := (Tally.tally_call (s.beginCGContext false true).2
      (.CGBitmap_createCGLayer cg.id)).tally_trans (Tally.of_quiet hq2)
    simpa [Call.isCreateLayer, Call.isDrawLayer, Call.isDrawImage] using this
  obtain ⟨h3, dest, h4⟩ := tail_layer
    ({ (s.beginCGContext false true).2.call (.CGBitmap_createCGLayer cg.id) with
          bitmapDrawCount := s.bitmapDrawCount.map
            (fun (e : Nat × Nat) => if e.1 = cg.id then (e.1, e.2 + 1) else e)
          cgLayers := (cg.id, layer) :: s.cgLayers }) image layer cg.scaleFactor r o alpha b
  refine ⟨?_, ⟨dest, ?_⟩, ?_, ?_, t1.trans m1, t4.trans m4, t6.trans m6⟩
  · simpa using (hq.tally_trans h2).tally_trans h3
  · obtain ⟨c1, i1, _⟩ := hq.tally_trans h2
    obtain ⟨c2, i2, _⟩ := h3
    rw [issuedSince_of_issues i2] at h4
    rw [issuedSince_of_issues (i1.issues_trans i2)]
    exact List.mem_append_right _ h4
  · rw [t2]
    exact lookup_map_increment _ _ _ hc
  · simp only [getCGLayer, t7]
    simp [List.lookup_cons]

/-- A draw of a bitmap that has its layer, on a context of scale factor 1. -/
theorem drawBitmap_layered (s : CGDrawContext) (b : CBitmap) (cg : CGBitmap)
    (image : CGImageRef) (alpha : CGFloat) (r : CRect) (o : CPoint) (layer : CGLayerRef)
    (h : s.Draws b cg image alpha) (hs : s.scaleFactor = 1)
    (hl : s.getCGLayer cg = some layer) :
    s.Tally (s.drawBitmap (some b) r o alpha) 0 1 0 ∧
    (s.drawBitmap (some b) r o alpha).bitmapDrawCount = s.bitmapDrawCount ∧
    (s.drawBitmap (some b) r o alpha).getCGLayer cg = some layer ∧
    (s.drawBitmap (some b) r o alpha).scaleFactor = s.scaleFactor ∧
    (s.drawBitmap (some b) r o alpha).currentState = s.currentState ∧
    (s.drawBitmap (some b) r o alpha).currentTransform = s.currentTransform := by
  rw [drawBitmap_draws s b cg image alpha r o h]
  obtain ⟨m1, m2, m3, m4, m5, m6, m7⟩ := beginCGContext_same s false true
  have hq := Tally.of_quiet (beginCGContext_quiet s false true)
  have hB : (s.beginCGContext false true).2.layerForBitmap cg
      = (some layer, (s.beginCGContext false true).2) := by
    unfold layerForBitmap
    simp only [m1, hs, if_true, getCGLayer, m7]
    simp only [getCGLayer] at hl
    simp only [hl]
  rw [hB]
  simp only []
  obtain ⟨t1, t2, t3, t4, t5, t6, t7⟩ := tail_same (s.beginCGContext false true).2 image
    (some layer) cg.scaleFactor r o alpha b
  obtain ⟨h3, _⟩ := tail_layer (s.beginCGContext false true).2 image layer cg.scaleFactor r o
    alpha b
  refine ⟨by simpa using hq.tally_trans h3, t2.trans m2, ?_, t1.trans m1, t4.trans m4,
    t6.trans m6⟩
  simp only [getCGLayer, t7, m7]
  simpa [getCGLayer] using hl

/-- Any `drawBitmap` on a context whose scale factor is not 1. -/
theorem drawBitmap_unscaled (s : CGDrawContext) (bitmap : Option CBitmap) (alpha : CGFloat)
    (r : CRect) (o : CPoint) (hs : s.scaleFactor ≠ 1) :
    (∃ images, s.Tally (s.drawBitmap bitmap r o alpha) 0 0 images) ∧
    (s.drawBitmap bitmap r o alpha).bitmapDrawCount = s.bitmapDrawCount ∧
    (s.drawBitmap bitmap r o alpha).cgLayers = s.cgLayers := by
  unfold drawBitmap
  simp only []
  split
  · exact ⟨⟨0, Tally.tally_refl s⟩, rfl, rfl⟩
  split
  · exact ⟨⟨0, Tally.tally_refl s⟩, rfl, rfl⟩
  split
  · exact ⟨⟨0, Tally.tally_refl s⟩, rfl, rfl⟩
  split
  · exact ⟨⟨0, Tally.tally_refl s⟩, rfl, rfl⟩
  split
  · exact ⟨⟨0, Tally.tally_refl s⟩, rfl, rfl⟩
  split
  · rename_i bm _ _ pb _ _ cg _ _ image _ hb
    obtain ⟨m1, m2, m3, m4, m5, m6, m7⟩ := beginCGContext_same s false true
    have hq := Tally.of_quiet (beginCGContext_quiet s false true)
    have hB : (s.beginCGContext false true).2.layerForBitmap cg
        = (none, (s.beginCGContext false true).2) := by
      unfold layerForBitmap
      simp only [m1, hs, if_false]
    rw [hB]
    simp only []
    obtain ⟨t1, t2, t3, t4, t5, t6, t7⟩ := tail_same (s.beginCGContext false true).2 image
      none cg.scaleFactor r o alpha bm
    refine ⟨⟨1, ?_⟩, t2.trans m2, t7.trans m7⟩
    simpa using hq.tally_trans (tail_image _ image cg.scaleFactor r o alpha bm)
  · rename_i hb
    rw [beginCGContext_false _ _ _ (by simpa using hb)]
    exact ⟨⟨0, Tally.tally_refl s⟩, rfl, rfl⟩

theorem drawBitmap_cgContext (s : CGDrawContext) (bitmap : Option CBitmap) (r : CRect)
    (o : CPoint) (alpha : CGFloat) : (s.drawBitmap bitmap r o alpha).cgContext = s.cgContext := by
  obtain ⟨_, _, _, hc⟩ := drawBitmap_neutral s bitmap r o alpha
  exact hc

/-- Draws of a bitmap that has its layer create no layer. -/
theorem drawBitmaps_layered (b : CBitmap) (cg : CGBitmap) (image : CGImageRef)
    (alpha : CGFloat) (layer : CGLayerRef) (draws : List (CRect × CPoint)) :
    ∀ s : CGDrawContext, s.Draws b cg image alpha → s.scaleFactor = 1 →
      s.getCGLayer cg = some layer →
      s.Tally (s.drawBitmaps (some b) alpha draws) 0 draws.length 0 := by
  induction draws with
  | nil => intro s _ _ _; exact Tally.tally_refl s
  | cons d draws ih =>
    intro s h hs hl
    obtain ⟨t, _, l', f1, f2, f3⟩ := drawBitmap_layered s b cg image alpha d.1 d.2 layer h hs hl
    have h' := h.preserved (drawBitmap_cgContext s (some b) d.1 d.2 alpha) f1 f2 f3
    have := t.tally_trans (ih _ h' (f1.trans hs) l')
    simp only [drawBitmaps, List.foldl_cons] at this ⊢
    simpa [Nat.add_comm] using this

/-- Successive successful draws of one bitmap that starts without layer and without
cache entry create its layer exactly once, at the second draw. -/
theorem drawBitmaps_created (s : CGDrawContext) (b : CBitmap) (cg : CGBitmap)
    (image : CGImageRef) (alpha : CGFloat) (layer : CGLayerRef)
    (draws : List (CRect × CPoint)) (h : s.Draws b cg image alpha) (hs : s.scaleFactor = 1)
    (hl : s.getCGLayer cg = none) (hc : s.bitmapDrawCount.lookup cg.id = none)
    (hn : cg.newLayer = some layer) :
    ∃ layers images, s.Tally (s.drawBitmaps (some b) alpha draws)
      (if 2 ≤ draws.length then 1 else 0) layers images := by
  match draws with
  | [] => exact ⟨0, 0, Tally.tally_refl s⟩
  | [d] =>
    obtain ⟨t, _⟩ := drawBitmap_first s b cg image alpha d.1 d.2 h hs hl hc
    exact ⟨0, 1, by simpa [drawBitmaps] using t⟩
  | d1 :: d2 :: rest =>
    obtain ⟨t1, c1, l1, f1, f2, f3⟩ := drawBitmap_first s b cg image alpha d1.1 d1.2 h hs hl hc
    have h1 := h.preserved (drawBitmap_cgContext s (some b) d1.1 d1.2 alpha) f1 f2 f3
    have hl1 : (s.drawBitmap (some b) d1.1 d1.2 alpha).getCGLayer cg = none := by
      simpa [getCGLayer, l1] using hl
    have hc1 : (s.drawBitmap (some b) d1.1 d1.2 alpha).bitmapDrawCount.lookup cg.id
        = some 1 := by
      rw [c1]
      exact lookup_append_new _ _ _ hc
    obtain ⟨t2, _, _, l2, g1, g2, g3⟩ := drawBitmap_second _ b cg image alpha d2.1 d2.2 1 layer
      h1 (f1.trans hs) hl1 hc1 hn
    have h2 := h1.preserved (drawBitmap_cgContext _ (some b) d2.1 d2.2 alpha) g1 g2 g3
    have t3 := drawBitmaps_layered b cg image alpha layer rest _ h2 (g1.trans (f1.trans hs)) l2
    have := (t1.tally_trans t2).tally_trans t3
    refine ⟨0 + 1 + rest.length, 1 + 0 + 0, ?_⟩
    simpa [drawBitmaps] using this

theorem tail_tally (x : CGDrawContext) (image : CGImageRef) (layer : Option CGLayerRef)
    (f : CCoord) (r : CRect) (o : CPoint) (alpha : CGFloat) (b : CBitmap) :
    ∃ layers images,
      x.Tally ((x.drawCGImageRef image layer f r o alpha b).releaseCGContext true)
        0 layers images := by
  cases layer with
  | none => exact ⟨0, 1, tail_image x image f r o alpha b⟩
  | some l => exact ⟨1, 0, (tail_layer x image l f r o alpha b).1⟩

/-- With an empty draw-count cache `drawBitmap` creates no layer and leaves the cache empty
or with one entry of count 1. -/
theorem drawBitmap_empty_cache (s : CGDrawContext) (bitmap : Option CBitmap) (alpha : CGFloat)
    (r : CRect) (o : CPoint) (hc : s.bitmapDrawCount = []) :
    (∃ layers images, s.Tally (s.drawBitmap bitmap r o alpha) 0 layers images) ∧
    ((s.drawBitmap bitmap r o alpha).bitmapDrawCount = [] ∨
      ∃ id, (s.drawBitmap bitmap r o alpha).bitmapDrawCount = [(id, 1)]) := by
  unfold drawBitmap
  simp only []
  split
  · exact ⟨⟨0, 0, Tally.tally_refl s⟩, Or.inl hc⟩
  split
  · exact ⟨⟨0, 0, Tally.tally_refl s⟩, Or.inl hc⟩
  split
  · exact ⟨⟨0, 0, Tally.tally_refl s⟩, Or.inl hc⟩
  split
  · exact ⟨⟨0, 0, Tally.tally_refl s⟩, Or.inl hc⟩
  split
  · exact ⟨⟨0, 0, Tally.tally_refl s⟩, Or.inl hc⟩
  split
  · rename_i bm _ _ pb _ _ cg _ _ image _ hb
    obtain ⟨m1, m2, m3, m4, m5, m6, m7⟩ := beginCGContext_same s false true
    have hq := Tally.of_quiet (beginCGContext_quiet s false true)
    have hB : ((s.beginCGContext false true).2.layerForBitmap cg).2.log
          = (s.beginCGContext false true).2.log ∧
        ((s.beginCGContext false true).2.layerForBitmap cg).2.cgContext
          = (s.beginCGContext false true).2.cgContext ∧
        (((s.beginCGContext false true).2.layerForBitmap cg).2.bitmapDrawCount = [] ∨
          ((s.beginCGContext false true).2.layerForBitmap cg).2.bitmapDrawCount
            = [(cg.id, 1)]) := by
      unfold layerForBitmap
      split
      · split
        · exact ⟨rfl, rfl, Or.inl (m2.trans hc)⟩
        · simp [m2, hc]
      · exact ⟨rfl, rfl, Or.inl (m2.trans hc)⟩
    obtain ⟨e1, e2, e3⟩ := hB
    obtain ⟨t1, t2, t3, t4, t5, t6, t7⟩ := tail_same
      ((s.beginCGContext false true).2.layerForBitmap cg).2 image
      ((s.beginCGContext false true).2.layerForBitmap cg).1 cg.scaleFactor r o alpha bm
    obtain ⟨a, c, ht⟩ := tail_tally ((s.beginCGContext false true).2.layerForBitmap cg).2 image
      ((s.beginCGContext false true).2.layerForBitmap cg).1 cg.scaleFactor r o alpha bm
    refine ⟨⟨a, c, ?_⟩, ?_⟩
    · have := (hq.tally_trans (Tally.of_quiet (Quiet.quiet_of_eq e1 e2))).tally_trans ht
      simpa using this
    · rw [t2]
      rcases e3 with e3 | e3
      · exact Or.inl e3
      · exact Or.inr ⟨cg.id, e3⟩
  · rename_i hb
    rw [beginCGContext_false _ _ _ (by simpa using hb)]
    exact ⟨⟨0, 0, Tally.tally_refl s⟩, Or.inl hc⟩

end CGDrawContext

/-- C8: on a context of scale factor 1 a successful `drawBitmap` of a bitmap without layer
and without cache entry records the draw count 1, creates no layer and draws the plain
image; with a cache entry it increments the count, requests the layer once and draws that
layer; successive successful draws of such a bitmap create the layer exactly once when
there are at least two of them and never otherwise; on a context whose scale factor is
not 1 `drawBitmap` never creates or draws a layer and leaves the cache as it is. -/
theorem drawBitmap_layer_cache (s : CGDrawContext) (b : CBitmap) (cg : CGBitmap)
    (image : CGImageRef) (alpha : CGFloat) (r : CRect) (o : CPoint) (n : Nat)
    (layer : CGLayerRef) (draws : List (CRect × CPoint))
    (h : s.Draws b cg image alpha) (hn : cg.newLayer = some layer) :
    (s.scaleFactor = 1 → s.getCGLayer cg = none → s.bitmapDrawCount.lookup cg.id = none →
      (s.drawBitmap (some b) r o alpha).bitmapDrawCount.lookup cg.id = some 1 ∧
      (s.issuedSince (s.drawBitmap (some b) r o alpha)).countP Call.isCreateLayer = 0 ∧
      (s.issuedSince (s.drawBitmap (some b) r o alpha)).countP Call.isDrawLayer = 0 ∧
      (s.issuedSince (s.drawBitmap (some b) r o alpha)).countP Call.isDrawImage = 1 ∧
      (s.drawBitmap (some b) r o alpha).getCGLayer cg = none) ∧
    (s.scaleFactor = 1 → s.getCGLayer cg = none → s.bitmapDrawCount.lookup cg.id = some n →
      (s.drawBitmap (some b) r o alpha).bitmapDrawCount.lookup cg.id = some (n + 1) ∧
      (s.issuedSince (s.drawBitmap (some b) r o alpha)).countP Call.isCreateLayer = 1 ∧
      (s.issuedSince (s.drawBitmap (some b) r o alpha)).countP Call.isDrawLayer = 1 ∧
      (s.issuedSince (s.drawBitmap (some b) r o alpha)).countP Call.isDrawImage = 0 ∧
      (∃ dest, Call.CGContextDrawLayerInRect dest layer ∈
        s.issuedSince (s.drawBitmap (some b) r o alpha)) ∧
      (s.drawBitmap (some b) r o alpha).getCGLayer cg = some layer) ∧
    (s.scaleFactor = 1 → s.getCGLayer cg = none → s.bitmapDrawCount.lookup cg.id = none →
      (s.issuedSince (s.drawBitmaps (some b) alpha draws)).countP Call.isCreateLayer
        = if 2 ≤ draws.length then 1 else 0) ∧
    (s.scaleFactor ≠ 1 → ∀ (other : Option CBitmap) (alpha' : CGFloat) (r' : CRect)
        (o' : CPoint),
      (s.drawBitmap other r' o' alpha').bitmapDrawCount = s.bitmapDrawCount ∧
      (s.issuedSince (s.drawBitmap other r' o' alpha')).countP Call.isCreateLayer = 0 ∧
      (s.issuedSince (s.drawBitmap other r' o' alpha')).countP Call.isDrawLayer = 0) := by
  refine ⟨?_, ?_, ?_, ?_⟩
  · intro hs hl hc
    obtain ⟨t, c1, l1, _⟩ := CGDrawContext.drawBitmap_first s b cg image alpha r o h hs hl hc
    obtain ⟨i1, i2, i3⟩ := t.issuedSince
    refine ⟨?_, i1, i2, i3, ?_⟩
    · rw [c1]
      exact CGDrawContext.lookup_append_new _ _ _ hc
    · simpa [CGDrawContext.getCGLayer, l1] using hl
  · intro hs hl hc
    obtain ⟨t, hd, c1, l1, _⟩ :=
      CGDrawContext.drawBitmap_second s b cg image alpha r o n layer h hs hl hc hn
    obtain ⟨i1, i2, i3⟩ := t.issuedSince
    exact ⟨c1, i1, i2, i3, hd, l1⟩
  · intro hs hl hc
    obtain ⟨_, _, t⟩ :=
      CGDrawContext.drawBitmaps_created s b cg image alpha layer draws h hs hl hc hn
    exact t.issuedSince.1
  · intro hs other alpha' r' o'
    obtain ⟨⟨_, t⟩, c1, _⟩ := CGDrawContext.drawBitmap_unscaled s other alpha' r' o' hs
    exact ⟨c1, t.issuedSince.1, t.issuedSince.2.1⟩

theorem sampleUnitContext_draws : sampleUnitContext.Draws sampleBitmap sampleCGBitmap
    ⟨1, 16, 16⟩ 1 := by
  refine ⟨⟨_, rfl⟩, ?_, by norm_num, rfl, rfl⟩
  simp [CGDrawContext.getCurrentState, sampleUnitContext, sampleContext,
    CGDrawContext.construct, CGDrawContext.init, CGDrawContext.call, sampleState,
    CRect.isEmpty]

/-- Witness of C8: three successive draws of the sample bitmap create its layer once. -/
theorem drawBitmap_layer_cache_witness :
    (sampleUnitContext.issuedSince
      (sampleUnitContext.drawBitmaps (some sampleBitmap) 1 sampleDraws)).countP
        Call.isCreateLayer = if 2 ≤ sampleDraws.length then 1 else 0 :=
  (drawBitmap_layer_cache sampleUnitContext sampleBitmap sampleCGBitmap ⟨1, 16, 16⟩ 1
    ⟨0, 0, 16, 16⟩ ⟨0, 0⟩ 0 7 sampleDraws sampleUnitContext_draws rfl).2.2.1 rfl rfl rfl

/-- C9: after `endDraw` the draw-count cache is empty, so the next `drawBitmap` of any
bitmap creates no layer and leaves the cache empty or with a single entry of count 1 (the
entry of the bitmap, for a successful draw of a bitmap without layer on a context of scale
factor 1); `endDraw` issues `setDirty` on the platform bitmap of the offscreen bitmap
exactly when the context has a bitmap whose platform bitmap is a `CGBitmap`, issues no other
call and leaves the native context as it is. -/
theorem endDraw_clears_cache (s : CGDrawContext) (bitmap : Option CBitmap) (r : CRect)
    (o : CPoint) (alpha : CGFloat) (b : CBitmap) (cg : CGBitmap) (image : CGImageRef) :
    s.endDraw.bitmapDrawCount = [] ∧
    (s.endDraw.issuedSince (s.endDraw.drawBitmap bitmap r o alpha)).countP
      Call.isCreateLayer = 0 ∧
    ((s.endDraw.drawBitmap bitmap r o alpha).bitmapDrawCount = [] ∨
      ∃ id, (s.endDraw.drawBitmap bitmap r o alpha).bitmapDrawCount = [(id, 1)]) ∧
    (s.endDraw.Draws b cg image alpha → s.endDraw.scaleFactor = 1 →
      s.endDraw.getCGLayer cg = none →
      (s.endDraw.drawBitmap (some b) r o alpha).bitmapDrawCount = [(cg.id, 1)]) ∧
    s.endDraw.log = s.log ++
      (match (s.bitmap.bind CBitmap.platformBitmap).bind PlatformBitmap.cast_CGBitmap with
        | some cgBitmap => [Call.CGBitmap_setDirty cgBitmap.id]
        | none => []) ∧
    s.endDraw.cgContext = s.cgContext := by
  have hc : s.endDraw.bitmapDrawCount = [] := rfl
  obtain ⟨⟨_, _, t⟩, hcache⟩ :=
    CGDrawContext.drawBitmap_empty_cache s.endDraw bitmap alpha r o hc
  refine ⟨hc, t.issuedSince.1, hcache, ?_, ?_, ?_⟩
  · intro hd hs hl
    obtain ⟨_, c1, _⟩ := CGDrawContext.drawBitmap_first s.endDraw b cg image alpha r o hd hs hl
      (by rw [hc]; rfl)
    rw [c1, hc]
    rfl
  · unfold CGDrawContext.endDraw
    cases hb : s.bitmap with
    | none => simp
    | some bm =>
      cases hp : bm.platformBitmap with
      | none => simp [hp]
      | some pb =>
        cases hg : pb.cast_CGBitmap with
        | none => simp [hp, hg]
        | some g => simp [hp, hg, CGDrawContext.call]
  · unfold CGDrawContext.endDraw
    cases hb : s.bitmap with
    | none => rfl
    | some bm =>
      cases hp : bm.platformBitmap with
      | none => simp [hp]
      | some pb =>
        cases hg : pb.cast_CGBitmap with
        | none => simp [hp, hg]
        | some g =>
          simp only [hp, hg]
          exact CGDrawContext.call_inert _ (.CGBitmap_setDirty g.id) (fun _ => rfl)

/-- Witness of C9: after `endDraw` the first successful draw of the sample bitmap records
the count 1. -/
theorem endDraw_clears_cache_witness :
    (sampleUnitContext.endDraw.drawBitmap (some sampleBitmap) ⟨0, 0, 16, 16⟩ ⟨0, 0⟩
      1).bitmapDrawCount = [(sampleCGBitmap.id, 1)] :=
  (endDraw_clears_cache sampleUnitContext none ⟨0, 0, 16, 16⟩ ⟨0, 0⟩ 1 sampleBitmap
    sampleCGBitmap ⟨1, 16, 16⟩).2.2.2.1
    (sampleUnitContext_draws.preserved rfl rfl rfl rfl) rfl rfl

namespace CGDrawContext

theorem call_currentState (s : CGDrawContext) (c : Call) :
    (s.call c).currentState = s.currentState := rfl

theorem calls_nil (s : CGDrawContext) : s.calls [] = s := rfl

theorem calls_cons (s : CGDrawContext) (c : Call) (cs : List Call) :
    s.calls (c :: cs) = (s.call c).calls cs := rfl

theorem call_eq_calls (s : CGDrawContext) (c : Call) : s.call c = s.calls [c] := rfl

theorem calls_calls (s : CGDrawContext) (a b : List Call) :
    (s.calls a).calls b = s.calls (a ++ b) := by
  simp only [calls, List.foldl_append]

theorem calls_log (cs : List Call) : ∀ s : CGDrawContext, (s.calls cs).log = s.log ++ cs := by
  induction cs with
  | nil => intro s; simp [calls]
  | cons c cs ih => intro s; rw [calls_cons, ih]; simp [call]

theorem calls_cgContext (cs : List Call) :
    ∀ s : CGDrawContext, (s.calls cs).cgContext = s.cgContext.map (replay cs) := by
  induction cs with
  | nil => intro s; cases h : s.cgContext <;> simp [calls, replay, h]
  | cons c cs ih =>
    intro s
    rw [calls_cons, ih]
    cases h : s.cgContext <;> simp [call, h, replay]

theorem calls_currentState (cs : List Call) :
    ∀ s : CGDrawContext, (s.calls cs).currentState = s.currentState := by
  induction cs with
  | nil => intro s; rfl
  | cons c cs ih => intro s; rw [calls_cons, ih]; rfl

theorem calls_currentTransform (cs : List Call) :
    ∀ s : CGDrawContext, (s.calls cs).currentTransform = s.currentTransform := by
  induction cs with
  | nil => intro s; rfl
  | cons c cs ih => intro s; rw [calls_cons, ih]; rfl

theorem calls_issues (s : CGDrawContext) (cs : List Call) : s.Issues (s.calls cs) cs :=
  ⟨calls_log cs s, calls_cgContext cs s⟩

theorem calls_issuedSince (s : CGDrawContext) (cs : List Call) :
    s.issuedSince (s.calls cs) = cs := by
  simp [issuedSince, calls_log]

theorem calls_getDrawMode (s : CGDrawContext) (cs : List Call) :
    (s.calls cs).getDrawMode = s.getDrawMode := by
  simp only [getDrawMode, calls_currentState]

theorem calls_getCurrentState (s : CGDrawContext) (cs : List Call) :
    (s.calls cs).getCurrentState = s.getCurrentState := by
  simp only [getCurrentState, calls_currentState]

theorem calls_getCurrentTransform (s : CGDrawContext) (cs : List Call) :
    (s.calls cs).getCurrentTransform = s.getCurrentTransform := by
  simp only [getCurrentTransform, calls_currentTransform]

theorem pixelAlligned_CGPoint_of_cgContext {s s' : CGDrawContext}
    (h : s.cgContext = s'.cgContext) (p : CGPoint) :
    s.pixelAlligned_CGPoint p = s'.pixelAlligned_CGPoint p := by
  simp only [pixelAlligned_CGPoint, h]

theorem pixelAlligned_CGRect_of_cgContext {s s' : CGDrawContext}
    (h : s.cgContext = s'.cgContext) (r : CGRect) :
    s.pixelAlligned_CGRect r = s'.pixelAlligned_CGRect r := by
  simp only [pixelAlligned_CGRect, h]

theorem calls_inert_cgContext (s : CGDrawContext) (cs : List Call) (h : ∀ c ∈ cs, c.inert) :
    (s.calls cs).cgContext = s.cgContext := by
  rw [calls_cgContext]
  exact map_replay_id _ _ (replay_inert cs h)

theorem lineStyleCalls_inert (s : CGDrawContext) : ∀ c ∈ s.lineStyleCalls, c.inert := by
  intro c hc
  unfold lineStyleCalls at hc
  simp only [List.mem_append, List.mem_cons, List.not_mem_nil, or_false] at hc
  rcases hc with (hc | hc) | hc
  · subst hc; exact fun _ => rfl
  · subst hc; exact fun _ => rfl
  · split at hc
    · simp only [List.mem_singleton] at hc
      subst hc; exact fun _ => rfl
    · simp at hc

theorem lineStyleCalls_calls (s : CGDrawContext) (cs : List Call) :
    (s.calls cs).lineStyleCalls = s.lineStyleCalls := by
  simp only [lineStyleCalls, calls_currentState]

theorem applyLineStyle_eq (s : CGDrawContext) : s.applyLineStyle = s.calls s.lineStyleCalls := by
  unfold applyLineStyle lineStyleCalls
  simp only [getCurrentState]
  cases hc : s.currentState.lineStyle.lineCap <;>
    cases hj : s.currentState.lineStyle.lineJoin <;>
    by_cases h : s.currentState.lineStyle.getDashCount > 0 <;>
    simp only [hc, hj, h, call_currentState, if_true, if_false] <;> rfl

end CGDrawContext


namespace CGDrawContext

theorem beginCGContext_open (s : CGDrawContext) (a b : Bool)
    (h : (s.beginCGContext a b).1 = true) :
    (∃ k, s.cgContext = some k) ∧ s.getCurrentState.clipRect.isEmpty = false := by
  unfold beginCGContext at h
  cases hk : s.cgContext with
  | none => simp [hk] at h
  | some k =>
    refine ⟨⟨k, rfl⟩, ?_⟩
    cases hc : s.getCurrentState.clipRect.isEmpty with
    | false => rfl
    | true => simp [hk, hc] at h

theorem beginCGContext_eq (s : CGDrawContext) (a b : Bool) (k : CGContext)
    (hk : s.cgContext = some k) (hclip : s.getCurrentState.clipRect.isEmpty = false) :
    s.beginCGContext a b = (true, s.calls (s.beginCalls a b)) := by
  have e1 : ∀ r, (s.call .CGContextSaveGState).pixelAlligned_CGRect r
      = s.pixelAlligned_CGRect r := by
    intro r
    simp only [pixelAlligned_CGRect, call, hk, Option.map_some', CGContextGetCTM,
      CGContextConvertPointToDeviceSpace, CGContextConvertSizeToDeviceSpace,
      CGContextConvertPointToUserSpace, CGContextConvertSizeToUserSpace, CGContext.perform]
  have e2 : ∀ c p, ((s.call .CGContextSaveGState).call
      (.CGContextClipToRect c)).pixelAlligned_CGPoint p = s.pixelAlligned_CGPoint p := by
    intro c p
    simp only [pixelAlligned_CGPoint, call, hk, Option.map_some', CGContextGetCTM,
      CGContextConvertPointToDeviceSpace, CGContextConvertPointToUserSpace, CGContext.perform]
  have hclip' : s.currentState.clipRect.isEmpty = false := hclip
  unfold beginCGContext beginCalls
  simp only [hk, Option.isSome_some, if_true, hclip', Bool.false_eq_true, if_false,
    getCurrentState, getCurrentTransform, call_currentState, e1, e2]
  have e3 : ∀ (x : CGDrawContext) (c : Call), (x.call c).currentTransform
      = x.currentTransform := fun _ _ => rfl
  simp only [e3]
  cases b <;> cases a <;> cases ht : s.currentTransform.isInvariant <;>
    simp only [if_true, if_false, Bool.false_eq_true, Bool.not_true, Bool.not_false,
      List.append_nil, List.cons_append, List.nil_append, calls_cons, calls_nil,
      Bool.true_eq_false]

end CGDrawContext

theorem isInvariant_iff (t : CGraphicsTransform) :
    t.isInvariant = true ↔ t = ⟨1, 0, 0, 1, 0, 0⟩ := by
  cases t
  simp [CGraphicsTransform.isInvariant]

theorem sampleContext_cgContext : sampleContext.cgContext = some sampleInitialised := rfl

theorem sampleContext_clip : sampleContext.getCurrentState.clipRect.isEmpty = false := by
  simp [CGDrawContext.getCurrentState, sampleContext, CGDrawContext.construct,
    CGDrawContext.init, CGDrawContext.call, sampleState, CRect.isEmpty]

theorem sampleShiftedContext_cgContext :
    sampleShiftedContext.cgContext = some sampleInitialised := rfl

theorem sampleShiftedContext_clip :
    sampleShiftedContext.getCurrentState.clipRect.isEmpty = false := by
  simp [CGDrawContext.getCurrentState, sampleShiftedContext, sampleContext,
    CGDrawContext.construct, CGDrawContext.init, CGDrawContext.call, sampleState,
    CRect.isEmpty]

/-- C19: when `beginCGContext (swapYAxis, integralOffset)` returns a context, the calls it
has issued are, in program order, one `CGContextSaveGState` (the only save);
`CGContextClipToRect` with the current clip rectangle, pixel-aligned exactly when
`integralOffset` is true; `CGContextConcatCTM` with the toolkit transform exactly when that
transform is not the identity, its linear part `(m11, m12, m21, m22)` unchanged and, when
`integralOffset` is true, its translation replaced by the pixel-aligned point of `(dx, dy)`;
and `CGContextScaleCTM (1, -1)` exactly when `swapYAxis` is false. -/
theorem beginCGContext_transform_handling (self : CGDrawContext)
    (swapYAxis integralOffset : Bool)
    (h : (self.beginCGContext swapYAxis integralOffset).1 = true) :
    (self.beginCGContext swapYAxis integralOffset).2.log =
      self.log ++
        [Call.CGContextSaveGState,
          Call.CGContextClipToRect
            (if integralOffset
              then self.pixelAlligned_CGRect (CGRectFromCRect self.getCurrentState.clipRect)
              else CGRectFromCRect self.getCurrentState.clipRect)] ++
        (if self.getCurrentTransform = ⟨1, 0, 0, 1, 0, 0⟩ then []
          else [Call.CGContextConcatCTM (createCGAffineTransform
            ⟨self.getCurrentTransform.m11, self.getCurrentTransform.m12,
              self.getCurrentTransform.m21, self.getCurrentTransform.m22,
              if integralOffset
                then (self.pixelAlligned_CGPoint (CGPointFromCPoint
                  ⟨self.getCurrentTransform.dx, self.getCurrentTransform.dy⟩)).x
                else self.getCurrentTransform.dx,
              if integralOffset
                then (self.pixelAlligned_CGPoint (CGPointFromCPoint
                  ⟨self.getCurrentTransform.dx, self.getCurrentTransform.dy⟩)).y
                else self.getCurrentTransform.dy⟩)]) ++
        (if swapYAxis then [] else [Call.CGContextScaleCTM 1 (-1)]) ∧
    (self.issuedSince (self.beginCGContext swapYAxis integralOffset).2).countP
      Call.isSave = 1 := by
  obtain ⟨⟨k, hk⟩, hclip⟩ := CGDrawContext.beginCGContext_open self swapYAxis integralOffset h
  rw [CGDrawContext.beginCGContext_eq self swapYAxis integralOffset k hk hclip]
  simp only [CGDrawContext.calls_log, CGDrawContext.calls_issuedSince]
  have ht : (self.currentTransform.isInvariant = false) ↔
      ¬ self.currentTransform = ⟨1, 0, 0, 1, 0, 0⟩ := by
    rw [← isInvariant_iff]
    simp
  unfold CGDrawContext.beginCalls
  simp only [CGDrawContext.getCurrentState, CGDrawContext.getCurrentTransform]
  constructor
  · by_cases hi : self.currentTransform = ⟨1, 0, 0, 1, 0, 0⟩
    · have hi' : ¬ (self.currentTransform.isInvariant = false) := by
        rw [ht]
        exact fun hn => hn hi
      rw [if_neg hi', if_pos hi]
      simp only [List.append_nil, List.nil_append, List.append_assoc]
    · have hi' : self.currentTransform.isInvariant = false := ht.mpr hi
      simp only [hi', hi, if_true, if_false, List.append_assoc]
      cases integralOffset <;> rfl
  · cases swapYAxis <;> cases hi : self.currentTransform.isInvariant <;>
      simp [Call.isSave]

/-- Witness of C19 on the sample context with a shifted toolkit transform, without swap of
the y axis and with integral offset. -/
theorem beginCGContext_transform_handling_witness :
    (sampleShiftedContext.beginCGContext false true).1 = true ∧
    (sampleShiftedContext.issuedSince
      (sampleShiftedContext.beginCGContext false true).2).countP Call.isSave = 1 :=
  ⟨CGDrawContext.beginCGContext_usable sampleShiftedContext false true sampleInitialised
      sampleShiftedContext_cgContext sampleShiftedContext_clip,
    (beginCGContext_transform_handling sampleShiftedContext false true
      (CGDrawContext.beginCGContext_usable sampleShiftedContext false true sampleInitialised
        sampleShiftedContext_cgContext sampleShiftedContext_clip)).2⟩

namespace Platform.CoreGraphicsDrawDevice

theorem foldl_addLine (pts : PointList) :
    ∀ x : CoreGraphicsDrawDevice,
      x.Issues
        (pts.foldl
          (fun (self : CoreGraphicsDrawDevice) pt =>
            let p := CGPointFromCPoint pt
            let p := if self.pixelAlignmentMode = PixelAlignmentMode.On
              then self.pixelAlligned_CGPoint p else p
            self.call (.CGContextAddLineToPoint p.x p.y))
          x)
        (pts.map (fun pt => Call.CGContextAddLineToPoint
          (if x.pixelAlignmentMode = PixelAlignmentMode.On
            then x.pixelAlligned_CGPoint (CGPointFromCPoint pt) else CGPointFromCPoint pt).x
          (if x.pixelAlignmentMode = PixelAlignmentMode.On
            then x.pixelAlligned_CGPoint (CGPointFromCPoint pt) else CGPointFromCPoint pt).y)) := by
  induction pts with
  | nil => intro x; exact Issues.dev_refl x
  | cons pt pts ih =>
    intro x
    simp only [List.foldl_cons, List.map_cons]
    have h := ih (x.call (.CGContextAddLineToPoint
      (if x.pixelAlignmentMode = PixelAlignmentMode.On
        then x.pixelAlligned_CGPoint (CGPointFromCPoint pt) else CGPointFromCPoint pt).x
      (if x.pixelAlignmentMode = PixelAlignmentMode.On
        then x.pixelAlligned_CGPoint (CGPointFromCPoint pt) else CGPointFromCPoint pt).y))
    have e : ∀ a b p, (x.call (.CGContextAddLineToPoint a b)).pixelAlligned_CGPoint p
        = x.pixelAlligned_CGPoint p :=
      fun a b => pixelAlligned_CGPoint_congr (dev_call_inert x _ (fun _ => rfl))
    have em : ∀ c, (x.call c).pixelAlignmentMode = x.pixelAlignmentMode := fun _ => rfl
    simp only [e, em] at h
    exact Issues.dev_cons h

theorem drawPolygon_issues (dev : CoreGraphicsDrawDevice) (first : CPoint) (rest : PointList)
    (drawStyle : DrawStyle) :
    dev.Issues (dev.drawPolygon (first :: rest) drawStyle)
      ([Call.CGContextBeginPath,
          Call.CGContextMoveToPoint
            (if dev.pixelAlignmentMode = PixelAlignmentMode.On
              then dev.pixelAlligned_CGPoint (CGPointFromCPoint first)
              else CGPointFromCPoint first).x
            (if dev.pixelAlignmentMode = PixelAlignmentMode.On
              then dev.pixelAlligned_CGPoint (CGPointFromCPoint first)
              else CGPointFromCPoint first).y] ++
        rest.map (fun pt => Call.CGContextAddLineToPoint
          (if dev.pixelAlignmentMode = PixelAlignmentMode.On
            then dev.pixelAlligned_CGPoint (CGPointFromCPoint pt) else CGPointFromCPoint pt).x
          (if dev.pixelAlignmentMode = PixelAlignmentMode.On
            then dev.pixelAlligned_CGPoint (CGPointFromCPoint pt) else CGPointFromCPoint pt).y) ++
        [Call.CGContextDrawPath (drawStyleToCGPathDrawingMode drawStyle)]) := by
  have e1 : ∀ (x : CoreGraphicsDrawDevice) p,
      (x.call .CGContextBeginPath).pixelAlligned_CGPoint p = x.pixelAlligned_CGPoint p :=
    fun x => pixelAlligned_CGPoint_congr (dev_call_inert x _ (fun _ => rfl))
  have e2 : ∀ (x : CoreGraphicsDrawDevice) a b p,
      (x.call (.CGContextMoveToPoint a b)).pixelAlligned_CGPoint p
        = x.pixelAlligned_CGPoint p :=
    fun x a b => pixelAlligned_CGPoint_congr (dev_call_inert x _ (fun _ => rfl))
  have em : ∀ (x : CoreGraphicsDrawDevice) c, (x.call c).pixelAlignmentMode
      = x.pixelAlignmentMode := fun _ _ => rfl
  unfold drawPolygon
  simp only [List.headD_cons, List.drop_succ_cons, List.drop_zero, em, e1, e2]
  have h := foldl_addLine rest ((dev.call .CGContextBeginPath).call
    (.CGContextMoveToPoint
      (if dev.pixelAlignmentMode = PixelAlignmentMode.On
        then dev.pixelAlligned_CGPoint (CGPointFromCPoint first) else CGPointFromCPoint first).x
      (if dev.pixelAlignmentMode = PixelAlignmentMode.On
        then dev.pixelAlligned_CGPoint (CGPointFromCPoint first)
        else CGPointFromCPoint first).y))
  simp only [em, e1, e2] at h
  simp only [List.cons_append, List.nil_append]
  refine Issues.dev_cons (Issues.dev_cons (Issues.dev_trans h ?_))
  exact Issues.dev_cons (Issues.dev_refl _)

end Platform.CoreGraphicsDrawDevice

namespace CGDrawContext

theorem call_inert_pixelAlligned_CGPoint (x : CGDrawContext) (c : Call) (hc : c.inert)
    (p : CGPoint) : (x.call c).pixelAlligned_CGPoint p = x.pixelAlligned_CGPoint p :=
  pixelAlligned_CGPoint_of_cgContext (call_inert x c hc) p

theorem calls_inert_pixelAlligned_CGPoint (x : CGDrawContext) (cs : List Call)
    (hc : ∀ c ∈ cs, c.inert) (p : CGPoint) :
    (x.calls cs).pixelAlligned_CGPoint p = x.pixelAlligned_CGPoint p :=
  pixelAlligned_CGPoint_of_cgContext (calls_inert_cgContext x cs hc) p

theorem calls_inert_pixelAlligned_CGRect (x : CGDrawContext) (cs : List Call)
    (hc : ∀ c ∈ cs, c.inert) (r : CGRect) :
    (x.calls cs).pixelAlligned_CGRect r = x.pixelAlligned_CGRect r :=
  pixelAlligned_CGRect_of_cgContext (calls_inert_cgContext x cs hc) r

theorem foldl_addLine_eq (pts : PointList) :
    ∀ x : CGDrawContext,
      pts.foldl
          (fun (self : CGDrawContext) pt =>
            let p := CGPointFromCPoint pt
            let p := if self.getDrawMode.integralMode then self.pixelAlligned_CGPoint p else p
            self.call (.CGContextAddLineToPoint p.x p.y))
          x
        = x.calls (pts.map (fun pt => Call.CGContextAddLineToPoint
          (if x.getDrawMode.integralMode
            then x.pixelAlligned_CGPoint (CGPointFromCPoint pt) else CGPointFromCPoint pt).x
          (if x.getDrawMode.integralMode
            then x.pixelAlligned_CGPoint (CGPointFromCPoint pt) else CGPointFromCPoint pt).y)) := by
  induction pts with
  | nil => intro x; rfl
  | cons pt pts ih =>
    intro x
    simp only [List.foldl_cons, List.map_cons, calls_cons]
    rw [ih]
    have em : ∀ c, (x.call c).getDrawMode = x.getDrawMode := fun _ => rfl
    have e : ∀ a b p, (x.call (.CGContextAddLineToPoint a b)).pixelAlligned_CGPoint p
        = x.pixelAlligned_CGPoint p :=
      fun a b => call_inert_pixelAlligned_CGPoint x _ (fun _ => rfl)
    simp only [em, e]

theorem drawPolygon_eq (s : CGDrawContext) (first : CPoint) (rest : PointList)
    (drawStyle : CDrawStyle) (k : CGContext) (hk : s.cgContext = some k)
    (hclip : s.getCurrentState.clipRect.isEmpty = false) :
    s.drawPolygon (first :: rest) drawStyle =
      s.calls (s.beginCalls true s.getDrawMode.integralMode ++ s.lineStyleCalls ++
        [Call.CGContextBeginPath,
          Call.CGContextMoveToPoint
            (if s.getDrawMode.integralMode
              then (s.beginCGContext true s.getDrawMode.integralMode).2.pixelAlligned_CGPoint
                (CGPointFromCPoint first)
              else CGPointFromCPoint first).x
            (if s.getDrawMode.integralMode
              then (s.beginCGContext true s.getDrawMode.integralMode).2.pixelAlligned_CGPoint
                (CGPointFromCPoint first)
              else CGPointFromCPoint first).y] ++
        rest.map (fun pt => Call.CGContextAddLineToPoint
          (if s.getDrawMode.integralMode
            then (s.beginCGContext true s.getDrawMode.integralMode).2.pixelAlligned_CGPoint
              (CGPointFromCPoint pt)
            else CGPointFromCPoint pt).x
          (if s.getDrawMode.integralMode
            then (s.beginCGContext true s.getDrawMode.integralMode).2.pixelAlligned_CGPoint
              (CGPointFromCPoint pt)
            else CGPointFromCPoint pt).y) ++
        [Call.CGContextDrawPath (drawStyleSwitch drawStyle), Call.CGContextRestoreGState]) := by
  unfold drawPolygon
  rw [beginCGContext_eq s true _ k hk hclip]
  have hl : ¬ (first :: rest).length = 0 := by simp
  simp only [hl, if_false, if_true, List.headD_cons, List.drop_succ_cons, List.drop_zero,
    foldl_addLine_eq]
  simp only [applyLineStyle_eq, lineStyleCalls_calls, releaseCGContext, call_eq_calls,
    calls_calls, calls_getDrawMode, if_true]
  have e : ∀ p, (s.calls (s.beginCalls true s.getDrawMode.integralMode ++
      (s.lineStyleCalls ++ [Call.CGContextBeginPath]))).pixelAlligned_CGPoint p
      = (s.calls (s.beginCalls true s.getDrawMode.integralMode)).pixelAlligned_CGPoint p := by
    intro p
    rw [← calls_calls]
    apply calls_inert_pixelAlligned_CGPoint
    intro c hc
    rcases List.mem_append.mp hc with hc | hc
    · exact lineStyleCalls_inert s c hc
    · simp only [List.mem_singleton] at hc
      subst hc
      exact fun _ => rfl
  have e2 : ∀ (a b : CGFloat) p, (s.calls (s.beginCalls true s.getDrawMode.integralMode ++
      (s.lineStyleCalls ++ [Call.CGContextBeginPath,
        Call.CGContextMoveToPoint a b]))).pixelAlligned_CGPoint p
      = (s.calls (s.beginCalls true s.getDrawMode.integralMode)).pixelAlligned_CGPoint p := by
    intro a b p
    rw [← calls_calls]
    apply calls_inert_pixelAlligned_CGPoint
    intro c hc
    rcases List.mem_append.mp hc with hc | hc
    · exact lineStyleCalls_inert s c hc
    · simp only [List.mem_cons, List.mem_singleton, List.not_mem_nil, or_false] at hc
      rcases hc with hc | hc <;> subst hc <;> exact fun _ => rfl
  simp only [e, e2, calls_calls, List.append_assoc, List.cons_append, List.nil_append]

end CGDrawContext


namespace CGDrawContext

theorem beginCalls_kinds (s : CGDrawContext) (a b : Bool) :
    ∀ c ∈ s.beginCalls a b, c.isTranslate = false ∧ c.isStroke = false ∧
      c.isRestore = false ∧ c.isDrawTiledImage = false ∧ c.isBaseFill = false := by
  intro c hc
  unfold beginCalls at hc
  simp only [List.mem_append, List.mem_cons, List.not_mem_nil, or_false] at hc
  rcases hc with ((hc | hc) | hc) | hc
  · subst hc; exact ⟨rfl, rfl, rfl, rfl, rfl⟩
  · subst hc; exact ⟨rfl, rfl, rfl, rfl, rfl⟩
  · split at hc
    · simp only [List.mem_singleton] at hc
      subst hc; exact ⟨rfl, rfl, rfl, rfl, rfl⟩
    · simp at hc
  · split at hc
    · simp at hc
    · simp only [List.mem_singleton] at hc
      subst hc; exact ⟨rfl, rfl, rfl, rfl, rfl⟩

theorem lineStyleCalls_kinds (s : CGDrawContext) :
    ∀ c ∈ s.lineStyleCalls, c.isTranslate = false ∧ c.isStroke = false ∧
      c.isRestore = false ∧ c.isDrawTiledImage = false ∧ c.isBaseFill = false := by
  intro c hc
  unfold lineStyleCalls at hc
  simp only [List.mem_append, List.mem_cons, List.not_mem_nil, or_false] at hc
  rcases hc with (hc | hc) | hc
  · subst hc; exact ⟨rfl, rfl, rfl, rfl, rfl⟩
  · subst hc; exact ⟨rfl, rfl, rfl, rfl, rfl⟩
  · split at hc
    · simp only [List.mem_singleton] at hc
      subst hc; exact ⟨rfl, rfl, rfl, rfl, rfl⟩
    · simp at hc

theorem beginCalls_countP_isTranslate (s : CGDrawContext) (a b : Bool) :
    (s.beginCalls a b).countP Call.isTranslate = 0 := by
  rw [List.countP_eq_zero]
  intro c hc
  simp [(beginCalls_kinds s a b c hc).1]

theorem lineStyleCalls_countP_isTranslate (s : CGDrawContext) :
    s.lineStyleCalls.countP Call.isTranslate = 0 := by
  rw [List.countP_eq_zero]
  intro c hc
  simp [(lineStyleCalls_kinds s c hc).1]

theorem beginCalls_countP_isStroke (s : CGDrawContext) (a b : Bool) :
    (s.beginCalls a b).countP Call.isStroke = 0 := by
  rw [List.countP_eq_zero]
  intro c hc
  simp [(beginCalls_kinds s a b c hc).2.1]

theorem lineStyleCalls_countP_isStroke (s : CGDrawContext) :
    s.lineStyleCalls.countP Call.isStroke = 0 := by
  rw [List.countP_eq_zero]
  intro c hc
  simp [(lineStyleCalls_kinds s c hc).2.1]

end CGDrawContext

theorem countP_map_addLine (f g : CPoint → CGFloat) (p : Call → Bool)
    (hp : ∀ x y, p (.CGContextAddLineToPoint x y) = false) (pts : PointList) :
    (pts.map (fun pt => Call.CGContextAddLineToPoint (f pt) (g pt))).countP p = 0 := by
  rw [List.countP_eq_zero]
  intro c hc
  obtain ⟨pt, _, rfl⟩ := List.mem_map.mp hc
  simp [hp]

/-- C20: for a point list of `n >= 1` points (fewer than `2 ^ 32`, the range of the loop
counter), `drawPolygon` of both classes issues one `CGContextBeginPath`, one
`CGContextMoveToPoint` to the first point, one `CGContextAddLineToPoint` for each of the
points `2..n` in list order and one `CGContextDrawPath`; each point is pixel-aligned exactly
when the alignment mode (integral mode) is on, for the transformation matrix at entry of the
device and after `beginCGContext` of the context; no translation of the CTM is issued.  The
context brackets these calls by the calls of `beginCGContext`, those of `applyLineStyle`
and the closing `CGContextRestoreGState`.  For an empty list `CGDrawContext::drawPolygon`
and `CGDrawContext::drawLines` return the state unchanged: nothing is issued. -/
theorem drawPolygon_path_construction (dev : CoreGraphicsDrawDevice) (self : CGDrawContext)
    (first : CPoint) (rest : PointList) (style : DrawStyle) (drawStyle : CDrawStyle)
    (k : CGContext) (_hsize : (first :: rest).length < 2 ^ 32)
    (hk : self.cgContext = some k) (hclip : self.getCurrentState.clipRect.isEmpty = false) :
    let alignDev := fun (pt : CPoint) =>
      if dev.pixelAlignmentMode = PixelAlignmentMode.On
        then dev.pixelAlligned_CGPoint (CGPointFromCPoint pt) else CGPointFromCPoint pt
    let begun := (self.beginCGContext true self.getDrawMode.integralMode).2
    let align := fun (pt : CPoint) =>
      if self.getDrawMode.integralMode
        then begun.pixelAlligned_CGPoint (CGPointFromCPoint pt) else CGPointFromCPoint pt
    (dev.drawPolygon (first :: rest) style).log =
      dev.log ++
        [Call.CGContextBeginPath,
          Call.CGContextMoveToPoint (alignDev first).x (alignDev first).y] ++
        rest.map (fun pt => Call.CGContextAddLineToPoint (alignDev pt).x (alignDev pt).y) ++
        [Call.CGContextDrawPath (drawStyleToCGPathDrawingMode style)] ∧
    (self.drawPolygon (first :: rest) drawStyle).log =
      self.log ++ self.beginCalls true self.getDrawMode.integralMode ++
        self.lineStyleCalls ++
        [Call.CGContextBeginPath, Call.CGContextMoveToPoint (align first).x (align first).y] ++
        rest.map (fun pt => Call.CGContextAddLineToPoint (align pt).x (align pt).y) ++
        [Call.CGContextDrawPath (CGDrawContext.drawStyleSwitch drawStyle),
          Call.CGContextRestoreGState] ∧
    ((dev.drawPolygon (first :: rest) style).log.drop dev.log.length).countP
      Call.isTranslate = 0 ∧
    (self.issuedSince (self.drawPolygon (first :: rest) drawStyle)).countP
      Call.isTranslate = 0 ∧
    self.drawPolygon [] drawStyle = self ∧ self.drawLines [] = self := by
  intro alignDev begun align
  have hd := (CoreGraphicsDrawDevice.drawPolygon_issues dev first rest style).1
  have hc := CGDrawContext.drawPolygon_eq self first rest drawStyle k hk hclip
  refine ⟨?_, ?_, ?_, ?_, rfl, rfl⟩
  · rw [hd]
    simp only [List.append_assoc, alignDev]
  · rw [hc, CGDrawContext.calls_log]
    simp only [List.append_assoc, align, begun]
  · rw [hd]
    simp only [List.drop_left, List.countP_append, List.countP_cons, List.countP_nil,
      Call.isTranslate]
    rw [countP_map_addLine _ _ _ (fun _ _ => rfl)]
    simp
  · rw [hc, CGDrawContext.calls_issuedSince]
    simp only [List.countP_append, List.countP_cons, List.countP_nil, Call.isTranslate,
      CGDrawContext.beginCalls_countP_isTranslate,
      CGDrawContext.lineStyleCalls_countP_isTranslate]
    rw [countP_map_addLine _ _ _ (fun _ _ => rfl)]
    simp

/-- Witness of C20: a triangle on the sample device and the sample context. -/
theorem drawPolygon_path_construction_witness :
    ((sampleDevice.drawPolygon samplePolygon .Stroked).log.drop
      sampleDevice.log.length).countP Call.isTranslate = 0 ∧
    (sampleContext.issuedSince (sampleContext.drawPolygon samplePolygon kDrawStroked)).countP
      Call.isTranslate = 0 :=
  ⟨(drawPolygon_path_construction sampleDevice sampleContext ⟨0, 0⟩ [⟨10, 1 / 3⟩, ⟨5, 8⟩]
      .Stroked kDrawStroked sampleInitialised (by decide) sampleContext_cgContext
      sampleContext_clip).2.2.1,
    (drawPolygon_path_construction sampleDevice sampleContext ⟨0, 0⟩ [⟨10, 1 / 3⟩, ⟨5, 8⟩]
      .Stroked kDrawStroked sampleInitialised (by decide) sampleContext_cgContext
      sampleContext_clip).2.2.2.1⟩

theorem static_cast_int32_intCast (n : ℤ) : static_cast_int32 (n : ℚ) = n := by
  unfold static_cast_int32
  split <;> simp

theorem tmod_two_ne_zero_iff (n : ℤ) : n.tmod 2 ≠ 0 ↔ Odd n := by
  rw [← Int.not_even_iff_odd, even_iff_two_dvd]
  constructor
  · intro h hd
    exact h (Int.tmod_eq_zero_of_dvd hd)
  · intro h hz
    exact h (Int.dvd_of_tmod_eq_zero hz)

theorem lineWidthTest_iff (w : CCoord) : lineWidthTest w = true ↔ IsOddWhole w := by
  unfold lineWidthTest IsOddWhole
  rw [decide_eq_true_iff]
  constructor
  · rintro ⟨h1, h2⟩
    exact ⟨static_cast_int32 w, h1, (tmod_two_ne_zero_iff _).mp h2⟩
  · rintro ⟨n, rfl, hn⟩
    rw [static_cast_int32_intCast]
    exact ⟨rfl, (tmod_two_ne_zero_iff _).mpr hn⟩

theorem needLineWidthCTM_eq (dev : CoreGraphicsDrawDevice) :
    dev.needLineWidthCTM = lineWidthTest dev.lineWidth := by
  unfold CoreGraphicsDrawDevice.needLineWidthCTM lineWidthTest
  by_cases h : ((static_cast_int32 dev.lineWidth : ℤ) : CCoord) = dev.lineWidth ∧
      (static_cast_int32 dev.lineWidth).tmod 2 ≠ 0
  · simp only [h, and_self, if_true, decide_True, ne_eq, not_false_eq_true]
  · simp only [h, if_false, decide_False]

theorem applyLineWidthCTM_eq (s : CGDrawContext) :
    s.applyLineWidthCTM = s.calls
      (if lineWidthTest s.getCurrentState.frameWidth
        then [Call.CGContextTranslateCTM (1 / 2) (1 / 2)] else []) := by
  unfold CGDrawContext.applyLineWidthCTM lineWidthTest
  by_cases h : ((static_cast_int32 s.getCurrentState.frameWidth : ℤ) : CCoord)
      = s.getCurrentState.frameWidth ∧
      (static_cast_int32 s.getCurrentState.frameWidth).tmod 2 ≠ 0
  · simp only [h, and_self, if_true, decide_True, ne_eq, not_false_eq_true]
    rfl
  · simp only [h, if_false, decide_False, Bool.false_eq_true]
    rfl

/-- C12: for every line width `w` with `|w| < 2 ^ 31`, `needLineWidthCTM` returns true
exactly when `w` is a whole number and odd (negative odd numbers included), hence false for
even whole numbers, for zero and for every width that is not whole; `applyLineWidthCTM`
issues the single call `CGContextTranslateCTM (0.5, 0.5)` exactly when the current frame
width is whole and odd, and otherwise leaves the state unchanged, issuing nothing. -/
theorem lineWidthCTM_odd_whole (dev : CoreGraphicsDrawDevice) (self : CGDrawContext)
    (_hw : |dev.lineWidth| < 2 ^ 31) (_hf : |self.getCurrentState.frameWidth| < 2 ^ 31) :
    (dev.needLineWidthCTM = true ↔ ∃ n : ℤ, (n : CCoord) = dev.lineWidth ∧ Odd n) ∧
    ((∃ n : ℤ, (n : CCoord) = dev.lineWidth ∧ Even n) → dev.needLineWidthCTM = false) ∧
    (dev.lineWidth = 0 → dev.needLineWidthCTM = false) ∧
    ((¬ ∃ n : ℤ, (n : CCoord) = dev.lineWidth) → dev.needLineWidthCTM = false) ∧
    ((∃ n : ℤ, (n : CCoord) = self.getCurrentState.frameWidth ∧ Odd n) →
      self.applyLineWidthCTM = self.call (.CGContextTranslateCTM (1 / 2) (1 / 2))) ∧
    ((¬ ∃ n : ℤ, (n : CCoord) = self.getCurrentState.frameWidth ∧ Odd n) →
      self.applyLineWidthCTM = self) := by
  have hiff : dev.needLineWidthCTM = true ↔ ∃ n : ℤ, (n : CCoord) = dev.lineWidth ∧ Odd n := by
    rw [needLineWidthCTM_eq]
    exact lineWidthTest_iff _
  have hnot : (¬ ∃ n : ℤ, (n : CCoord) = dev.lineWidth ∧ Odd n) →
      dev.needLineWidthCTM = false := by
    intro h
    cases hb : dev.needLineWidthCTM with
    | false => rfl
    | true => exact absurd (hiff.mp hb) h
  refine ⟨hiff, ?_, ?_, ?_, ?_, ?_⟩
  · rintro ⟨n, hn, he⟩
    apply hnot
    rintro ⟨m, hm, ho⟩
    have : n = m := by exact_mod_cast hn.trans hm.symm
    subst this
    exact (Int.not_even_iff_odd.mpr ho) he
  · intro h0
    apply hnot
    rintro ⟨m, hm, ho⟩
    rw [h0] at hm
    have : m = 0 := by exact_mod_cast hm
    subst this
    simp at ho
  · intro h
    apply hnot
    rintro ⟨m, hm, _⟩
    exact h ⟨m, hm⟩
  · intro h
    rw [applyLineWidthCTM_eq, if_pos ((lineWidthTest_iff _).mpr h)]
    rfl
  · intro h
    have hb : lineWidthTest self.getCurrentState.frameWidth = false := by
      cases hb : lineWidthTest self.getCurrentState.frameWidth with
      | false => rfl
      | true => exact absurd ((lineWidthTest_iff _).mp hb) h
    rw [applyLineWidthCTM_eq, hb]
    rfl

theorem sampleDevice_lineWidth : sampleDevice.lineWidth = 1 := rfl

theorem sampleContext_frameWidth : sampleContext.getCurrentState.frameWidth = 1 := rfl

/-- Witness of C12: the sample device and the sample context have the line width 1. -/
theorem lineWidthCTM_odd_whole_witness :
    sampleDevice.needLineWidthCTM = true ∧
    sampleContext.applyLineWidthCTM
      = sampleContext.call (.CGContextTranslateCTM (1 / 2) (1 / 2)) :=
  ⟨(lineWidthCTM_odd_whole sampleDevice sampleContext
      (by rw [sampleDevice_lineWidth]; norm_num)
      (by rw [sampleContext_frameWidth]; norm_num)).1.mpr
      ⟨1, by rw [sampleDevice_lineWidth]; norm_num, by decide⟩,
    (lineWidthCTM_odd_whole sampleDevice sampleContext
      (by rw [sampleDevice_lineWidth]; norm_num)
      (by rw [sampleContext_frameWidth]; norm_num)).2.2.2.2.1
      ⟨1, by rw [sampleContext_frameWidth]; norm_num, by decide⟩⟩

theorem foldl_append_flatMap {α β : Type} (g : α → List β) (l : List α) :
    ∀ init : List β, l.foldl (fun acc a => acc ++ g a) init = init ++ l.flatMap g := by
  induction l with
  | nil => intro init; simp
  | cons a l ih => intro init; simp [ih, List.append_assoc]

theorem fillPoints_eq (f : CGPoint → CGPoint) (lines : LineList) :
    CoreGraphicsDrawDevice.fillPoints f lines =
      lines.flatMap (fun line =>
        [f (CGPointFromCPoint line.first), f (CGPointFromCPoint line.second)]) := by
  unfold CoreGraphicsDrawDevice.fillPoints
  rw [foldl_append_flatMap]
  simp

theorem fillPoints_length (f : CGPoint → CGPoint) (lines : LineList) :
    (CoreGraphicsDrawDevice.fillPoints f lines).length = lines.length * 2 := by
  rw [fillPoints_eq]
  induction lines with
  | nil => rfl
  | cons a l ih => simp [List.flatMap_cons, ih]; omega

theorem chunks_ceil (m : ℕ) : ⌈((m : ℕ) : ℚ) / 16⌉₊ = (m + 15) / 16 := by
  rcases Nat.eq_zero_or_pos m with h | h
  · subst h; simp
  · have hne : (m + 15) / 16 ≠ 0 := by omega
    rw [Nat.ceil_eq_iff hne]
    constructor
    · rw [lt_div_iff₀ (by norm_num)]
      have : ((m + 15) / 16 - 1) * 16 < m := by omega
      exact_mod_cast this
    · rw [div_le_iff₀ (by norm_num)]
      have : m ≤ (m + 15) / 16 * 16 := by omega
      exact_mod_cast this

namespace Platform.CoreGraphicsDrawDevice

theorem strokeLoop_chunks (numPoints : Nat) :
    ∀ (pointPtr : List CGPoint) (s : CoreGraphicsDrawDevice),
      pointPtr.length = numPoints → numPoints % 2 = 0 →
      ∃ strokes : List Call,
        s.Issues (s.strokeLoop pointPtr numPoints) strokes ∧
        strokes.length = (numPoints + 15) / 16 ∧
        (∀ c ∈ strokes, c.isStroke = true ∧ c.strokeCount = c.strokePoints.length ∧
          0 < c.strokeCount ∧ c.strokeCount ≤ 16 ∧ c.strokeCount % 2 = 0) ∧
        strokes.flatMap Call.strokePoints = pointPtr := by
  induction numPoints using Nat.strong_induction_on with
  | _ n ih =>
    intro pointPtr s hlen heven
    unfold strokeLoop
    split
    · rename_i hn
      subst hn
      refine ⟨[], Issues.dev_refl s, by simp, by simp, ?_⟩
      simp [List.length_eq_zero.mp hlen]
    · rename_i hn
      simp only []
      obtain ⟨rest, h1, h2, h3, h4⟩ := ih (n - min n (min 16 n)) (by omega)
        (pointPtr.drop (min n (min 16 n)))
        (s.call (.CGContextStrokeLineSegments (pointPtr.take (min n (min 16 n)))
          (min n (min 16 n))))
        (by rw [List.length_drop, hlen]) (by omega)
      refine ⟨Call.CGContextStrokeLineSegments (pointPtr.take (min n (min 16 n)))
        (min n (min 16 n)) :: rest, Issues.dev_cons h1, ?_, ?_, ?_⟩
      · rw [List.length_cons, h2]
        omega
      · intro c hc
        rcases List.mem_cons.mp hc with hc | hc
        · subst hc
          simp only [Call.isStroke, Call.strokeCount, Call.strokePoints, List.length_take,
            hlen, true_and]
          omega
        · exact h3 c hc
      · rw [List.flatMap_cons, h4]
        simp only [Call.strokePoints]
        exact List.take_append_drop _ _

end Platform.CoreGraphicsDrawDevice

namespace CGDrawContext

theorem strokeLoop_chunks_eq (numPoints : Nat) :
    ∀ (pointPtr : List CGPoint) (s : CGDrawContext),
      pointPtr.length = numPoints → numPoints % 2 = 0 →
      ∃ strokes : List Call,
        s.strokeLoop pointPtr numPoints = s.calls strokes ∧
        strokes.length = (numPoints + 15) / 16 ∧
        (∀ c ∈ strokes, c.isStroke = true ∧ c.strokeCount = c.strokePoints.length ∧
          0 < c.strokeCount ∧ c.strokeCount ≤ 16 ∧ c.strokeCount % 2 = 0) ∧
        strokes.flatMap Call.strokePoints = pointPtr := by
  induction numPoints using Nat.strong_induction_on with
  | _ n ih =>
    intro pointPtr s hlen heven
    unfold strokeLoop
    split
    · rename_i hn
      subst hn
      refine ⟨[], rfl, by simp, by simp, ?_⟩
      simp [List.length_eq_zero.mp hlen]
    · rename_i hn
      simp only []
      obtain ⟨rest, h1, h2, h3, h4⟩ := ih (n - min n (min 16 n)) (by omega)
        (pointPtr.drop (min n (min 16 n)))
        (s.call (.CGContextStrokeLineSegments (pointPtr.take (min n (min 16 n)))
          (min n (min 16 n))))
        (by rw [List.length_drop, hlen]) (by omega)
      refine ⟨Call.CGContextStrokeLineSegments (pointPtr.take (min n (min 16 n)))
        (min n (min 16 n)) :: rest, ?_, ?_, ?_, ?_⟩
      · rw [h1]; rfl
      · rw [List.length_cons, h2]
        omega
      · intro c hc
        rcases List.mem_cons.mp hc with hc | hc
        · subst hc
          simp only [Call.isStroke, Call.strokeCount, Call.strokePoints, List.length_take,
            hlen, true_and]
          omega
        · exact h3 c hc
      · rw [List.flatMap_cons, h4]
        simp only [Call.strokePoints]
        exact List.take_append_drop _ _

theorem drawLines_form (s : CGDrawContext) (lines : LineList) (k : CGContext)
    (hne : lines ≠ []) (hk : s.cgContext = some k)
    (hclip : s.getCurrentState.clipRect.isEmpty = false) :
    s.drawLines lines =
      ((s.calls (s.beginCalls true s.getDrawMode.integralMode ++ s.lineStyleCalls ++
          (if s.getDrawMode.integralMode && lineWidthTest s.getCurrentState.frameWidth
            then [Call.CGContextTranslateCTM (1 / 2) (1 / 2)] else []))).strokeLoop
        (Platform.CoreGraphicsDrawDevice.fillPoints
          (fun p => if s.getDrawMode.integralMode
            then (s.beginCGContext true s.getDrawMode.integralMode).2.pixelAlligned_CGPoint p
            else p) lines)
        (lines.length * 2)).calls [Call.CGContextRestoreGState] := by
  have hl : ¬ lines.length = 0 := by
    intro h
    exact hne (List.length_eq_zero.mp h)
  unfold drawLines
  rw [beginCGContext_eq s true _ k hk hclip]
  simp only [hl, if_false, if_true, applyLineStyle_eq, lineStyleCalls_calls, releaseCGContext,
    calls_calls, calls_getDrawMode, calls_getCurrentState, applyLineWidthCTM_eq]
  have e : ∀ p, (s.calls (s.beginCalls true s.getDrawMode.integralMode ++
      s.lineStyleCalls)).pixelAlligned_CGPoint p
      = (s.calls (s.beginCalls true s.getDrawMode.integralMode)).pixelAlligned_CGPoint p := by
    intro p
    rw [← calls_calls]
    exact calls_inert_pixelAlligned_CGPoint _ _ (lineStyleCalls_inert s) p
  simp only [e]
  cases hi : s.getDrawMode.integralMode <;>
    simp only [if_true, if_false, Bool.false_eq_true, Bool.true_and, Bool.false_and,
      List.append_nil, call_eq_calls]

end CGDrawContext

theorem countP_isStroke_of_all (strokes : List Call) (h : ∀ c ∈ strokes, c.isStroke = true) :
    strokes.countP Call.isStroke = strokes.length := by
  rw [List.countP_eq_length]
  exact h

/-- C13: for a non-empty list of `n` lines (fewer than `2 ^ 31`, the range of the 32-bit
index of the point array), `drawLines` of both classes passes the `2 n` end points on in
exactly `ceil (2 n / 16)` calls of `CGContextStrokeLineSegments` (the loop is a total
function); each call gets a positive even number of points, at most 16, and as many points
as its count says; the points of the calls put one after the other in call order are the
point array `[l1.first, l1.second, ..., ln.first, ln.second]` (each point converted and, in
alignment mode, pixel-aligned).  The device issues the half-pixel translation and its
inverse around these calls when it needs it; the context issues them after the calls of
`beginCGContext`, those of `applyLineStyle` and the translation, and closes with
`CGContextRestoreGState`. -/
theorem drawLines_chunking (dev : CoreGraphicsDrawDevice) (self : CGDrawContext)
    (lines : LineList) (k : CGContext) (hne : lines ≠ []) (_hsize : lines.length < 2 ^ 31)
    (hk : self.cgContext = some k) (hclip : self.getCurrentState.clipRect.isEmpty = false) :
    let alignDev := fun (p : CPoint) =>
      if dev.pixelAlignmentMode = PixelAlignmentMode.On
        then dev.pixelAlligned_CGPoint (CGPointFromCPoint p) else CGPointFromCPoint p
    let flag := decide (dev.pixelAlignmentMode = PixelAlignmentMode.On) && dev.needLineWidthCTM
    let begun := (self.beginCGContext true self.getDrawMode.integralMode).2
    let align := fun (p : CPoint) =>
      if self.getDrawMode.integralMode
        then begun.pixelAlligned_CGPoint (CGPointFromCPoint p) else CGPointFromCPoint p
    let chunked := fun (strokes : List Call) =>
      strokes.length = ⌈((2 * lines.length : ℕ) : ℚ) / 16⌉₊ ∧
      ∀ c ∈ strokes, c.isStroke = true ∧ c.strokePoints.length = c.strokeCount ∧
        0 < c.strokeCount ∧ c.strokeCount ≤ 16 ∧ Even c.strokeCount
    (∃ strokes : List Call,
      (dev.drawLines lines).log =
        dev.log ++ (if flag then [Call.CGContextTranslateCTM (1 / 2) (1 / 2)] else []) ++
          strokes ++
          (if flag then [Call.CGContextTranslateCTM (-(1 / 2)) (-(1 / 2))] else []) ∧
      chunked strokes ∧
      strokes.flatMap Call.strokePoints =
        lines.flatMap (fun l => [alignDev l.first, alignDev l.second])) ∧
    ((dev.drawLines lines).log.drop dev.log.length).countP Call.isStroke =
      ⌈((2 * lines.length : ℕ) : ℚ) / 16⌉₊ ∧
    (∃ strokes : List Call,
      (self.drawLines lines).log =
        self.log ++ self.beginCalls true self.getDrawMode.integralMode ++
          self.lineStyleCalls ++
          (if self.getDrawMode.integralMode && lineWidthTest self.getCurrentState.frameWidth
            then [Call.CGContextTranslateCTM (1 / 2) (1 / 2)] else []) ++
          strokes ++ [Call.CGContextRestoreGState] ∧
      chunked strokes ∧
      strokes.flatMap Call.strokePoints =
        lines.flatMap (fun l => [align l.first, align l.second])) ∧
    (self.issuedSince (self.drawLines lines)).countP Call.isStroke =
      ⌈((2 * lines.length : ℕ) : ℚ) / 16⌉₊ := by
  intro alignDev flag begun align chunked
  have hceil : ⌈((2 * lines.length : ℕ) : ℚ) / 16⌉₊ = (lines.length * 2 + 15) / 16 := by
    rw [chunks_ceil]
    congr 2
    omega
  -- the device
  have hdev : ∃ strokes : List Call,
      dev.Issues (dev.drawLines lines)
        ((if flag then [Call.CGContextTranslateCTM (1 / 2) (1 / 2)] else []) ++ strokes ++
          (if flag then [Call.CGContextTranslateCTM (-(1 / 2)) (-(1 / 2))] else [])) ∧
      strokes.length = (lines.length * 2 + 15) / 16 ∧
      (∀ c ∈ strokes, c.isStroke = true ∧ c.strokeCount = c.strokePoints.length ∧
          0 < c.strokeCount ∧ c.strokeCount ≤ 16 ∧ c.strokeCount % 2 = 0) ∧
      strokes.flatMap Call.strokePoints =
        CoreGraphicsDrawDevice.fillPoints (fun p =>
          if dev.pixelAlignmentMode = PixelAlignmentMode.On
            then dev.pixelAlligned_CGPoint p else p) lines := by
    have hpts : (if dev.pixelAlignmentMode = PixelAlignmentMode.On
        then CoreGraphicsDrawDevice.fillPoints (fun p => dev.pixelAlligned_CGPoint p) lines
        else CoreGraphicsDrawDevice.fillPoints (fun p => p) lines)
        = CoreGraphicsDrawDevice.fillPoints (fun p =>
          if dev.pixelAlignmentMode = PixelAlignmentMode.On
            then dev.pixelAlligned_CGPoint p else p) lines := by
      by_cases hm : dev.pixelAlignmentMode = PixelAlignmentMode.On
      · simp only [hm, if_true]
      · simp only [hm, if_false]
    unfold CoreGraphicsDrawDevice.drawLines
    simp only [hpts]
    cases hf : flag
    · have hf' : (decide (dev.pixelAlignmentMode = PixelAlignmentMode.On) &&
          dev.needLineWidthCTM) = false := hf
      simp only [hf', Bool.false_eq_true, if_false, List.nil_append, List.append_nil]
      exact CoreGraphicsDrawDevice.strokeLoop_chunks (lines.length * 2) _ dev
        (fillPoints_length _ _) (by omega)
    · have hf' : (decide (dev.pixelAlignmentMode = PixelAlignmentMode.On) &&
          dev.needLineWidthCTM) = true := hf
      simp only [hf', if_true, CoreGraphicsDrawDevice.applyLineWidthCTM,
        CoreGraphicsDrawDevice.restoreLineWidthCTM]
      obtain ⟨strokes, h1, h2⟩ := CoreGraphicsDrawDevice.strokeLoop_chunks (lines.length * 2)
        (CoreGraphicsDrawDevice.fillPoints (fun p =>
          if dev.pixelAlignmentMode = PixelAlignmentMode.On
            then dev.pixelAlligned_CGPoint p else p) lines)
        (dev.call (.CGContextTranslateCTM (1 / 2) (1 / 2)))
        (fillPoints_length _ _) (by omega)
      refine ⟨strokes, ?_, h2⟩
      have h3 : (dev.call (.CGContextTranslateCTM (1 / 2) (1 / 2))).Issues _
          (strokes ++ [Call.CGContextTranslateCTM (-(1 / 2)) (-(1 / 2))]) :=
        CoreGraphicsDrawDevice.Issues.dev_trans h1
          (CoreGraphicsDrawDevice.Issues.dev_cons (CoreGraphicsDrawDevice.Issues.dev_refl _))
      simpa using CoreGraphicsDrawDevice.Issues.dev_cons h3
  -- the context
  have hctx := CGDrawContext.drawLines_form self lines k hne hk hclip
  obtain ⟨cstrokes, c1, c2, c3, c4⟩ := CGDrawContext.strokeLoop_chunks_eq (lines.length * 2)
    (CoreGraphicsDrawDevice.fillPoints
      (fun p => if self.getDrawMode.integralMode
        then (self.beginCGContext true self.getDrawMode.integralMode).2.pixelAlligned_CGPoint p
        else p) lines)
    (self.calls (self.beginCalls true self.getDrawMode.integralMode ++ self.lineStyleCalls ++
      (if self.getDrawMode.integralMode && lineWidthTest self.getCurrentState.frameWidth
        then [Call.CGContextTranslateCTM (1 / 2) (1 / 2)] else [])))
    (fillPoints_length _ _) (by omega)
  rw [c1, CGDrawContext.calls_calls, CGDrawContext.calls_calls] at hctx
  obtain ⟨dstrokes, d1, d2, d3, d4⟩ := hdev
  have hconv : ∀ strokes : List Call,
      (∀ c ∈ strokes, c.isStroke = true ∧ c.strokeCount = c.strokePoints.length ∧
          0 < c.strokeCount ∧ c.strokeCount ≤ 16 ∧ c.strokeCount % 2 = 0) →
      ∀ c ∈ strokes, c.isStroke = true ∧ c.strokePoints.length = c.strokeCount ∧
        0 < c.strokeCount ∧ c.strokeCount ≤ 16 ∧ Even c.strokeCount := by
    intro strokes h c hc
    obtain ⟨a1, a2, a3, a4, a5⟩ := h c hc
    exact ⟨a1, a2.symm, a3, a4, Nat.even_iff.mpr a5⟩
  refine ⟨⟨dstrokes, ?_, ⟨?_, hconv _ d3⟩, ?_⟩, ?_, ⟨cstrokes, ?_, ⟨?_, hconv _ c3⟩, ?_⟩, ?_⟩
  · rw [d1.1]
    simp only [List.append_assoc]
  · rw [hceil, d2]
  · rw [d4, fillPoints_eq]
  · rw [d1.1, hceil]
    simp only [List.append_assoc, List.drop_left, List.countP_append,
      countP_isStroke_of_all _ (fun c hc => (d3 c hc).1), d2]
    cases flag <;> simp [Call.isStroke]
  · rw [hctx, CGDrawContext.calls_log]
    simp only [List.append_assoc]
  · rw [hceil, c2]
  · rw [c4, fillPoints_eq]
  · rw [hctx, CGDrawContext.calls_issuedSince, hceil]
    simp only [List.countP_append, CGDrawContext.beginCalls_countP_isStroke,
      CGDrawContext.lineStyleCalls_countP_isStroke,
      countP_isStroke_of_all _ (fun c hc => (c3 c hc).1), c2]
    cases (self.getDrawMode.integralMode && lineWidthTest self.getCurrentState.frameWidth) <;>
      simp [Call.isStroke]

theorem sampleLines_length : sampleLines.length = 9 := rfl

theorem sampleLines_ne : sampleLines ≠ [] := by
  simp [sampleLines, List.range_succ]

/-- Witness of C13: the 18 end points of the nine sample lines are passed on in two calls,
on the sample device and on the sample context. -/
theorem drawLines_chunking_witness :
    ((sampleDevice.drawLines sampleLines).log.drop sampleDevice.log.length).countP
      Call.isStroke = ⌈((2 * sampleLines.length : ℕ) : ℚ) / 16⌉₊ ∧
    (sampleContext.issuedSince (sampleContext.drawLines sampleLines)).countP Call.isStroke =
      ⌈((2 * sampleLines.length : ℕ) : ℚ) / 16⌉₊ :=
  ⟨(drawLines_chunking sampleDevice sampleContext sampleLines sampleInitialised
      sampleLines_ne (by rw [sampleLines_length]; decide) sampleContext_cgContext sampleContext_clip).2.1,
    (drawLines_chunking sampleDevice sampleContext sampleLines sampleInitialised
      sampleLines_ne (by rw [sampleLines_length]; decide) sampleContext_cgContext
      sampleContext_clip).2.2.2⟩

namespace CGDrawContext

theorem drawRect_eq (s : CGDrawContext) (rect : CRect) (drawStyle : CDrawStyle)
    (k : CGContext) (hk : s.cgContext = some k)
    (hclip : s.getCurrentState.clipRect.isEmpty = false) :
    s.drawRect rect drawStyle =
      s.calls (s.beginCalls true s.getDrawMode.integralMode ++ s.lineStyleCalls ++
        (if s.getDrawMode.integralMode && decide (drawStyle ≠ kDrawFilled) &&
            lineWidthTest s.getCurrentState.frameWidth
          then [Call.CGContextTranslateCTM (1 / 2) (1 / 2)] else []) ++
        [Call.CGContextBeginPath,
          Call.CGContextAddRect
            (if s.getDrawMode.integralMode
              then (s.beginCGContext true s.getDrawMode.integralMode).2.pixelAlligned_CGRect
                (if drawStyle ≠ kDrawFilled then (CGRectFromCRect rect).shrunkByOne
                  else CGRectFromCRect rect)
              else (if drawStyle ≠ kDrawFilled then (CGRectFromCRect rect).shrunkByOne
                else CGRectFromCRect rect)),
          Call.CGContextDrawPath (drawStyleSwitch drawStyle),
          Call.CGContextRestoreGState]) := by
  unfold drawRect
  rw [beginCGContext_eq s true _ k hk hclip]
  simp only [if_true, applyLineStyle_eq, lineStyleCalls_calls, releaseCGContext,
    calls_calls, calls_getDrawMode, calls_getCurrentState, applyLineWidthCTM_eq,
    CGRect.shrunkByOne]
  have e : ∀ r, (s.calls (s.beginCalls true s.getDrawMode.integralMode ++
      s.lineStyleCalls)).pixelAlligned_CGRect r
      = (s.calls (s.beginCalls true s.getDrawMode.integralMode)).pixelAlligned_CGRect r := by
    intro r
    rw [← calls_calls]
    exact calls_inert_pixelAlligned_CGRect _ _ (lineStyleCalls_inert s) r
  simp only [e]
  cases hi : s.getDrawMode.integralMode <;> by_cases hs : drawStyle = kDrawFilled <;>
    cases hw : lineWidthTest s.getCurrentState.frameWidth <;>
    simp only [hs, if_true, if_false, Bool.false_eq_true, Bool.true_and, Bool.false_and,
      Bool.and_true, Bool.and_false, List.append_nil, call_eq_calls, calls_calls, ne_eq,
      not_true_eq_false, not_false_eq_true, decide_True, decide_False, List.append_assoc,
      List.cons_append, List.nil_append, calls_nil, Bool.and_self]

theorem drawEllipse_eq (s : CGDrawContext) (rect : CRect) (drawStyle : CDrawStyle)
    (k : CGContext) (hk : s.cgContext = some k)
    (hclip : s.getCurrentState.clipRect.isEmpty = false) :
    s.drawEllipse rect drawStyle =
      s.calls (s.beginCalls true s.getDrawMode.integralMode ++ s.lineStyleCalls ++
        (if s.getDrawMode.integralMode && decide (drawStyle ≠ kDrawFilled) &&
            lineWidthTest s.getCurrentState.frameWidth
          then [Call.CGContextTranslateCTM (1 / 2) (1 / 2)] else []) ++
        [Call.CGContextAddEllipseInRect
            (if s.getDrawMode.integralMode
              then
                (if drawStyle ≠ kDrawFilled
                  then (s.beginCGContext true s.getDrawMode.integralMode).2.applyLineWidthCTM
                  else (s.beginCGContext true s.getDrawMode.integralMode).2).pixelAlligned_CGRect
                (if drawStyle ≠ kDrawFilled then (CGRectFromCRect rect).shrunkByOne
                  else CGRectFromCRect rect)
              else (if drawStyle ≠ kDrawFilled then (CGRectFromCRect rect).shrunkByOne
                else CGRectFromCRect rect)),
          Call.CGContextDrawPath (drawStyleSwitch drawStyle),
          Call.CGContextRestoreGState]) := by
  unfold drawEllipse
  rw [beginCGContext_eq s true _ k hk hclip]
  simp only [if_true, applyLineStyle_eq, lineStyleCalls_calls, releaseCGContext,
    calls_calls, calls_getDrawMode, calls_getCurrentState, applyLineWidthCTM_eq,
    CGRect.shrunkByOne]
  have e : ∀ (b : Bool) (t : List Call) r, (s.calls (s.beginCalls true b ++
      (s.lineStyleCalls ++ t))).pixelAlligned_CGRect r
      = (s.calls (s.beginCalls true b ++ t)).pixelAlligned_CGRect r := by
    intro b t r
    apply pixelAlligned_CGRect_of_cgContext
    rw [← calls_calls, ← calls_calls, ← calls_calls, calls_cgContext t ((s.calls _).calls _),
      calls_cgContext t (s.calls _), calls_inert_cgContext _ _ (lineStyleCalls_inert s)]
  have e0 : ∀ (b : Bool) r, (s.calls (s.beginCalls true b ++
      s.lineStyleCalls)).pixelAlligned_CGRect r
      = (s.calls (s.beginCalls true b)).pixelAlligned_CGRect r := by
    intro b r
    rw [← calls_calls]
    exact calls_inert_pixelAlligned_CGRect _ _ (lineStyleCalls_inert s) r
  cases hi : s.getDrawMode.integralMode <;> by_cases hs : drawStyle = kDrawFilled <;>
    cases hw : lineWidthTest s.getCurrentState.frameWidth <;>
    simp only [hs, if_true, if_false, Bool.false_eq_true, Bool.true_and, Bool.false_and,
      Bool.and_true, Bool.and_false, List.append_nil, call_eq_calls, calls_calls, ne_eq,
      not_true_eq_false, not_false_eq_true, decide_True, decide_False, List.append_assoc,
      List.cons_append, List.nil_append, calls_nil, Bool.and_self, e, e0]

end CGDrawContext

/-- C16: in `drawRect` of both classes and in `CGDrawContext::drawEllipse` the rectangle
handed to pixel alignment (in alignment mode) or to the native call (otherwise) is the input
rectangle with the same origin and with width and height each reduced by 1 when the style
is not Filled, and the input rectangle itself when the style is Filled; the half-pixel
translation is issued only when the style is not Filled, so for the Filled style no
translation of the CTM is issued at all. -/
theorem rect_stroke_inset (dev : CoreGraphicsDrawDevice) (self : CGDrawContext) (rect : CRect)
    (style : DrawStyle) (drawStyle : CDrawStyle) (k : CGContext)
    (hk : self.cgContext = some k) (hclip : self.getCurrentState.clipRect.isEmpty = false) :
    let r := CGRectFromCRect rect
    let inset : CGRect := ⟨r.origin, ⟨r.size.width - 1, r.size.height - 1⟩⟩
    let rDev := if style = DrawStyle.Filled then r else inset
    let rCtx := if drawStyle = kDrawFilled then r else inset
    let flagDev := decide (dev.pixelAlignmentMode = PixelAlignmentMode.On) &&
      decide (style ≠ DrawStyle.Filled) && dev.needLineWidthCTM
    let flagCtx := self.getDrawMode.integralMode && decide (drawStyle ≠ kDrawFilled) &&
      lineWidthTest self.getCurrentState.frameWidth
    let begun := (self.beginCGContext true self.getDrawMode.integralMode).2
    (dev.drawRect rect style).log =
      dev.log ++ (if flagDev then [Call.CGContextTranslateCTM (1 / 2) (1 / 2)] else []) ++
        [Call.CGContextBeginPath,
          Call.CGContextAddRect
            (if dev.pixelAlignmentMode = PixelAlignmentMode.On
              then dev.pixelAlligned_CGRect rDev else rDev),
          Call.CGContextDrawPath (drawStyleToCGPathDrawingMode style)] ++
        (if flagDev then [Call.CGContextTranslateCTM (-(1 / 2)) (-(1 / 2))] else []) ∧
    (self.drawRect rect drawStyle).log =
      self.log ++ self.beginCalls true self.getDrawMode.integralMode ++
        self.lineStyleCalls ++
        (if flagCtx then [Call.CGContextTranslateCTM (1 / 2) (1 / 2)] else []) ++
        [Call.CGContextBeginPath,
          Call.CGContextAddRect
            (if self.getDrawMode.integralMode then begun.pixelAlligned_CGRect rCtx else rCtx),
          Call.CGContextDrawPath (CGDrawContext.drawStyleSwitch drawStyle),
          Call.CGContextRestoreGState] ∧
    (self.drawEllipse rect drawStyle).log =
      self.log ++ self.beginCalls true self.getDrawMode.integralMode ++
        self.lineStyleCalls ++
        (if flagCtx then [Call.CGContextTranslateCTM (1 / 2) (1 / 2)] else []) ++
        [Call.CGContextAddEllipseInRect
            (if self.getDrawMode.integralMode
              then (if drawStyle = kDrawFilled then begun
                else begun.applyLineWidthCTM).pixelAlligned_CGRect rCtx
              else rCtx),
          Call.CGContextDrawPath (CGDrawContext.drawStyleSwitch drawStyle),
          Call.CGContextRestoreGState] ∧
    (style = DrawStyle.Filled →
      ((dev.drawRect rect style).log.drop dev.log.length).countP Call.isTranslate = 0) ∧
    (drawStyle = kDrawFilled →
      (self.issuedSince (self.drawRect rect drawStyle)).countP Call.isTranslate = 0 ∧
      (self.issuedSince (self.drawEllipse rect drawStyle)).countP Call.isTranslate = 0) := by
  intro r inset rDev rCtx flagDev flagCtx begun
  have hd := (CoreGraphicsDrawDevice.drawRect_issues dev rect style).1
  have hr := CGDrawContext.drawRect_eq self rect drawStyle k hk hclip
  have he := CGDrawContext.drawEllipse_eq self rect drawStyle k hk hclip
  refine ⟨?_, ?_, ?_, ?_, ?_⟩
  · rw [hd]
    by_cases hs : style = DrawStyle.Filled
    · simp only [hs, rDev, r, flagDev, if_true, if_false, ne_eq, not_true_eq_false,
        List.append_assoc]
    · simp only [hs, rDev, r, inset, flagDev, if_true, if_false, ne_eq,
        not_false_eq_true, List.append_assoc]
  · rw [hr, CGDrawContext.calls_log]
    by_cases hs : drawStyle = kDrawFilled
    · simp only [hs, rCtx, r, flagCtx, begun, if_true, if_false, ne_eq, not_true_eq_false,
        List.append_assoc]
    · simp only [hs, rCtx, r, inset, flagCtx, begun, if_true, if_false, ne_eq,
        not_false_eq_true, List.append_assoc, CGRect.shrunkByOne]
  · rw [he, CGDrawContext.calls_log]
    by_cases hs : drawStyle = kDrawFilled
    · simp only [hs, rCtx, r, flagCtx, begun, if_true, if_false, ne_eq, not_true_eq_false,
        List.append_assoc]
    · simp only [hs, rCtx, r, inset, flagCtx, begun, if_true, if_false, ne_eq,
        not_false_eq_true, List.append_assoc, CGRect.shrunkByOne]
  · intro hs
    rw [hd]
    simp [hs, Call.isTranslate]
  · intro hs
    rw [hr, he, CGDrawContext.calls_issuedSince, CGDrawContext.calls_issuedSince]
    simp [hs, Call.isTranslate, CGDrawContext.beginCalls_countP_isTranslate,
      CGDrawContext.lineStyleCalls_countP_isTranslate]

/-- Witness of C16: a filled rectangle and a filled ellipse on the sample context issue no
translation. -/
theorem rect_stroke_inset_witness :
    (sampleContext.issuedSince
      (sampleContext.drawRect ⟨0, 0, 10, 10⟩ kDrawFilled)).countP Call.isTranslate = 0 ∧
    (sampleContext.issuedSince
      (sampleContext.drawEllipse ⟨0, 0, 10, 10⟩ kDrawFilled)).countP Call.isTranslate = 0 :=
  (rect_stroke_inset sampleDevice sampleContext ⟨0, 0, 10, 10⟩ .Filled kDrawFilled
    sampleInitialised sampleContext_cgContext sampleContext_clip).2.2.2.2 rfl

theorem pixelAlligned_CGRect_device_context (dev : CoreGraphicsDrawDevice) (x : CGDrawContext)
    (h : CGContextGetCTM dev.cgContext = CGContextGetCTM x.cgContext) (r : CGRect) :
    dev.pixelAlligned_CGRect r = x.pixelAlligned_CGRect r := by
  simp only [CoreGraphicsDrawDevice.pixelAlligned_CGRect, CGDrawContext.pixelAlligned_CGRect,
    CGContextConvertPointToDeviceSpace, CGContextConvertSizeToDeviceSpace,
    CGContextConvertPointToUserSpace, CGContextConvertSizeToUserSpace, h]

theorem beginCalls_ctm (s : CGDrawContext) (b : Bool) (k : CGContext)
    (ht : s.getCurrentTransform.isInvariant = true) :
    (replay (s.beginCalls true b) k).ctm = k.ctm := by
  have ht' : s.currentTransform.isInvariant = true := ht
  unfold CGDrawContext.beginCalls
  simp [ht', replay, CGContext.perform]

/-- C15: the device mapping `drawStyleToCGPathDrawingMode` sends Stroked, Filled and
FilledAndStroked to `kCGPathStroke`, `kCGPathFill` and `kCGPathFillStroke`; the switch of
`CGDrawContext` sends `kDrawFilled` to `kCGPathFill`, `kDrawFilledAndStroked` to
`kCGPathFillStroke` and every other value to `kCGPathStroke`; the two agree on the three
styles.  Hence, for a device and a context with the same transformation matrix, the same
line width and the same alignment mode, the context with the identity toolkit transform and
a clip rectangle that is not empty, `drawRect` of both issues the same translation (or
none), then `CGContextBeginPath`, `CGContextAddRect` with the same rectangle and
`CGContextDrawPath` with the same mode. -/
theorem drawStyle_mappings_agree (dev : CoreGraphicsDrawDevice) (self : CGDrawContext)
    (rect : CRect) (style : DrawStyle) (kd k : CGContext)
    (hkd : dev.cgContext = some kd) (hk : self.cgContext = some k) (hctm : kd.ctm = k.ctm)
    (hwidth : dev.lineWidth = self.getCurrentState.frameWidth)
    (hmode : dev.pixelAlignmentMode = PixelAlignmentMode.On ↔
      self.getDrawMode.integralMode = true)
    (ht : self.getCurrentTransform = ⟨1, 0, 0, 1, 0, 0⟩)
    (hclip : self.getCurrentState.clipRect.isEmpty = false) :
    let r := CGRectFromCRect rect
    let rs : CGRect :=
      if style = DrawStyle.Filled then r else ⟨r.origin, ⟨r.size.width - 1, r.size.height - 1⟩⟩
    let added := if dev.pixelAlignmentMode = PixelAlignmentMode.On
      then dev.pixelAlligned_CGRect rs else rs
    let mode := drawStyleToCGPathDrawingMode style
    let flag := decide (dev.pixelAlignmentMode = PixelAlignmentMode.On) &&
      decide (style ≠ DrawStyle.Filled) && dev.needLineWidthCTM
    (drawStyleToCGPathDrawingMode .Stroked = .kCGPathStroke ∧
      drawStyleToCGPathDrawingMode .Filled = .kCGPathFill ∧
      drawStyleToCGPathDrawingMode .FilledAndStroked = .kCGPathFillStroke) ∧
    (CGDrawContext.drawStyleSwitch kDrawFilled = .kCGPathFill ∧
      CGDrawContext.drawStyleSwitch kDrawFilledAndStroked = .kCGPathFillStroke ∧
      ∀ v : CDrawStyle, v ≠ kDrawFilled → v ≠ kDrawFilledAndStroked →
        CGDrawContext.drawStyleSwitch v = .kCGPathStroke) ∧
    (∀ st : DrawStyle,
      CGDrawContext.drawStyleSwitch st.toCDrawStyle = drawStyleToCGPathDrawingMode st) ∧
    (dev.drawRect rect style).log =
      dev.log ++ (if flag then [Call.CGContextTranslateCTM (1 / 2) (1 / 2)] else []) ++
        [Call.CGContextBeginPath, Call.CGContextAddRect added, Call.CGContextDrawPath mode] ++
        (if flag then [Call.CGContextTranslateCTM (-(1 / 2)) (-(1 / 2))] else []) ∧
    (self.drawRect rect style.toCDrawStyle).log =
      self.log ++ self.beginCalls true self.getDrawMode.integralMode ++
        self.lineStyleCalls ++
        (if flag then [Call.CGContextTranslateCTM (1 / 2) (1 / 2)] else []) ++
        [Call.CGContextBeginPath, Call.CGContextAddRect added, Call.CGContextDrawPath mode,
          Call.CGContextRestoreGState] := by
  intro r rs added mode flag
  have hsw : ∀ st : DrawStyle,
      CGDrawContext.drawStyleSwitch st.toCDrawStyle = drawStyleToCGPathDrawingMode st := by
    intro st
    cases st <;> rfl
  have hfilled : ∀ st : DrawStyle, st.toCDrawStyle = kDrawFilled ↔ st = DrawStyle.Filled := by
    intro st
    cases st <;> simp [DrawStyle.toCDrawStyle, kDrawFilled, kDrawStroked,
      kDrawFilledAndStroked]
  have hinv : self.getCurrentTransform.isInvariant = true := (isInvariant_iff _).mpr ht
  have hbegun : CGContextGetCTM dev.cgContext =
      CGContextGetCTM (self.beginCGContext true self.getDrawMode.integralMode).2.cgContext := by
    rw [CGDrawContext.beginCGContext_eq self true _ k hk hclip, CGDrawContext.calls_cgContext,
      hk, hkd]
    simp only [Option.map_some', CGContextGetCTM, beginCalls_ctm self _ k hinv, hctm]
  have e1 : ∀ q, (self.beginCGContext true self.getDrawMode.integralMode).2.pixelAlligned_CGRect
      q = dev.pixelAlligned_CGRect q :=
    fun q => (pixelAlligned_CGRect_device_context dev _ hbegun q).symm
  have e2 : lineWidthTest self.getCurrentState.frameWidth = dev.needLineWidthCTM := by
    rw [needLineWidthCTM_eq, hwidth]
  have hd := (CoreGraphicsDrawDevice.drawRect_issues dev rect style).1
  have hr := CGDrawContext.drawRect_eq self rect style.toCDrawStyle k hk hclip
  refine ⟨⟨rfl, rfl, rfl⟩, ⟨rfl, rfl, ?_⟩, hsw, ?_, ?_⟩
  · intro v h1 h2
    simp only [CGDrawContext.drawStyleSwitch, h1, h2, if_false]
  · rw [hd]
    by_cases hs : style = DrawStyle.Filled
    · simp only [hs, rs, r, added, mode, flag, if_true, if_false, ne_eq, not_true_eq_false,
        List.append_assoc]
    · simp only [hs, rs, r, added, mode, flag, if_true, if_false, ne_eq,
        not_false_eq_true, List.append_assoc]
  · rw [hr, CGDrawContext.calls_log, hsw]
    simp only [e1, e2, CGRect.shrunkByOne]
    by_cases hm : dev.pixelAlignmentMode = PixelAlignmentMode.On
    · have hi : self.getDrawMode.integralMode = true := hmode.mp hm
      by_cases hs : style = DrawStyle.Filled
      · have hs' : DrawStyle.Filled.toCDrawStyle = kDrawFilled := rfl
        simp only [hm, hi, hs, hs', rs, r, added, mode, flag, if_true, if_false, ne_eq,
          not_true_eq_false, not_false_eq_true, List.append_assoc, decide_True, decide_False, Bool.true_and,
          Bool.and_false, Bool.false_and, Bool.and_true, Bool.false_eq_true]
      · have hs' := (hfilled style).not.mpr hs
        simp only [hm, hi, hs, hs', rs, r, added, mode, flag, if_true, if_false, ne_eq,
          not_false_eq_true, List.append_assoc, decide_True, decide_False, Bool.true_and,
          Bool.and_false, Bool.false_and, Bool.and_true, Bool.false_eq_true]
    · have hi : self.getDrawMode.integralMode = false := by
        cases hb : self.getDrawMode.integralMode with
        | false => rfl
        | true => exact absurd (hmode.mpr hb) hm
      by_cases hs : style = DrawStyle.Filled
      · have hs' : DrawStyle.Filled.toCDrawStyle = kDrawFilled := rfl
        simp only [hm, hi, hs, hs', rs, r, added, mode, flag, if_true, if_false, ne_eq,
          not_true_eq_false, not_false_eq_true, List.append_assoc, decide_True, decide_False, Bool.true_and,
          Bool.and_false, Bool.false_and, Bool.and_true, Bool.false_eq_true]
      · have hs' := (hfilled style).not.mpr hs
        simp only [hm, hi, hs, hs', rs, r, added, mode, flag, if_true, if_false, ne_eq,
          not_false_eq_true, List.append_assoc, decide_True, decide_False, Bool.true_and,
          Bool.and_false, Bool.false_and, Bool.and_true, Bool.false_eq_true]

theorem sampleDevice_cgContext : sampleDevice.cgContext = some sampleInitialised := rfl

/-- Witness of C15: a stroked rectangle on the sample device and on the sample context,
which share the transformation matrix, the line width 1 and the alignment mode. -/
theorem drawStyle_mappings_agree_witness :
    ∃ (added : CGRect) (mode : CGPathDrawingMode) (before after before' : List Call),
      (sampleDevice.drawRect ⟨0, 0, 10, 10⟩ .Stroked).log =
        before ++
          [Call.CGContextBeginPath, Call.CGContextAddRect added, Call.CGContextDrawPath mode] ++
          after ∧
      (sampleContext.drawRect ⟨0, 0, 10, 10⟩ kDrawStroked).log =
        before' ++
          [Call.CGContextBeginPath, Call.CGContextAddRect added, Call.CGContextDrawPath mode,
            Call.CGContextRestoreGState] :=
  ⟨_, _, _, _, _,
    (drawStyle_mappings_agree sampleDevice sampleContext ⟨0, 0, 10, 10⟩ .Stroked
      sampleInitialised sampleInitialised sampleDevice_cgContext sampleContext_cgContext rfl
      rfl ⟨fun _ => rfl, fun _ => rfl⟩ rfl sampleContext_clip).2.2.2.1,
    (drawStyle_mappings_agree sampleDevice sampleContext ⟨0, 0, 10, 10⟩ .Stroked
      sampleInitialised sampleInitialised sampleDevice_cgContext sampleContext_cgContext rfl
      rfl ⟨fun _ => rfl, fun _ => rfl⟩ rfl sampleContext_clip).2.2.2.2⟩

theorem std_round_intCast (n : ℤ) : std_round (n : ℚ) = n := by
  unfold std_round
  split
  · have : ⌊(n : ℚ) + 1 / 2⌋ = n := by
      rw [Int.floor_eq_iff]
      constructor <;> linarith
    rw [this]
  · have : ⌈(n : ℚ) - 1 / 2⌉ = n := by
      rw [Int.ceil_eq_iff]
      constructor <;> linarith
    rw [this]

theorem std_round_half : std_round (1 / 2) = 1 := by
  unfold std_round
  have : ⌊(1 / 2 : ℚ) + 1 / 2⌋ = 1 := by
    rw [Int.floor_eq_iff]
    constructor <;> norm_num
  rw [if_pos (by norm_num), this]
  norm_num

theorem pixelAlligned_CGRect_identity (x : CGDrawContext)
    (h : CGContextGetCTM x.cgContext = CGAffineTransformIdentity) (r : CGRect) :
    x.pixelAlligned_CGRect r =
      ⟨⟨std_round r.origin.x, std_round r.origin.y⟩,
        ⟨std_round r.size.width, std_round r.size.height⟩⟩ := by
  simp [CGDrawContext.pixelAlligned_CGRect, CGContextConvertPointToDeviceSpace,
    CGContextConvertSizeToDeviceSpace, CGContextConvertPointToUserSpace,
    CGContextConvertSizeToUserSpace, h, CGAffineTransformIdentity, CGAffineTransformInvert,
    CGAffineTransform.det, CGPointApplyAffineTransform, CGSizeApplyAffineTransform]

theorem pixelAlligned_CGRect_half (x : CGDrawContext)
    (h : CGContextGetCTM x.cgContext = ⟨1, 0, 0, 1, 1 / 2, 1 / 2⟩) (r : CGRect) :
    x.pixelAlligned_CGRect r =
      ⟨⟨std_round (r.origin.x + 1 / 2) - 1 / 2, std_round (r.origin.y + 1 / 2) - 1 / 2⟩,
        ⟨std_round r.size.width, std_round r.size.height⟩⟩ := by
  simp [CGDrawContext.pixelAlligned_CGRect, CGContextConvertPointToDeviceSpace,
    CGContextConvertSizeToDeviceSpace, CGContextConvertPointToUserSpace,
    CGContextConvertSizeToUserSpace, h, CGAffineTransformInvert,
    CGAffineTransform.det, CGPointApplyAffineTransform, CGSizeApplyAffineTransform]
  constructor <;> ring

theorem sampleIdentityContext_cgContext :
    sampleIdentityContext.cgContext = some sampleIdentityNative := rfl

theorem sampleIdentityContext_clip :
    sampleIdentityContext.getCurrentState.clipRect.isEmpty = false := by
  simp [CGDrawContext.getCurrentState, sampleIdentityContext,
    CGDrawContext.construct, CGDrawContext.init, CGDrawContext.call, sampleState,
    CRect.isEmpty]

theorem sampleIdentityContext_begun :
    CGContextGetCTM (sampleIdentityContext.beginCGContext true true).2.cgContext
      = CGAffineTransformIdentity := by
  rw [CGDrawContext.beginCGContext_eq _ true true _ sampleIdentityContext_cgContext
    sampleIdentityContext_clip, CGDrawContext.calls_cgContext, sampleIdentityContext_cgContext]
  simp only [Option.map_some', CGContextGetCTM]
  rw [beginCalls_ctm sampleIdentityContext true sampleIdentityNative
    ((isInvariant_iff _).mpr rfl)]
  rfl

theorem sampleIdentityContext_shifted :
    CGContextGetCTM
      (sampleIdentityContext.beginCGContext true true).2.applyLineWidthCTM.cgContext
      = ⟨1, 0, 0, 1, 1 / 2, 1 / 2⟩ := by
  have hw : lineWidthTest (sampleIdentityContext.beginCGContext true true).2.getCurrentState.frameWidth
      = true := by
    rw [lineWidthTest_iff]
    exact ⟨1, by
      rw [CGDrawContext.beginCGContext_eq _ true true _ sampleIdentityContext_cgContext
        sampleIdentityContext_clip, CGDrawContext.calls_getCurrentState]
      norm_num [sampleIdentityContext, CGDrawContext.getCurrentState, CGDrawContext.construct,
        CGDrawContext.init, CGDrawContext.call, sampleState], by decide⟩
  rw [applyLineWidthCTM_eq, hw, if_pos rfl, CGDrawContext.calls_cgContext]
  have h := sampleIdentityContext_begun
  cases hc : (sampleIdentityContext.beginCGContext true true).2.cgContext with
  | none =>
    rw [CGDrawContext.beginCGContext_eq _ true true _ sampleIdentityContext_cgContext
      sampleIdentityContext_clip, CGDrawContext.calls_cgContext,
      sampleIdentityContext_cgContext] at hc
    simp at hc
  | some kb =>
    rw [hc] at h
    simp only [CGContextGetCTM] at h
    simp [CGContextGetCTM, replay, CGContext.perform, h, CGAffineTransformConcat,
      CGAffineTransformMakeTranslation, CGAffineTransformIdentity]

theorem sampleIdentityContext_integral :
    sampleIdentityContext.getDrawMode.integralMode = true := rfl

theorem sampleIdentityContext_lineWidthTest :
    lineWidthTest sampleIdentityContext.getCurrentState.frameWidth = true := by
  rw [lineWidthTest_iff]
  exact ⟨1, by
    norm_num [sampleIdentityContext, CGDrawContext.getCurrentState, CGDrawContext.construct,
      CGDrawContext.init, CGDrawContext.call, sampleState], by decide⟩

/-- C14, evaluation at the failing input: on a context with the identity transformation
matrix, integral mode and frame width 1, the stroked rectangle `(0, 0, 10, 10)`.  Both
operations issue the calls of `beginCGContext` and `applyLineStyle` and the translation by
`(0.5, 0.5)`, so the transformation matrix is the same; `drawRect`, which aligns before the
translation, adds the rectangle at `(0, 0)` of size `(9, 9)`, while `drawEllipse`, which
aligns after the translation, adds the ellipse in the rectangle at `(0.5, 0.5)` of size
`(9, 9)`, and issues no `CGContextBeginPath`. -/
theorem drawEllipse_aligns_after_translation :
    sampleIdentityContext.issuedSince
        (sampleIdentityContext.drawRect ⟨0, 0, 10, 10⟩ kDrawStroked) =
      sampleIdentityContext.beginCalls true true ++ sampleIdentityContext.lineStyleCalls ++
        [Call.CGContextTranslateCTM (1 / 2) (1 / 2), Call.CGContextBeginPath,
          Call.CGContextAddRect ⟨⟨0, 0⟩, ⟨9, 9⟩⟩,
          Call.CGContextDrawPath .kCGPathStroke, Call.CGContextRestoreGState] ∧
    sampleIdentityContext.issuedSince
        (sampleIdentityContext.drawEllipse ⟨0, 0, 10, 10⟩ kDrawStroked) =
      sampleIdentityContext.beginCalls true true ++ sampleIdentityContext.lineStyleCalls ++
        [Call.CGContextTranslateCTM (1 / 2) (1 / 2),
          Call.CGContextAddEllipseInRect ⟨⟨1 / 2, 1 / 2⟩, ⟨9, 9⟩⟩,
          Call.CGContextDrawPath .kCGPathStroke, Call.CGContextRestoreGState] := by
  have hs : kDrawStroked ≠ kDrawFilled := by decide
  have h9 : std_round (9 : ℚ) = 9 := by
    have := std_round_intCast 9
    simpa using this
  have h0 : std_round (0 : ℚ) = 0 := by
    have := std_round_intCast 0
    simpa using this
  constructor
  · rw [CGDrawContext.drawRect_eq _ _ _ _ sampleIdentityContext_cgContext
      sampleIdentityContext_clip, CGDrawContext.calls_issuedSince]
    simp only [sampleIdentityContext_integral, sampleIdentityContext_lineWidthTest, hs,
      if_true, ne_eq, not_false_eq_true, decide_True, Bool.and_self,
      pixelAlligned_CGRect_identity _ sampleIdentityContext_begun, List.append_assoc,
      List.cons_append, List.nil_append, CGDrawContext.drawStyleSwitch]
    norm_num [CGRect.shrunkByOne, CGRectFromCRect, CRect.getWidth, CRect.getHeight, h9, h0,
      kDrawStroked, kDrawFilled, kDrawFilledAndStroked]
  · rw [CGDrawContext.drawEllipse_eq _ _ _ _ sampleIdentityContext_cgContext
      sampleIdentityContext_clip, CGDrawContext.calls_issuedSince]
    simp only [sampleIdentityContext_integral, sampleIdentityContext_lineWidthTest, hs,
      if_true, ne_eq, not_false_eq_true, decide_True, Bool.and_self,
      pixelAlligned_CGRect_half _ sampleIdentityContext_shifted, List.append_assoc,
      List.cons_append, List.nil_append, CGDrawContext.drawStyleSwitch]
    norm_num [CGRect.shrunkByOne, CGRectFromCRect, CRect.getWidth, CRect.getHeight, h9,
      std_round_half, kDrawStroked, kDrawFilled, kDrawFilledAndStroked]

theorem setCGDrawContextQuality_currentState (s : CGDrawContext) :
    s.setCGDrawContextQuality.currentState = s.currentState :=
  (CGDrawContext.setCGDrawContextQuality_same (CGDrawContext.SameMembers.same_refl s)).2.2.2.1

/-- C17: `drawCGImageRef` sets the alpha of the context to the product of its `alpha`
argument and the current global alpha.  With the destination rectangle at
`(rect.left - offset.x, -rect.top - (bitmapHeight - offset.y))` of size
`(bitmapWidth, bitmapHeight)` and the clip rectangle
`(rect.left, -rect.top - rect.height, rect.width, rect.height)`: for a bitmap scale factor
`s` other than 0 and 1 it concatenates the scale by `1 / s` to the CTM and passes on both
rectangles scaled by `s` (the clip origin pixel-aligned under the new CTM), and the scaled
rectangles have, under the new CTM, the device-space origin and size that the rectangles
themselves have under the CTM before; for `s = 1` it issues no CTM call and passes on the
rectangles themselves (the clip origin pixel-aligned). -/
theorem drawCGImageRef_scale_neutral (self : CGDrawContext) (image : CGImageRef)
    (layer : Option CGLayerRef) (s : CCoord) (rect : CRect) (offset : CPoint)
    (alpha : CGFloat) (bitmap : CBitmap) (k : CGContext)
    (hs0 : s ≠ 0) (hs1 : s ≠ 1) (hk : self.cgContext = some k) :
    let dest : CGRect :=
      ⟨⟨rect.left - offset.x, -rect.top - (bitmap.height - offset.y)⟩,
        ⟨bitmap.width, bitmap.height⟩⟩
    let clip : CGRect :=
      ⟨⟨rect.left, -rect.top - rect.getHeight⟩, ⟨rect.getWidth, rect.getHeight⟩⟩
    let scale := fun (r : CGRect) =>
      (⟨⟨s * r.origin.x, s * r.origin.y⟩, ⟨s * r.size.width, s * r.size.height⟩⟩ : CGRect)
    let drawCall := fun (d : CGRect) =>
      match layer with
      | some l => Call.CGContextDrawLayerInRect d l
      | none => Call.CGContextDrawImage d image
    let q := self.setCGDrawContextQuality
    let setAlpha := Call.CGContextSetAlpha (alpha * self.getCurrentState.globalAlpha)
    let concat := Call.CGContextConcatCTM (CGAffineTransformMakeScale (1 / s) (1 / s))
    let before := q.call setAlpha
    let scaled := (q.call setAlpha).call concat
    self.drawCGImageRef image layer s rect offset alpha bitmap =
      q.calls [setAlpha, concat,
        Call.CGContextClipToRect
          ⟨scaled.pixelAlligned_CGPoint (scale clip).origin, (scale clip).size⟩,
        drawCall (scale dest)] ∧
    self.drawCGImageRef image layer 1 rect offset alpha bitmap =
      q.calls [setAlpha,
        Call.CGContextClipToRect ⟨before.pixelAlligned_CGPoint clip.origin, clip.size⟩,
        drawCall dest] ∧
    CGContextGetCTM scaled.cgContext =
      CGAffineTransformConcat (CGAffineTransformMakeScale (1 / s) (1 / s))
        (CGContextGetCTM before.cgContext) ∧
    CGContextConvertPointToDeviceSpace scaled.cgContext (scale dest).origin =
      CGContextConvertPointToDeviceSpace before.cgContext dest.origin ∧
    CGContextConvertSizeToDeviceSpace scaled.cgContext (scale dest).size =
      CGContextConvertSizeToDeviceSpace before.cgContext dest.size ∧
    CGContextConvertPointToDeviceSpace scaled.cgContext (scale clip).origin =
      CGContextConvertPointToDeviceSpace before.cgContext clip.origin ∧
    CGContextConvertSizeToDeviceSpace scaled.cgContext (scale clip).size =
      CGContextConvertSizeToDeviceSpace before.cgContext clip.size := by
  intro dest clip scale drawCall q setAlpha concat before scaled
  have hq : q.getCurrentState = self.getCurrentState :=
    setCGDrawContextQuality_currentState self
  have hqk : ∃ kq, q.cgContext = some kq := by
    have h := CGDrawContext.setCGDrawContextQuality_nested (CGDrawContext.Nested.nested_refl self)
    obtain ⟨cs, hcs, _⟩ := h
    rw [hcs.2, hk]
    exact ⟨_, rfl⟩
  obtain ⟨kq, hkq⟩ := hqk
  have hctm : CGContextGetCTM scaled.cgContext =
      CGAffineTransformConcat (CGAffineTransformMakeScale (1 / s) (1 / s))
        (CGContextGetCTM before.cgContext) := by
    simp only [scaled, before, setAlpha, concat, CGDrawContext.call, hkq, Option.map_some',
      CGContextGetCTM, CGContext.perform]
  refine ⟨?_, ?_, hctm, ?_, ?_, ?_, ?_⟩
  · unfold CGDrawContext.drawCGImageRef
    simp only [hs1, ne_eq, not_false_eq_true, decide_True, if_true, hq]
    cases layer <;>
      simp [CGDrawContext.calls, CGPointApplyAffineTransform, CGSizeApplyAffineTransform,
        CGAffineTransformMakeScale, q, setAlpha, concat, scaled, scale, clip, dest, drawCall]
  · unfold CGDrawContext.drawCGImageRef
    simp only [ne_eq, not_true_eq_false, decide_False, if_false, Bool.false_eq_true, hq]
    cases layer <;>
      simp [CGDrawContext.calls, q, setAlpha, before, clip, dest, drawCall]
  all_goals
    simp only [CGContextConvertPointToDeviceSpace, CGContextConvertSizeToDeviceSpace, hctm,
      CGPointApplyAffineTransform, CGSizeApplyAffineTransform, CGAffineTransformConcat,
      CGAffineTransformMakeScale, scale, dest, clip]
    simp only [CGPoint.mk.injEq, CGSize.mk.injEq]
    constructor <;> field_simp <;> ring

/-- Witness of C17: a bitmap of scale factor 2 drawn on the sample context. -/
theorem drawCGImageRef_scale_neutral_witness :
    CGContextGetCTM ((sampleContext.setCGDrawContextQuality.call
        (.CGContextSetAlpha (1 * sampleContext.getCurrentState.globalAlpha))).call
        (.CGContextConcatCTM (CGAffineTransformMakeScale (1 / 2) (1 / 2)))).cgContext =
      CGAffineTransformConcat (CGAffineTransformMakeScale (1 / 2) (1 / 2))
        (CGContextGetCTM (sampleContext.setCGDrawContextQuality.call
          (.CGContextSetAlpha (1 * sampleContext.getCurrentState.globalAlpha))).cgContext) :=
  (drawCGImageRef_scale_neutral sampleContext ⟨1, 16, 16⟩ none 2 ⟨0, 0, 16, 16⟩ ⟨0, 0⟩ 1
    sampleBitmap sampleInitialised (by norm_num) (by norm_num) sampleContext_cgContext).2.2.1

theorem drawCGImageRef_bitmap_size (x : CGDrawContext) (image : CGImageRef)
    (layer : Option CGLayerRef) (f : CCoord) (rect : CRect) (offset : CPoint)
    (alpha : CGFloat) (b b' : CBitmap) (hw : b.width = b'.width) (hh : b.height = b'.height) :
    x.drawCGImageRef image layer f rect offset alpha b
      = x.drawCGImageRef image layer f rect offset alpha b' := by
  unfold CGDrawContext.drawCGImageRef
  simp only [hw, hh]

theorem construct_scaleFactor (cgContext : Option CGContext) (state : CDrawContextState)
    (transform : CGraphicsTransform) :
    (CGDrawContext.construct cgContext state transform).scaleFactor =
      (CGContextConvertRectToDeviceSpace cgContext ⟨⟨0, 0⟩, ⟨100, 100⟩⟩).size.height / 100 := by
  cases cgContext <;> rfl

namespace CGDrawContext

theorem Untiled.untiled_refl (s : CGDrawContext) : s.Untiled s :=
  ⟨[], Issues.issues_refl s, by simp⟩

theorem Untiled.untiled_trans {s s' s'' : CGDrawContext} (h1 : s.Untiled s')
    (h2 : s'.Untiled s'') : s.Untiled s'' := by
  obtain ⟨a, ha, qa⟩ := h1
  obtain ⟨b, hb, qb⟩ := h2
  refine ⟨a ++ b, ha.issues_trans hb, ?_⟩
  intro c hc
  rcases List.mem_append.mp hc with hc | hc
  · exact qa c hc
  · exact qb c hc

theorem Untiled.untiled_call {s s' : CGDrawContext} (h : s.Untiled s') (c : Call)
    (h1 : c.isDrawTiledImage = false) (h2 : c.isBaseFill = false) : s.Untiled (s'.call c) :=
  h.untiled_trans ⟨[c], Issues.issues_call s' c, by
    intro x hx
    simp only [List.mem_singleton] at hx
    subst hx
    exact ⟨h1, h2⟩⟩

theorem Untiled.untiled_of_eq {s s' : CGDrawContext} (hl : s'.log = s.log)
    (hc : s'.cgContext = s.cgContext) : s.Untiled s' :=
  ⟨[], Issues.issues_of_eq hl hc, by simp⟩

theorem setCGDrawContextQuality_untiled {s s' : CGDrawContext} (h : s.Untiled s') :
    s.Untiled s'.setCGDrawContextQuality := by
  unfold setCGDrawContextQuality
  simp only []
  repeat' (first | split | refine Untiled.untiled_call ?_ _ rfl rfl | exact h)

theorem beginCGContext_untiled (s : CGDrawContext) (a b : Bool) :
    s.Untiled (s.beginCGContext a b).2 := by
  unfold beginCGContext
  split
  · split
    · exact Untiled.untiled_refl _
    · simp only []
      repeat' (first | split | refine Untiled.untiled_call ?_ _ rfl rfl | exact Untiled.untiled_refl _)
  · exact Untiled.untiled_refl _

theorem drawCGImageRef_untiled {s s' : CGDrawContext} (h : s.Untiled s') (image : CGImageRef)
    (layer : Option CGLayerRef) (f : CCoord) (inRect : CRect) (inOffset : CPoint)
    (alpha : CGFloat) (bitmap : CBitmap) :
    s.Untiled (s'.drawCGImageRef image layer f inRect inOffset alpha bitmap) := by
  unfold drawCGImageRef
  simp only []
  repeat'
    first
    | split
    | refine Untiled.untiled_call ?_ _ rfl rfl
    | refine setCGDrawContextQuality_untiled ?_
    | exact h

theorem createCGLayer_untiled {s s' : CGDrawContext} (h : s.Untiled s') (cgBitmap : CGBitmap) :
    s.Untiled (s'.createCGLayer cgBitmap).2 := by
  unfold createCGLayer
  simp only []
  split
  · exact (Untiled.untiled_call h (.CGBitmap_createCGLayer cgBitmap.id) rfl rfl).untiled_trans
      (Untiled.untiled_of_eq rfl rfl)
  · exact Untiled.untiled_call h (.CGBitmap_createCGLayer cgBitmap.id) rfl rfl

theorem layerForBitmap_untiled {s s' : CGDrawContext} (h : s.Untiled s')
    (cgBitmap : CGBitmap) : s.Untiled (s'.layerForBitmap cgBitmap).2 := by
  unfold layerForBitmap
  split
  · split
    · exact h
    · split
      · exact h.untiled_trans (Untiled.untiled_of_eq rfl rfl)
      · simp only []
        refine createCGLayer_untiled ?_ _
        exact h.untiled_trans (Untiled.untiled_of_eq rfl rfl)
  · exact h

theorem drawBitmap_untiled (s : CGDrawContext) (bitmap : Option CBitmap) (inRect : CRect)
    (inOffset : CPoint) (alpha : CGFloat) :
    s.Untiled (s.drawBitmap bitmap inRect inOffset alpha) := by
  unfold drawBitmap
  simp only []
  repeat' split
  all_goals
    first
    | exact Untiled.untiled_refl _
    | exact beginCGContext_untiled _ _ _
    | (unfold releaseCGContext
       simp only [if_true]
       refine Untiled.untiled_call ?_ .CGContextRestoreGState rfl rfl
       refine drawCGImageRef_untiled ?_ _ _ _ _ _ _ _
       exact layerForBitmap_untiled (beginCGContext_untiled _ _ _) _)

theorem foldl_untiled {α : Type} (f : CGDrawContext → α → CGDrawContext)
    (hf : ∀ (x : CGDrawContext) (a : α), x.Untiled (f x a)) (l : List α) :
    ∀ s : CGDrawContext, s.Untiled (l.foldl f s) := by
  induction l with
  | nil => intro s; exact Untiled.untiled_refl s
  | cons a l ih => intro s; exact (hf s a).untiled_trans (ih (f s a))

/-- With a source rectangle that is not empty, `fillRectWithBitmap` of a bitmap with an
alpha other than zero takes the branch of the base class. -/
theorem fillRectWithBitmap_base (s : CGDrawContext) (ext : External) (bitmap : CBitmap)
    (srcRect dstRect : CRect) (alpha : CGFloat) (ha : alpha ≠ 0)
    (hsrc : srcRect.isEmpty = false) (hdst : dstRect.isEmpty = false) :
    s.fillRectWithBitmap ext (some bitmap) srcRect dstRect alpha =
      (ext.fillTiles srcRect dstRect).foldl
        (fun (self : CGDrawContext) tile => self.drawBitmap (some bitmap) tile.1 tile.2 alpha)
        (s.call (.CDrawContext_fillRectWithBitmap srcRect dstRect alpha)) := by
  have hne : ¬ (srcRect.left = 0 ∧ srcRect.right = 0 ∧ srcRect.right = bitmap.width ∧
      srcRect.bottom = bitmap.height) := by
    rintro ⟨h1, h2, _, _⟩
    simp [CRect.isEmpty, h1, h2] at hsrc
  unfold fillRectWithBitmap
  simp only [ha, hsrc, hdst, Bool.false_eq_true, or_self, if_false, hne, not_false_eq_true,
    if_true]

theorem fillRectWithBitmap_counts (s : CGDrawContext) (ext : External) (bitmap : CBitmap)
    (srcRect dstRect : CRect) (alpha : CGFloat) (ha : alpha ≠ 0)
    (hsrc : srcRect.isEmpty = false) (hdst : dstRect.isEmpty = false) :
    (s.issuedSince (s.fillRectWithBitmap ext (some bitmap) srcRect dstRect alpha)).countP
      Call.isBaseFill = 1 ∧
    (s.issuedSince (s.fillRectWithBitmap ext (some bitmap) srcRect dstRect alpha)).countP
      Call.isDrawTiledImage = 0 := by
  rw [fillRectWithBitmap_base s ext bitmap srcRect dstRect alpha ha hsrc hdst]
  obtain ⟨cs, hcs, hq⟩ := foldl_untiled
    (fun (self : CGDrawContext) (tile : CRect × CPoint) =>
      self.drawBitmap (some bitmap) tile.1 tile.2 alpha)
    (fun x a => drawBitmap_untiled x (some bitmap) a.1 a.2 alpha)
    (ext.fillTiles srcRect dstRect)
    (s.call (.CDrawContext_fillRectWithBitmap srcRect dstRect alpha))
  have h := issuedSince_of_issues (Issues.issues_cons hcs)
  rw [h]
  have h1 : cs.countP Call.isBaseFill = 0 := by
    rw [List.countP_eq_zero]
    intro c hc
    simp [(hq c hc).2]
  have h2 : cs.countP Call.isDrawTiledImage = 0 := by
    rw [List.countP_eq_zero]
    intro c hc
    simp [(hq c hc).1]
  simp [List.countP_cons, h1, h2, Call.isBaseFill, Call.isDrawTiledImage]

end CGDrawContext

/-- C11, evaluation at the failing input: the source rectangle `(0, 0, 16, 16)` covers the
whole 16 by 16 sample bitmap, the destination `(0, 0, 32, 32)` is not empty and alpha is 1,
and `fillRectWithBitmap` calls the base class `CDrawContext::fillRectWithBitmap` once and
`CGContextDrawTiledImage` not at all: the test `srcRect.right == 0` of the source sends
every source rectangle that is not empty to the base class. -/
theorem fillRectWithBitmap_whole_bitmap_falls_back :
    (⟨0, 0, 16, 16⟩ : CRect).left = 0 ∧ (⟨0, 0, 16, 16⟩ : CRect).top = 0 ∧
    (⟨0, 0, 16, 16⟩ : CRect).right = sampleBitmap.width ∧
    (⟨0, 0, 16, 16⟩ : CRect).bottom = sampleBitmap.height ∧
    sampleUnitContext.fillRectWithBitmap sampleExternal (some sampleBitmap) ⟨0, 0, 16, 16⟩
        ⟨0, 0, 32, 32⟩ 1 =
      (sampleExternal.fillTiles ⟨0, 0, 16, 16⟩ ⟨0, 0, 32, 32⟩).foldl
        (fun (self : CGDrawContext) tile => self.drawBitmap (some sampleBitmap) tile.1 tile.2 1)
        (sampleUnitContext.call
          (.CDrawContext_fillRectWithBitmap ⟨0, 0, 16, 16⟩ ⟨0, 0, 32, 32⟩ 1)) ∧
    (sampleUnitContext.issuedSince
      (sampleUnitContext.fillRectWithBitmap sampleExternal (some sampleBitmap) ⟨0, 0, 16, 16⟩
        ⟨0, 0, 32, 32⟩ 1)).countP Call.isBaseFill = 1 ∧
    (sampleUnitContext.issuedSince
      (sampleUnitContext.fillRectWithBitmap sampleExternal (some sampleBitmap) ⟨0, 0, 16, 16⟩
        ⟨0, 0, 32, 32⟩ 1)).countP Call.isDrawTiledImage = 0 := by
  have ha : (1 : CGFloat) ≠ 0 := by norm_num
  have hsrc : (⟨0, 0, 16, 16⟩ : CRect).isEmpty = false := by norm_num [CRect.isEmpty]
  have hdst : (⟨0, 0, 32, 32⟩ : CRect).isEmpty = false := by norm_num [CRect.isEmpty]
  exact ⟨rfl, rfl, rfl, rfl,
    CGDrawContext.fillRectWithBitmap_base _ _ _ _ _ _ ha hsrc hdst,
    CGDrawContext.fillRectWithBitmap_counts _ _ _ _ _ _ ha hsrc hdst⟩

namespace CGDrawContext

theorem baseSet_currentState (s : CGDrawContext) (c : Call) (state : CDrawContextState) :
    (s.baseSet c state).getCurrentState = state := rfl

theorem baseSet_log (s : CGDrawContext) (c : Call) (state : CDrawContextState) :
    (s.baseSet c state).log = s.log ++ [c] := rfl

theorem baseSet_cgContext_isSome (s : CGDrawContext) (c : Call) (state : CDrawContextState) :
    (s.baseSet c state).cgContext.isSome = s.cgContext.isSome := by
  cases h : s.cgContext <;> simp [baseSet, call, h]

theorem call_cgContext_isSome (s : CGDrawContext) (c : Call) :
    (s.call c).cgContext.isSome = s.cgContext.isSome := by
  cases h : s.cgContext <;> simp [call, h]

theorem setGlobalAlpha_twice (s : CGDrawContext) (base : CDrawContextSetters) (v : CGFloat)
    (h : ∀ st x, (base.setGlobalAlpha st x).globalAlpha = x) :
    (s.setGlobalAlpha base v).setGlobalAlpha base v = s.setGlobalAlpha base v := by
  by_cases hv : v = s.getCurrentState.globalAlpha
  · simp only [setGlobalAlpha, hv, if_true]
  · have e : s.setGlobalAlpha base v =
        (s.call (.CGContextSetAlpha v)).baseSet (.CDrawContext_setGlobalAlpha v)
          (base.setGlobalAlpha (s.call (.CGContextSetAlpha v)).currentState v) := by
      simp only [setGlobalAlpha, hv, if_false]
    rw [e]
    unfold setGlobalAlpha
    rw [if_pos]
    rw [baseSet_currentState, h]

theorem setLineWidth_twice (s : CGDrawContext) (base : CDrawContextSetters) (v : CCoord)
    (h : ∀ st x, (base.setLineWidth st x).frameWidth = x) :
    (s.setLineWidth base v).setLineWidth base v = s.setLineWidth base v := by
  by_cases hv : s.getCurrentState.frameWidth = v
  · simp only [setLineWidth, hv, if_true]
  · have e : s.setLineWidth base v =
        (s.call (.CGContextSetLineWidth v)).baseSet (.CDrawContext_setLineWidth v)
          (base.setLineWidth (s.call (.CGContextSetLineWidth v)).currentState v) := by
      simp only [setLineWidth, hv, if_false]
    rw [e]
    unfold setLineWidth
    rw [if_pos]
    rw [baseSet_currentState, h]

theorem setLineStyle_twice (s : CGDrawContext) (base : CDrawContextSetters) (v : CLineStyle)
    (h : ∀ st x, (base.setLineStyle st x).lineStyle = x) :
    (s.setLineStyle base v).setLineStyle base v = s.setLineStyle base v := by
  by_cases hv : s.getCurrentState.lineStyle = v
  · simp only [setLineStyle, hv, if_true]
  · have e : s.setLineStyle base v =
        s.baseSet (.CDrawContext_setLineStyle v) (base.setLineStyle s.currentState v) := by
      simp only [setLineStyle, hv, if_false]
    rw [e]
    unfold setLineStyle
    rw [if_pos]
    rw [baseSet_currentState, h]

theorem setFontColor_twice (s : CGDrawContext) (base : CDrawContextSetters) (v : CColor)
    (h : ∀ st x, (base.setFontColor st x).fontColor = x) :
    (s.setFontColor base v).setFontColor base v = s.setFontColor base v := by
  by_cases hv : s.getCurrentState.fontColor = v
  · simp only [setFontColor, hv, if_true]
  · have e : s.setFontColor base v =
        s.baseSet (.CDrawContext_setFontColor v) (base.setFontColor s.currentState v) := by
      simp only [setFontColor, hv, if_false]
    rw [e]
    unfold setFontColor
    rw [if_pos]
    rw [baseSet_currentState, h]

theorem setFrameColor_twice (s : CGDrawContext) (base : CDrawContextSetters) (v : CColor)
    (h : ∀ st x, (base.setFrameColor st x).frameColor = x) :
    (s.setFrameColor base v).setFrameColor base v = s.setFrameColor base v := by
  by_cases hv : s.getCurrentState.frameColor = v
  · simp only [setFrameColor, hv, if_true]
  · have e : ∃ x : CGDrawContext, s.setFrameColor base v =
        x.baseSet (.CDrawContext_setFrameColor v) (base.setFrameColor x.currentState v) := by
      simp only [setFrameColor, hv, if_false]
      exact ⟨_, rfl⟩
    obtain ⟨x, e⟩ := e
    rw [e]
    unfold setFrameColor
    rw [if_pos]
    rw [baseSet_currentState, h]

theorem setFillColor_twice (s : CGDrawContext) (base : CDrawContextSetters) (v : CColor)
    (h : ∀ st x, (base.setFillColor st x).fillColor = x) :
    (s.setFillColor base v).setFillColor base v = s.setFillColor base v := by
  by_cases hv : s.getCurrentState.fillColor = v
  · simp only [setFillColor, hv, if_true]
  · have e : ∃ x : CGDrawContext, s.setFillColor base v =
        x.baseSet (.CDrawContext_setFillColor v) (base.setFillColor x.currentState v) := by
      simp only [setFillColor, hv, if_false]
      exact ⟨_, rfl⟩
    obtain ⟨x, e⟩ := e
    rw [e]
    unfold setFillColor
    rw [if_pos]
    rw [baseSet_currentState, h]

theorem setDrawMode_log (s : CGDrawContext) (base : CDrawContextSetters) (mode : CDrawMode) :
    (s.setDrawMode base mode).log =
      s.log ++ (if s.cgContext.isSome
        then [Call.CGContextSetShouldAntialias mode.antiAliasing] else []) ++
        [Call.CDrawContext_setDrawMode mode] := by
  unfold setDrawMode
  cases h : s.cgContext.isSome <;> simp [baseSet_log, call]

theorem setDrawMode_isSome (s : CGDrawContext) (base : CDrawContextSetters)
    (mode : CDrawMode) : (s.setDrawMode base mode).cgContext.isSome = s.cgContext.isSome := by
  unfold setDrawMode
  cases h : s.cgContext.isSome <;>
    simp [baseSet_cgContext_isSome, call_cgContext_isSome, h]

end CGDrawContext

/-- C21: `setGlobalAlpha`, `setLineWidth`, `setFrameColor`, `setFillColor`, `setFontColor`
and `setLineStyle` return the object unchanged (no call is issued, native or into the base
class, and the toolkit state is untouched) when the new value equals the value in the
current state; with base-class setters that store the value in the toolkit state, calling
any of them twice in a row with the same argument gives the same object, log included, as
calling it once.  `setDrawMode` on a context that is not null always issues
`CGContextSetShouldAntialias` with the anti-aliasing flag of the mode before the base-class
call, also for the mode that is current, so two calls issue it twice.  Alpha and line width
are rational numbers here, for which the comparison of the guard is reflexive. -/
theorem setters_noop_on_unchanged_value (self : CGDrawContext) (base : CDrawContextSetters)
    (alpha : CGFloat) (width : CCoord) (style : CLineStyle) (color : CColor)
    (mode : CDrawMode) (k : CGContext)
    (hAlpha : ∀ st x, (base.setGlobalAlpha st x).globalAlpha = x)
    (hWidth : ∀ st x, (base.setLineWidth st x).frameWidth = x)
    (hFrame : ∀ st x, (base.setFrameColor st x).frameColor = x)
    (hFill : ∀ st x, (base.setFillColor st x).fillColor = x)
    (hFont : ∀ st x, (base.setFontColor st x).fontColor = x)
    (hStyle : ∀ st x, (base.setLineStyle st x).lineStyle = x)
    (hk : self.cgContext = some k) :
    ((alpha = self.getCurrentState.globalAlpha → self.setGlobalAlpha base alpha = self) ∧
      (width = self.getCurrentState.frameWidth → self.setLineWidth base width = self) ∧
      (color = self.getCurrentState.frameColor → self.setFrameColor base color = self) ∧
      (color = self.getCurrentState.fillColor → self.setFillColor base color = self) ∧
      (color = self.getCurrentState.fontColor → self.setFontColor base color = self) ∧
      (style = self.getCurrentState.lineStyle → self.setLineStyle base style = self)) ∧
    ((self.setGlobalAlpha base alpha).setGlobalAlpha base alpha
        = self.setGlobalAlpha base alpha ∧
      (self.setLineWidth base width).setLineWidth base width = self.setLineWidth base width ∧
      (self.setFrameColor base color).setFrameColor base color
        = self.setFrameColor base color ∧
      (self.setFillColor base color).setFillColor base color = self.setFillColor base color ∧
      (self.setFontColor base color).setFontColor base color = self.setFontColor base color ∧
      (self.setLineStyle base style).setLineStyle base style
        = self.setLineStyle base style) ∧
    (self.setDrawMode base mode).log =
      self.log ++ [Call.CGContextSetShouldAntialias mode.antiAliasing,
        Call.CDrawContext_setDrawMode mode] ∧
    (self.setDrawMode base self.getDrawMode).log =
      self.log ++ [Call.CGContextSetShouldAntialias self.getDrawMode.antiAliasing,
        Call.CDrawContext_setDrawMode self.getDrawMode] ∧
    ((self.setDrawMode base mode).setDrawMode base mode).log =
      self.log ++ [Call.CGContextSetShouldAntialias mode.antiAliasing,
        Call.CDrawContext_setDrawMode mode,
        Call.CGContextSetShouldAntialias mode.antiAliasing,
        Call.CDrawContext_setDrawMode mode] := by
  have hsome : self.cgContext.isSome = true := by rw [hk]; rfl
  refine ⟨⟨?_, ?_, ?_, ?_, ?_, ?_⟩,
    ⟨CGDrawContext.setGlobalAlpha_twice self base alpha hAlpha,
      CGDrawContext.setLineWidth_twice self base width hWidth,
      CGDrawContext.setFrameColor_twice self base color hFrame,
      CGDrawContext.setFillColor_twice self base color hFill,
      CGDrawContext.setFontColor_twice self base color hFont,
      CGDrawContext.setLineStyle_twice self base style hStyle⟩, ?_, ?_, ?_⟩
  · intro h
    simp only [CGDrawContext.setGlobalAlpha, h, if_true]
  · intro h
    simp only [CGDrawContext.setLineWidth, h, if_true]
  · intro h
    simp only [CGDrawContext.setFrameColor, h, if_true]
  · intro h
    simp only [CGDrawContext.setFillColor, h, if_true]
  · intro h
    simp only [CGDrawContext.setFontColor, h, if_true]
  · intro h
    simp only [CGDrawContext.setLineStyle, h, if_true]
  · rw [CGDrawContext.setDrawMode_log, hsome]
    simp
  · rw [CGDrawContext.setDrawMode_log, hsome]
    simp
  · rw [CGDrawContext.setDrawMode_log, CGDrawContext.setDrawMode_isSome,
      CGDrawContext.setDrawMode_log, hsome]
    simp

/-- Witness of C21: the sample context, with the base-class setters that assign the member
of the toolkit state; alpha 1/2 differs from the current global alpha 1. -/
theorem setters_noop_on_unchanged_value_witness :
    (sampleContext.setGlobalAlpha sampleSetters (1 / 2)).setGlobalAlpha sampleSetters (1 / 2)
        = sampleContext.setGlobalAlpha sampleSetters (1 / 2) ∧
    (sampleContext.setLineWidth sampleSetters 1 = sampleContext) :=
  ⟨(setters_noop_on_unchanged_value sampleContext sampleSetters (1 / 2) 1
      ⟨.kLineCapRound, .kLineJoinMiter, 0, []⟩ ⟨255, 0, 0, 255⟩ ⟨1, false⟩ sampleInitialised
      (fun _ _ => rfl) (fun _ _ => rfl) (fun _ _ => rfl) (fun _ _ => rfl) (fun _ _ => rfl)
      (fun _ _ => rfl) sampleContext_cgContext).2.1.1,
    (setters_noop_on_unchanged_value sampleContext sampleSetters (1 / 2) 1
      ⟨.kLineCapRound, .kLineJoinMiter, 0, []⟩ ⟨255, 0, 0, 255⟩ ⟨1, false⟩ sampleInitialised
      (fun _ _ => rfl) (fun _ _ => rfl) (fun _ _ => rfl) (fun _ _ => rfl) (fun _ _ => rfl)
      (fun _ _ => rfl) sampleContext_cgContext).1.2.1 rfl⟩

theorem perform_restore_depth (x : CGContext) (n : Nat) (h : x.gstack.length = n + 1) :
    (x.perform .CGContextRestoreGState).gstack.length = n := by
  cases hg : x.gstack with
  | nil => rw [hg] at h; simp at h
  | cons t rest =>
    rw [hg] at h
    simp only [CGContext.perform, hg]
    simpa using h

theorem replay_bracket_depth (cs : List Call)
    (hbal : ∀ k : CGContext, (replay cs k).gstack.length = k.gstack.length)
    (condition : Bool) (k : CGContext) :
    (replay ((if condition then [Call.CGContextSaveGState] else []) ++ cs ++
      (if condition then [Call.CGContextRestoreGState] else [])) k).gstack.length
      = k.gstack.length := by
  cases condition with
  | false => simpa using hbal k
  | true =>
    simp only [if_true, replay_append]
    have h1 : replay [Call.CGContextSaveGState] k = k.perform .CGContextSaveGState := rfl
    have h2 : ∀ x : CGContext, replay [Call.CGContextRestoreGState] x
        = x.perform .CGContextRestoreGState := fun _ => rfl
    rw [h1, h2]
    have h3 := hbal (k.perform .CGContextSaveGState)
    have h4 : (k.perform .CGContextSaveGState).gstack.length = k.gstack.length + 1 := by
      simp [CGContext.perform]
    rw [h4] at h3
    exact perform_restore_depth _ _ h3

/-- C22: `DoGraphicStateSave (context, proc, condition)` applies `proc` once: with
`condition` true to the state after one `CGContextSaveGState`, followed by one
`CGContextRestoreGState`; with `condition` false to the state at entry, with no save and no
restore.  When `proc` issues the calls `cs`, the calls issued are the save (if `condition`),
`cs` once, the restore (if `condition`); when `cs` leaves the depth of the graphics-state
stack of every native context as it finds it, so does the whole call. -/
theorem DoGraphicStateSave_runs_proc_once (self : CGDrawContext)
    (proc : CGDrawContext → CGDrawContext) (condition : Bool) (cs : List Call)
    (hproc : (if condition then self.call .CGContextSaveGState else self).Issues
      (proc (if condition then self.call .CGContextSaveGState else self)) cs)
    (hbal : ∀ k : CGContext, (replay cs k).gstack.length = k.gstack.length) :
    self.DoGraphicStateSave proc true =
      (proc (self.call .CGContextSaveGState)).call .CGContextRestoreGState ∧
    self.DoGraphicStateSave proc false = proc self ∧
    (self.DoGraphicStateSave proc condition).log =
      self.log ++ (if condition then [Call.CGContextSaveGState] else []) ++ cs ++
        (if condition then [Call.CGContextRestoreGState] else []) ∧
    (self.DoGraphicStateSave proc condition).cgContext.map (fun k => k.gstack.length) =
      self.cgContext.map (fun k => k.gstack.length) := by
  have hissues : self.Issues (self.DoGraphicStateSave proc condition)
      ((if condition then [Call.CGContextSaveGState] else []) ++ cs ++
        (if condition then [Call.CGContextRestoreGState] else [])) := by
    unfold CGDrawContext.DoGraphicStateSave
    cases condition with
    | false => simpa using hproc
    | true =>
      simp only [if_true] at hproc ⊢
      have h1 := CGDrawContext.Issues.issues_trans hproc
        (CGDrawContext.Issues.issues_call _ .CGContextRestoreGState)
      exact CGDrawContext.Issues.issues_cons h1
  refine ⟨rfl, rfl, ?_, ?_⟩
  · rw [hissues.1]
    simp only [List.append_assoc]
  · rw [hissues.2]
    cases hk : self.cgContext with
    | none => rfl
    | some k =>
      simp only [Option.map_some', Option.some.injEq]
      exact replay_bracket_depth cs hbal condition k

/-- Witness of C22: on the sample context, a procedure that translates between a save and
a restore of its own, run with `condition` true. -/
theorem DoGraphicStateSave_runs_proc_once_witness :
    (sampleContext.DoGraphicStateSave sampleProc true).log =
      sampleContext.log ++ (if true then [Call.CGContextSaveGState] else []) ++
        [Call.CGContextSaveGState, Call.CGContextTranslateCTM 1 1,
          Call.CGContextRestoreGState] ++
        (if true then [Call.CGContextRestoreGState] else []) :=
  (DoGraphicStateSave_runs_proc_once sampleContext sampleProc true
    [.CGContextSaveGState, .CGContextTranslateCTM 1 1, .CGContextRestoreGState]
    (CGDrawContext.calls_issues _ _)
    (fun k => by simp [replay, CGContext.perform])).2.2.1

theorem performRounded_id (k : CGContext) (c : Call) :
    k.performRounded id c = k.perform c := by
  cases c <;> try rfl
  · simp only [CGContext.performRounded, CGContext.perform, CGAffineTransformConcat,
      CGAffineTransformMakeTranslation, id]
    congr 1
    cases hk : k.ctm
    simp only [CGAffineTransform.mk.injEq]
    refine ⟨?_, ?_, ?_, ?_, ?_, ?_⟩ <;> ring_nf
  · simp only [CGContext.performRounded, CGContext.perform, CGAffineTransformConcat,
      CGAffineTransformMakeScale, id]
    congr 1
    cases hk : k.ctm
    simp only [CGAffineTransform.mk.injEq]
    refine ⟨?_, ?_, ?_, ?_, ?_, ?_⟩ <;> ring_nf

theorem replayRounded_id (cs : List Call) : ∀ k : CGContext, replayRounded id cs k = replay cs k := by
  induction cs with
  | nil => intro k; rfl
  | cons c cs ih =>
    intro k
    simp only [replayRounded, replay, List.foldl_cons, performRounded_id]
    exact ih _

theorem replayRounded_append (fl : ℚ → ℚ) (a b : List Call) (k : CGContext) :
    replayRounded fl (a ++ b) k = replayRounded fl b (replayRounded fl a k) := by
  simp [replayRounded, List.foldl_append]

theorem replayRounded_strokes (fl : ℚ → ℚ) (strokes : List Call)
    (h : ∀ c ∈ strokes, c.isStroke = true) (k : CGContext) :
    replayRounded fl strokes k = k := by
  induction strokes with
  | nil => rfl
  | cons c cs ih =>
    have hc : c.isStroke = true := h c (List.mem_cons_self _ _)
    have hstep : k.performRounded fl c = k := by
      cases c <;> simp [Call.isStroke] at hc
      rfl
    simp only [replayRounded, List.foldl_cons, hstep]
    exact ih (fun x hx => h x (List.mem_cons_of_mem _ hx))

theorem replayRounded_flag_bracket (fl : ℚ → ℚ) (flag : Bool) (pre mid : List Call)
    (hp : ∀ k : CGContext, replayRounded fl pre k = k)
    (hm : ∀ k : CGContext, replayRounded fl mid k = k) (k : CGContext) :
    replayRounded fl (pre ++ (if flag then [Call.CGContextTranslateCTM (1 / 2) (1 / 2)] else [])
        ++ mid ++
        (if flag then [Call.CGContextTranslateCTM (-(1 / 2)) (-(1 / 2))] else [])) k =
      if flag then
        (k.performRounded fl (.CGContextTranslateCTM (1 / 2) (1 / 2))).performRounded fl
          (.CGContextTranslateCTM (-(1 / 2)) (-(1 / 2)))
      else k := by
  cases flag with
  | false =>
    simp only [Bool.false_eq_true, if_false, List.append_nil, replayRounded_append, hp, hm]
  | true =>
    simp only [if_true, replayRounded_append, hp, hm]
    rfl

namespace Platform.CoreGraphicsDrawDevice

theorem dev_issuedSince_of_issues {s s' : CoreGraphicsDrawDevice} {cs : List Call}
    (h : s.Issues s' cs) : s.issuedSince s' = cs := by
  simp [issuedSince, h.1]

end Platform.CoreGraphicsDrawDevice

theorem drawLine_rounded (dev : CoreGraphicsDrawDevice) (line : LinePair) (fl : ℚ → ℚ)
    (k : CGContext) :
    replayRounded fl (dev.issuedSince (dev.drawLine line)) k =
      if (decide (dev.pixelAlignmentMode = PixelAlignmentMode.On) && dev.needLineWidthCTM) then
        (k.performRounded fl (.CGContextTranslateCTM (1 / 2) (1 / 2))).performRounded fl
          (.CGContextTranslateCTM (-(1 / 2)) (-(1 / 2)))
      else k := by
  rw [CoreGraphicsDrawDevice.dev_issuedSince_of_issues (CoreGraphicsDrawDevice.drawLine_issues dev line)]
  refine replayRounded_flag_bracket fl _ [Call.CGContextBeginPath] _ ?_ ?_ k <;>
    intro _ <;> rfl

theorem drawRect_rounded (dev : CoreGraphicsDrawDevice) (rect : CRect) (drawStyle : DrawStyle)
    (fl : ℚ → ℚ) (k : CGContext) :
    replayRounded fl (dev.issuedSince (dev.drawRect rect drawStyle)) k =
      if (decide (dev.pixelAlignmentMode = PixelAlignmentMode.On) &&
          decide (drawStyle ≠ DrawStyle.Filled) && dev.needLineWidthCTM) then
        (k.performRounded fl (.CGContextTranslateCTM (1 / 2) (1 / 2))).performRounded fl
          (.CGContextTranslateCTM (-(1 / 2)) (-(1 / 2)))
      else k := by
  rw [CoreGraphicsDrawDevice.dev_issuedSince_of_issues
    (CoreGraphicsDrawDevice.drawRect_issues dev rect drawStyle)]
  have h := replayRounded_flag_bracket fl
    (decide (dev.pixelAlignmentMode = PixelAlignmentMode.On) &&
      decide (drawStyle ≠ DrawStyle.Filled) && dev.needLineWidthCTM) []
    [Call.CGContextBeginPath,
      Call.CGContextAddRect
        (if dev.pixelAlignmentMode = PixelAlignmentMode.On
          then dev.pixelAlligned_CGRect
            (if drawStyle ≠ DrawStyle.Filled
              then ⟨(CGRectFromCRect rect).origin,
                ⟨(CGRectFromCRect rect).size.width - 1,
                  (CGRectFromCRect rect).size.height - 1⟩⟩
              else CGRectFromCRect rect)
          else (if drawStyle ≠ DrawStyle.Filled
              then ⟨(CGRectFromCRect rect).origin,
                ⟨(CGRectFromCRect rect).size.width - 1,
                  (CGRectFromCRect rect).size.height - 1⟩⟩
              else CGRectFromCRect rect)),
      Call.CGContextDrawPath (drawStyleToCGPathDrawingMode drawStyle)]
    (fun _ => rfl) (fun _ => rfl) k
  simpa using h

theorem drawLines_rounded (dev : CoreGraphicsDrawDevice) (lines : LineList) (fl : ℚ → ℚ)
    (k : CGContext) :
    replayRounded fl (dev.issuedSince (dev.drawLines lines)) k =
      if (decide (dev.pixelAlignmentMode = PixelAlignmentMode.On) && dev.needLineWidthCTM) then
        (k.performRounded fl (.CGContextTranslateCTM (1 / 2) (1 / 2))).performRounded fl
          (.CGContextTranslateCTM (-(1 / 2)) (-(1 / 2)))
      else k := by
  obtain ⟨strokes, h1, h2⟩ := CoreGraphicsDrawDevice.drawLines_issues dev lines
  rw [CoreGraphicsDrawDevice.dev_issuedSince_of_issues h1]
  have hs : ∀ c ∈ strokes, c.isStroke = true := by
    intro c hc
    obtain ⟨i, np, hi⟩ := h2 c hc
    rw [hi]
    rfl
  have h := replayRounded_flag_bracket fl
    (decide (dev.pixelAlignmentMode = PixelAlignmentMode.On) && dev.needLineWidthCTM) []
    strokes (fun _ => rfl) (replayRounded_strokes fl strokes hs) k
  simpa using h


theorem roundToDouble_of_binade (x : ℚ) (e : ℤ) (h1 : (2 : ℚ) ^ e ≤ |x|)
    (h2 : |x| < (2 : ℚ) ^ (e + 1)) :
    roundToDouble x = (roundHalfEven (x / 2 ^ (e - 52)) : ℚ) * 2 ^ (e - 52) := by
  have hpos : (0 : ℚ) < |x| := lt_of_lt_of_le (by positivity) h1
  have hx : x ≠ 0 := by
    intro h
    rw [h] at hpos
    simp at hpos
  have hlog : Int.log 2 |x| = e := by
    have a1 : e ≤ Int.log 2 |x| := by
      rw [← Int.zpow_le_iff_le_log (by norm_num) hpos]
      exact_mod_cast h1
    have a2 : Int.log 2 |x| < e + 1 := by
      rw [← Int.lt_zpow_iff_log_lt (by norm_num) hpos]
      exact_mod_cast h2
    omega
  unfold roundToDouble
  rw [if_neg hx, hlog]

theorem roundHalfEven_of_lt (y : ℚ) (n : ℤ) (h1 : (n : ℚ) ≤ y) (h2 : y < n + 1 / 2) :
    roundHalfEven y = n := by
  have hf : ⌊y⌋ = n := by
    rw [Int.floor_eq_iff]
    constructor
    · exact h1
    · linarith
  unfold roundHalfEven
  rw [hf, if_pos (by linarith)]

/-- The double nearest to `0.1 + 0.5`. -/
theorem roundToDouble_sum :
    roundToDouble (sampleTenth + 1 / 2) = 5404319552844595 / 9007199254740992 := by
  rw [roundToDouble_of_binade _ (-1) (by norm_num [sampleTenth, abs_of_pos])
    (by norm_num [sampleTenth, abs_of_pos]),
    roundHalfEven_of_lt _ 5404319552844595 (by norm_num [sampleTenth])
      (by norm_num [sampleTenth])]
  norm_num

/-- The difference of the double nearest to `0.1 + 0.5` and `0.5` is a double. -/
theorem roundToDouble_difference :
    roundToDouble (5404319552844595 / 9007199254740992 - 1 / 2)
      = 900719925474099 / 9007199254740992 := by
  rw [roundToDouble_of_binade _ (-4) (by norm_num [abs_of_pos])
    (by norm_num [abs_of_pos]),
    roundHalfEven_of_lt _ 7205759403792792 (by norm_num) (by norm_num)]
  norm_num

theorem roundToDouble_sampleTenth : roundToDouble sampleTenth = sampleTenth := by
  rw [roundToDouble_of_binade _ (-4) (by norm_num [sampleTenth, abs_of_pos])
    (by norm_num [sampleTenth, abs_of_pos]),
    roundHalfEven_of_lt _ 7205759403792794 (by norm_num [sampleTenth])
      (by norm_num [sampleTenth])]
  norm_num [sampleTenth]

theorem sampleTenthDevice_flag :
    (decide (sampleTenthDevice.pixelAlignmentMode = PixelAlignmentMode.On) &&
      sampleTenthDevice.needLineWidthCTM) = true := by
  rw [needLineWidthCTM_eq]
  have h : lineWidthTest sampleTenthDevice.lineWidth = true := by
    rw [lineWidthTest_iff]
    exact ⟨1, by norm_num [sampleTenthDevice], by decide⟩
  rw [h]
  rfl


theorem roundToDouble_half : roundToDouble (1 / 2) = 1 / 2 := by
  rw [roundToDouble_of_binade _ (-1) (by norm_num [abs_of_pos]) (by norm_num [abs_of_pos]),
    roundHalfEven_of_lt _ 4503599627370496 (by norm_num) (by norm_num)]
  norm_num

theorem roundToDouble_zero : roundToDouble 0 = 0 := by
  simp [roundToDouble]

/-- Counterexample to C10: a device with pixel alignment on and line width 1, on a native
context that keeps its CTM in doubles and whose CTM is the translation by the double
nearest to `0.1` along x.  `drawLine` issues the translation by `(0.5, 0.5)` and later the
translation by `(-0.5, -0.5)`; the sum `0.1 + 0.5` is rounded, the difference is exact, and
the CTM on return has the x translation `900719925474099 / 2 ^ 53`, which is not the one at
entry. -/
theorem device_translation_not_restored_in_doubles :
    roundToDouble sampleTenth = sampleTenth ∧
    (replayRounded roundToDouble
      (sampleTenthDevice.issuedSince (sampleTenthDevice.drawLine ⟨⟨0, 0⟩, ⟨10, 0⟩⟩))
      sampleTenthNative).ctm = ⟨1, 0, 0, 1, 900719925474099 / 9007199254740992, 0⟩ ∧
    (replayRounded roundToDouble
      (sampleTenthDevice.issuedSince (sampleTenthDevice.drawLine ⟨⟨0, 0⟩, ⟨10, 0⟩⟩))
      sampleTenthNative).ctm ≠ sampleTenthNative.ctm := by
  have e1 : (1 / 2 : ℚ) * 1 + 1 / 2 * 0 + sampleTenth = sampleTenth + 1 / 2 := by ring
  have e2 : (1 / 2 : ℚ) * 0 + 1 / 2 * 1 + 0 = 1 / 2 := by ring
  have e3 : (-(1 / 2) : ℚ) * 1 + -(1 / 2) * 0 + 5404319552844595 / 9007199254740992
      = 5404319552844595 / 9007199254740992 - 1 / 2 := by ring
  have e4 : (-(1 / 2) : ℚ) * 0 + -(1 / 2) * 1 + 1 / 2 = 0 := by ring
  have h : (replayRounded roundToDouble
      (sampleTenthDevice.issuedSince (sampleTenthDevice.drawLine ⟨⟨0, 0⟩, ⟨10, 0⟩⟩))
      sampleTenthNative).ctm = ⟨1, 0, 0, 1, 900719925474099 / 9007199254740992, 0⟩ := by
    rw [drawLine_rounded, sampleTenthDevice_flag, if_pos rfl]
    simp only [CGContext.performRounded, sampleTenthNative, e1, e2, roundToDouble_sum,
      roundToDouble_half, e3, e4, roundToDouble_difference, roundToDouble_zero]
  refine ⟨roundToDouble_sampleTenth, h, ?_⟩
  rw [h]
  simp only [sampleTenthNative, sampleTenth, ne_eq, CGAffineTransform.mk.injEq, true_and,
    and_true]
  norm_num

/-- C10 (amended): `CoreGraphicsDrawDevice::drawLine`, `drawLines` and `drawRect` issue the
translation by `(1/2, 1/2)` and, after the drawing calls, the translation by `(-1/2, -1/2)`
exactly when the flag computed at entry holds, and no translation otherwise; every point
and rectangle passed on is aligned for the device state at entry, before the translation.
On a native context that rounds the CTM entries it computes (by any `fl`), the context on
return is the one at entry when the flag is false, and the one at entry with the two
translations performed when it is true; the two translations change neither the stack of
saved states nor the linear part of the CTM, and in exact arithmetic (`fl` the identity)
they cancel. -/
theorem device_half_pixel_translation_paired (dev : CoreGraphicsDrawDevice)
    (line : LinePair) (lines : LineList) (rect : CRect) (drawStyle : DrawStyle) :
    (dev.drawLine line).log = dev.log ++
      ([Call.CGContextBeginPath] ++
        (if (decide (dev.pixelAlignmentMode = PixelAlignmentMode.On) && dev.needLineWidthCTM)
          then [Call.CGContextTranslateCTM (1 / 2) (1 / 2)] else []) ++
        [Call.CGContextMoveToPoint
            (if dev.pixelAlignmentMode = PixelAlignmentMode.On
              then dev.pixelAlligned_CGPoint (CGPointFromCPoint line.first)
              else CGPointFromCPoint line.first).x
            (if dev.pixelAlignmentMode = PixelAlignmentMode.On
              then dev.pixelAlligned_CGPoint (CGPointFromCPoint line.first)
              else CGPointFromCPoint line.first).y,
          Call.CGContextAddLineToPoint
            (if dev.pixelAlignmentMode = PixelAlignmentMode.On
              then dev.pixelAlligned_CGPoint (CGPointFromCPoint line.second)
              else CGPointFromCPoint line.second).x
            (if dev.pixelAlignmentMode = PixelAlignmentMode.On
              then dev.pixelAlligned_CGPoint (CGPointFromCPoint line.second)
              else CGPointFromCPoint line.second).y,
          Call.CGContextDrawPath .kCGPathStroke] ++
        (if (decide (dev.pixelAlignmentMode = PixelAlignmentMode.On) && dev.needLineWidthCTM)
          then [Call.CGContextTranslateCTM (-(1 / 2)) (-(1 / 2))] else [])) ∧
    (∃ strokes : List Call,
      (dev.drawLines lines).log = dev.log ++
        ((if (decide (dev.pixelAlignmentMode = PixelAlignmentMode.On) && dev.needLineWidthCTM)
            then [Call.CGContextTranslateCTM (1 / 2) (1 / 2)] else []) ++ strokes ++
          (if (decide (dev.pixelAlignmentMode = PixelAlignmentMode.On) && dev.needLineWidthCTM)
            then [Call.CGContextTranslateCTM (-(1 / 2)) (-(1 / 2))] else [])) ∧
      ∀ c ∈ strokes, ∃ i np, c = Call.CGContextStrokeLineSegments
        (((CoreGraphicsDrawDevice.fillPoints
          (fun p => if dev.pixelAlignmentMode = PixelAlignmentMode.On
            then dev.pixelAlligned_CGPoint p else p) lines).drop i).take np) np) ∧
    (dev.drawRect rect drawStyle).log = dev.log ++
      ((if (decide (dev.pixelAlignmentMode = PixelAlignmentMode.On) &&
            decide (drawStyle ≠ DrawStyle.Filled) && dev.needLineWidthCTM)
          then [Call.CGContextTranslateCTM (1 / 2) (1 / 2)] else []) ++
        [Call.CGContextBeginPath,
          Call.CGContextAddRect
            (if dev.pixelAlignmentMode = PixelAlignmentMode.On
              then dev.pixelAlligned_CGRect
                (if drawStyle ≠ DrawStyle.Filled
                  then ⟨(CGRectFromCRect rect).origin,
                    ⟨(CGRectFromCRect rect).size.width - 1,
                      (CGRectFromCRect rect).size.height - 1⟩⟩
                  else CGRectFromCRect rect)
              else (if drawStyle ≠ DrawStyle.Filled
                  then ⟨(CGRectFromCRect rect).origin,
                    ⟨(CGRectFromCRect rect).size.width - 1,
                      (CGRectFromCRect rect).size.height - 1⟩⟩
                  else CGRectFromCRect rect)),
          Call.CGContextDrawPath (drawStyleToCGPathDrawingMode drawStyle)] ++
        (if (decide (dev.pixelAlignmentMode = PixelAlignmentMode.On) &&
            decide (drawStyle ≠ DrawStyle.Filled) && dev.needLineWidthCTM)
          then [Call.CGContextTranslateCTM (-(1 / 2)) (-(1 / 2))] else [])) ∧
    (∀ (fl : ℚ → ℚ) (k : CGContext),
      replayRounded fl (dev.issuedSince (dev.drawLine line)) k =
        (if (decide (dev.pixelAlignmentMode = PixelAlignmentMode.On) && dev.needLineWidthCTM)
          then (k.performRounded fl (.CGContextTranslateCTM (1 / 2) (1 / 2))).performRounded fl
            (.CGContextTranslateCTM (-(1 / 2)) (-(1 / 2)))
          else k) ∧
      replayRounded fl (dev.issuedSince (dev.drawLines lines)) k =
        (if (decide (dev.pixelAlignmentMode = PixelAlignmentMode.On) && dev.needLineWidthCTM)
          then (k.performRounded fl (.CGContextTranslateCTM (1 / 2) (1 / 2))).performRounded fl
            (.CGContextTranslateCTM (-(1 / 2)) (-(1 / 2)))
          else k) ∧
      replayRounded fl (dev.issuedSince (dev.drawRect rect drawStyle)) k =
        (if (decide (dev.pixelAlignmentMode = PixelAlignmentMode.On) &&
            decide (drawStyle ≠ DrawStyle.Filled) && dev.needLineWidthCTM)
          then (k.performRounded fl (.CGContextTranslateCTM (1 / 2) (1 / 2))).performRounded fl
            (.CGContextTranslateCTM (-(1 / 2)) (-(1 / 2)))
          else k)) ∧
    (∀ (fl : ℚ → ℚ) (k : CGContext),
      ((k.performRounded fl (.CGContextTranslateCTM (1 / 2) (1 / 2))).performRounded fl
        (.CGContextTranslateCTM (-(1 / 2)) (-(1 / 2)))).gstack = k.gstack ∧
      ((k.performRounded fl (.CGContextTranslateCTM (1 / 2) (1 / 2))).performRounded fl
        (.CGContextTranslateCTM (-(1 / 2)) (-(1 / 2)))).ctm.a = k.ctm.a ∧
      ((k.performRounded fl (.CGContextTranslateCTM (1 / 2) (1 / 2))).performRounded fl
        (.CGContextTranslateCTM (-(1 / 2)) (-(1 / 2)))).ctm.b = k.ctm.b ∧
      ((k.performRounded fl (.CGContextTranslateCTM (1 / 2) (1 / 2))).performRounded fl
        (.CGContextTranslateCTM (-(1 / 2)) (-(1 / 2)))).ctm.c = k.ctm.c ∧
      ((k.performRounded fl (.CGContextTranslateCTM (1 / 2) (1 / 2))).performRounded fl
        (.CGContextTranslateCTM (-(1 / 2)) (-(1 / 2)))).ctm.d = k.ctm.d) ∧
    (∀ k : CGContext,
      (k.performRounded id (.CGContextTranslateCTM (1 / 2) (1 / 2))).performRounded id
        (.CGContextTranslateCTM (-(1 / 2)) (-(1 / 2))) = k) := by
  refine ⟨(CoreGraphicsDrawDevice.drawLine_issues dev line).1, ?_,
    (CoreGraphicsDrawDevice.drawRect_issues dev rect drawStyle).1, ?_, ?_, ?_⟩
  · obtain ⟨strokes, h1, h2⟩ := CoreGraphicsDrawDevice.drawLines_issues dev lines
    exact ⟨strokes, h1.1, h2⟩
  · intro fl k
    exact ⟨drawLine_rounded dev line fl k, drawLines_rounded dev lines fl k,
      drawRect_rounded dev rect drawStyle fl k⟩
  · intro fl k
    exact ⟨rfl, rfl, rfl, rfl, rfl⟩
  · intro k
    rw [performRounded_id, performRounded_id]
    have h := replay_translate_bracket [] [] (by simp) (by simp) k
    simpa [replay] using h

namespace CGDrawContext

theorem layerForBitmap_provenance (x : CGDrawContext) (cg : CGBitmap) (layer : CGLayerRef)
    (h : (x.layerForBitmap cg).1 = some layer) :
    x.getCGLayer cg = some layer ∨ cg.newLayer = some layer := by
  unfold layerForBitmap at h
  split at h
  · split at h
    · rename_i l hl
      left
      rw [hl]
      exact h
    · split at h
      · simp at h
      · right
        simp only [createCGLayer] at h
        split at h
        · rename_i l hl
          rw [hl]
          exact h
        · simp at h
  · simp at h

theorem layerForBitmap_issues (x : CGDrawContext) (cg : CGBitmap) :
    ∃ cs, x.Issues (x.layerForBitmap cg).2 cs ∧
      ∀ c ∈ cs, c.isDrawLayer = false ∧ c.isDrawImage = false := by
  unfold layerForBitmap
  split
  · split
    · exact ⟨[], Issues.issues_refl _, by simp⟩
    · split
      · exact ⟨[], Issues.issues_of_eq rfl rfl, by simp⟩
      · simp only [createCGLayer]
        split
        · refine ⟨[Call.CGBitmap_createCGLayer cg.id], ?_, ?_⟩
          · exact ⟨rfl, by cases h : x.cgContext <;> simp [call, replay, CGContext.perform, h]⟩
          · intro c hc
            simp only [List.mem_singleton] at hc
            subst hc
            exact ⟨rfl, rfl⟩
        · refine ⟨[Call.CGBitmap_createCGLayer cg.id], ?_, ?_⟩
          · exact ⟨rfl, by cases h : x.cgContext <;> simp [call, replay, CGContext.perform, h]⟩
          · intro c hc
            simp only [List.mem_singleton] at hc
            subst hc
            exact ⟨rfl, rfl⟩
  · exact ⟨[], Issues.issues_refl _, by simp⟩

theorem layerForBitmap_getCGLayer_begun (s : CGDrawContext) (a b : Bool) (cg : CGBitmap) :
    (s.beginCGContext a b).2.getCGLayer cg = s.getCGLayer cg := by
  obtain ⟨_, _, _, _, _, _, m7⟩ := beginCGContext_same s a b
  simp only [getCGLayer, m7]

/-- A successful `drawBitmap` issues exactly one draw call, as its last call before the
closing `CGContextRestoreGState`: the image of the platform bitmap `cg`, or a layer of
`cg`. -/
theorem drawBitmap_draws_platform_bitmap (s : CGDrawContext) (b : CBitmap) (cg : CGBitmap)
    (image : CGImageRef) (alpha : CGFloat) (r : CRect) (o : CPoint)
    (h : s.Draws b cg image alpha) :
    ∃ (pre : List Call) (drawCall : Call),
      s.issuedSince (s.drawBitmap (some b) r o alpha)
        = pre ++ [drawCall, Call.CGContextRestoreGState] ∧
      (∀ c ∈ pre, c.isDrawLayer = false ∧ c.isDrawImage = false) ∧
      ((∃ dest, drawCall = Call.CGContextDrawImage dest image) ∨
        (∃ dest layer, drawCall = Call.CGContextDrawLayerInRect dest layer ∧
          (s.getCGLayer cg = some layer ∨ cg.newLayer = some layer))) := by
  rw [drawBitmap_draws s b cg image alpha r o h]
  obtain ⟨cs0, h0, q0⟩ := beginCGContext_quiet s false true
  obtain ⟨cs1, h1, q1⟩ := layerForBitmap_issues (s.beginCGContext false true).2 cg
  have hprov := layerForBitmap_provenance (s.beginCGContext false true).2 cg
  rw [layerForBitmap_getCGLayer_begun] at hprov
  cases hl : ((s.beginCGContext false true).2.layerForBitmap cg).1 with
  | none =>
    obtain ⟨s1, dest, ⟨cs2, h2, q2⟩, he⟩ := drawCGImageRef_image
      ((s.beginCGContext false true).2.layerForBitmap cg).2 image cg.scaleFactor r o alpha b
    rw [he]
    refine ⟨cs0 ++ cs1 ++ cs2, Call.CGContextDrawImage dest image, ?_, ?_, Or.inl ⟨dest, rfl⟩⟩
    · have hi := ((h0.issues_trans h1).issues_trans h2).issues_trans
        ((Issues.issues_call s1 (.CGContextDrawImage dest image)).issues_trans
          (Issues.issues_call _ .CGContextRestoreGState))
      have := issuedSince_of_issues hi
      simpa [releaseCGContext] using this
    · intro c hc
      simp only [List.mem_append] at hc
      rcases hc with (hc | hc) | hc
      · exact ⟨(q0 c hc).2.1, (q0 c hc).2.2⟩
      · exact q1 c hc
      · exact ⟨(q2 c hc).2.1, (q2 c hc).2.2⟩
  | some layer =>
    obtain ⟨s1, dest, ⟨cs2, h2, q2⟩, he⟩ := drawCGImageRef_layer
      ((s.beginCGContext false true).2.layerForBitmap cg).2 image layer cg.scaleFactor r o
      alpha b
    rw [he]
    refine ⟨cs0 ++ cs1 ++ cs2, Call.CGContextDrawLayerInRect dest layer, ?_, ?_,
      Or.inr ⟨dest, layer, rfl, hprov layer hl⟩⟩
    · have hi := ((h0.issues_trans h1).issues_trans h2).issues_trans
        ((Issues.issues_call s1 (.CGContextDrawLayerInRect dest layer)).issues_trans
          (Issues.issues_call _ .CGContextRestoreGState))
      have := issuedSince_of_issues hi
      simpa [releaseCGContext] using this
    · intro c hc
      simp only [List.mem_append] at hc
      rcases hc with (hc | hc) | hc
      · exact ⟨(q0 c hc).2.1, (q0 c hc).2.2⟩
      · exact q1 c hc
      · exact ⟨(q2 c hc).2.1, (q2 c hc).2.2⟩

end CGDrawContext


/-- C18: let `factor` be `scaleFactor * m11` when the current transform is a uniform
axis-aligned scale (`m11 = m22`, `m12 = 0`, `m21 = 0`) and `scaleFactor` for every other
transform (with the identity transform it is `scaleFactor`).  `drawBitmap` draws the
platform bitmap that the bitmap returns as the best for `factor`: when there is none,
nothing is issued; when it is the `CGBitmap` `cg` with the image `image`, on a context that
is not null with a clip that is not empty and for an alpha other than zero, exactly one draw
call is issued, the last call before the closing `CGContextRestoreGState`, and it draws
`image` or a layer of `cg`; and what the bitmap returns for any other factor does not
matter, two bitmaps of the same size that agree on `factor` being drawn alike.  The
`scaleFactor` of a context constructed from a native context is the device-space height of
the user-space rectangle `(0, 0, 100, 100)` divided by 100. -/
theorem drawBitmap_requested_scale_factor (self : CGDrawContext) (b b' : CBitmap)
    (rect : CRect) (offset : CPoint) (alpha : CGFloat) (cg : CGBitmap) (image : CGImageRef)
    (k : CGContext) (cgContext : Option CGContext) (state : CDrawContextState)
    (transform : CGraphicsTransform)
    (hk : self.cgContext = some k) (hclip : self.getCurrentState.clipRect.isEmpty = false)
    (ha : alpha ≠ 0) :
    let t := self.getCurrentTransform
    let factor :=
      if t.m11 = t.m22 ∧ t.m12 = 0 ∧ t.m21 = 0 then self.scaleFactor * t.m11
      else self.scaleFactor
    (b.bestPlatformBitmapForScaleFactor factor = none →
      self.drawBitmap (some b) rect offset alpha = self) ∧
    (b.bestPlatformBitmapForScaleFactor factor = some (.cgBitmap cg) →
      cg.cgImage = some image →
      ∃ (pre : List Call) (drawCall : Call),
        self.issuedSince (self.drawBitmap (some b) rect offset alpha)
          = pre ++ [drawCall, Call.CGContextRestoreGState] ∧
        (∀ c ∈ pre, c.isDrawLayer = false ∧ c.isDrawImage = false) ∧
        ((∃ dest, drawCall = Call.CGContextDrawImage dest image) ∨
          (∃ dest layer, drawCall = Call.CGContextDrawLayerInRect dest layer ∧
            (self.getCGLayer cg = some layer ∨ cg.newLayer = some layer)))) ∧
    (b.width = b'.width → b.height = b'.height →
      b.bestPlatformBitmapForScaleFactor factor = b'.bestPlatformBitmapForScaleFactor factor →
      self.drawBitmap (some b) rect offset alpha
        = self.drawBitmap (some b') rect offset alpha) ∧
    (t = ⟨1, 0, 0, 1, 0, 0⟩ → factor = self.scaleFactor) ∧
    (CGDrawContext.construct cgContext state transform).scaleFactor =
      (CGContextConvertRectToDeviceSpace cgContext ⟨⟨0, 0⟩, ⟨100, 100⟩⟩).size.height / 100 := by
  intro t factor
  have hf : self.transformedScaleFactor = factor := rfl
  refine ⟨?_, ?_, ?_, ?_, construct_scaleFactor cgContext state transform⟩
  · intro hnone
    unfold CGDrawContext.drawBitmap
    simp only [hf, hnone]
    split <;> rfl
  · intro hbest himage
    exact CGDrawContext.drawBitmap_draws_platform_bitmap self b cg image alpha rect offset
      ⟨⟨k, hk⟩, hclip, ha, by rw [hf]; exact hbest, himage⟩
  · intro hw hh hbest
    unfold CGDrawContext.drawBitmap
    simp only [hf, hbest]
    repeat' split
    all_goals first | rfl | rw [drawCGImageRef_bitmap_size _ _ _ _ _ _ _ b b' hw hh]
  · intro ht
    have ht' : self.getCurrentTransform = ⟨1, 0, 0, 1, 0, 0⟩ := ht
    simp only [factor, t, ht', and_self, if_true, mul_one]

theorem sampleZoomedContext_clip :
    sampleZoomedContext.getCurrentState.clipRect.isEmpty = false := by
  simp [CGDrawContext.getCurrentState, sampleZoomedContext, sampleUnitContext, sampleContext,
    CGDrawContext.construct, CGDrawContext.init, CGDrawContext.call, sampleState,
    CRect.isEmpty]

theorem sampleStretchedContext_clip :
    sampleStretchedContext.getCurrentState.clipRect.isEmpty = false := by
  simp [CGDrawContext.getCurrentState, sampleStretchedContext, sampleUnitContext,
    sampleContext, CGDrawContext.construct, CGDrawContext.init, CGDrawContext.call,
    sampleState, CRect.isEmpty]

/-- Witness of C18: the sample bitmap with two platform bitmaps on a context of scale
factor 1.  Under the zoom by 2 the factor is `1 * 2` and the draw call draws the image (or a
layer) of the platform bitmap of scale factor 2; under the stretch by 2 and 3 the factor
is 1 and it draws the image (or a layer) of the platform bitmap of scale factor 1. -/
theorem drawBitmap_requested_scale_factor_witness :
    (∃ (pre : List Call) (drawCall : Call),
      sampleZoomedContext.issuedSince
          (sampleZoomedContext.drawBitmap (some sampleMultiBitmap) ⟨0, 0, 16, 16⟩ ⟨0, 0⟩ 1)
        = pre ++ [drawCall, Call.CGContextRestoreGState] ∧
      (∀ c ∈ pre, c.isDrawLayer = false ∧ c.isDrawImage = false) ∧
      ((∃ dest, drawCall = Call.CGContextDrawImage dest ⟨2, 32, 32⟩) ∨
        (∃ dest layer, drawCall = Call.CGContextDrawLayerInRect dest layer ∧
          (sampleZoomedContext.getCGLayer sampleCGBitmap2x = some layer ∨
            sampleCGBitmap2x.newLayer = some layer)))) ∧
    (∃ (pre : List Call) (drawCall : Call),
      sampleStretchedContext.issuedSince
          (sampleStretchedContext.drawBitmap (some sampleMultiBitmap) ⟨0, 0, 16, 16⟩ ⟨0, 0⟩ 1)
        = pre ++ [drawCall, Call.CGContextRestoreGState] ∧
      (∀ c ∈ pre, c.isDrawLayer = false ∧ c.isDrawImage = false) ∧
      ((∃ dest, drawCall = Call.CGContextDrawImage dest ⟨1, 16, 16⟩) ∨
        (∃ dest layer, drawCall = Call.CGContextDrawLayerInRect dest layer ∧
          (sampleStretchedContext.getCGLayer sampleCGBitmap = some layer ∨
            sampleCGBitmap.newLayer = some layer)))) :=
  ⟨(drawBitmap_requested_scale_factor sampleZoomedContext sampleMultiBitmap sampleMultiBitmap
      ⟨0, 0, 16, 16⟩ ⟨0, 0⟩ 1 sampleCGBitmap2x ⟨2, 32, 32⟩ sampleInitialised
      (some sampleNative) sampleState sampleTransform rfl sampleZoomedContext_clip
      (by norm_num)).2.1
      (by norm_num [sampleMultiBitmap, sampleZoomedContext, sampleUnitContext,
        CGDrawContext.getCurrentTransform]) rfl,
    (drawBitmap_requested_scale_factor sampleStretchedContext sampleMultiBitmap
      sampleMultiBitmap ⟨0, 0, 16, 16⟩ ⟨0, 0⟩ 1 sampleCGBitmap ⟨1, 16, 16⟩ sampleInitialised
      (some sampleNative) sampleState sampleTransform rfl sampleStretchedContext_clip
      (by norm_num)).2.1
      (by norm_num [sampleMultiBitmap, sampleStretchedContext, sampleUnitContext,
        CGDrawContext.getCurrentTransform]) rfl⟩

end VSTGUI
